import Mathlib

/-!
# pawcook-webserver: the per-connection HTTP state machine, the timer list and the work queue

A shallow embedding of `src/include/http_conn.h` and `src/src/http_conn.cpp`, of
the timer list of `src/src/lst_timer.cpp` and of the work queue of
`src/include/threadpool.h`.

Conventions of the embedding
* a byte is a `Nat` (a `char` value 0..255); a C string literal is written `str "..."`;
* a fixed-size `char` array is a `List Nat` of that size; `m_read_buf[i]` is `getD i 0`
  and a store is `List.set`;
* a `char*` into `m_read_buf` (`m_url`, `m_version`, `m_host`, `text`) is an offset,
  the null pointer is `none`;
* C `int` fields that the code only ever increments from zero inside a bounded
  array (`m_read_idx`, `m_checked_idx`, `m_start_line`, `m_write_idx`) are `Nat`;
  `m_content_length`, `bytes_to_send`, `bytes_have_send` are `Int`, narrowed with
  `wrap32` where the source narrows;
* the kernel calls (`recv`, `writev`, `stat`, `mmap`) are replaced by explicit
  scripts and a lookup function passed as arguments; `epoll` re-arming, `close`
  and the diagnostic `std::cout` lines have no effect on the connection object and
  are left out, as are `m_sockfd` and `m_address`;
* the timers of `sort_timer_lst` live in an explicit heap, a pointer is an address
  of it, a deleted entry is absent; a call returns, has undefined behaviour, or is
  still running when the fuel of its loop is used up;
* the work queue is seen by one thread at a time: the lock and the semaphore are
  left out;
* the store of `parse_content` is the one store of the parser whose index the
  request chooses: where it falls outside `m_read_buf`, or the `int` sum before
  it overflows, the behaviour of the code is undefined and `parse_content`, and
  with it `process_read`, has no result (`none`);
* a readable event (`on_readable`) follows the main loop: `process_read` runs
  only when `read()` returned true.
-/

/-! ## Bytes, C strings and the libc helpers used by the parser -/

/-- The bytes of a string literal (without the terminating NUL). -/
def str (s : String) : List Nat := s.toList.map Char.toNat

/-- An array of `n` zero bytes. -/
def zeros (n : Nat) : List Nat := List.replicate n 0

/-- Store the bytes `bs` into `buf` starting at index `i` (a `memcpy` that stays
inside the array). -/
def put (buf : List Nat) (i : Nat) (bs : List Nat) : List Nat :=
  buf.take i ++ (bs.take (buf.length - i) ++ buf.drop (i + bs.length))

/-- The NUL-terminated string that starts at `buf + off`. -/
def cstr (buf : List Nat) (off : Nat) : List Nat :=
  (buf.drop off).takeWhile (fun b => b != 0)

/-- C-locale `tolower`. -/
def tolower (b : Nat) : Nat := if 65 ≤ b ∧ b ≤ 90 then b + 32 else b

/-- The libc `strcasecmp` on two C strings given by their bytes: the difference
of the first pair of bytes that differ after lowering, `0` when there is none. -/
def strcasecmp : List Nat → List Nat → Int
  | [], [] => 0
  | [], b :: _ => 0 - (tolower b : Int)
  | a :: _, [] => (tolower a : Int)
  | a :: s, b :: t =>
    if tolower a = tolower b then strcasecmp s t else (tolower a : Int) - (tolower b : Int)

/-- The libc `strncasecmp`: compares at most the first `n` bytes. -/
def strncasecmp (s t : List Nat) (n : Nat) : Int := strcasecmp (s.take n) (t.take n)

/-- Scan for `strpbrk`: `i` is the offset of the head of the list. -/
def strpbrk_from : List Nat → List Nat → Nat → Option Nat
  | [], _, _ => none
  | b :: bs, accept, i =>
    if b = 0 then none
    else if accept.contains b then some i
    else strpbrk_from bs accept (i + 1)

/-- The libc `strpbrk(buf + off, accept)`: offset of the first byte of the string
that is in `accept`, or the null pointer. -/
def strpbrk (buf : List Nat) (off : Nat) (accept : List Nat) : Option Nat :=
  strpbrk_from (buf.drop off) accept off

/-- The libc `strchr(buf + off, ch)` for a non-NUL `ch`. -/
def strchr (buf : List Nat) (off : Nat) (ch : Nat) : Option Nat :=
  strpbrk_from (buf.drop off) [ch] off

/-- The libc `strspn(buf + off, accept)`: length of the leading run of bytes
taken from `accept`. -/
def strspn (buf : List Nat) (off : Nat) (accept : List Nat) : Nat :=
  ((cstr buf off).takeWhile (fun b => accept.contains b)).length

/-- C-locale `isspace`. -/
def isspace (b : Nat) : Bool := b == 32 || (9 ≤ b && b ≤ 13)

/-- The value of the leading decimal digits of a byte string. -/
def atol_digits : List Nat → Nat → Nat
  | [], acc => acc
  | b :: bs, acc => if 48 ≤ b ∧ b ≤ 57 then atol_digits bs (acc * 10 + (b - 48)) else acc

/-- Saturation of `strtol` to the range of a 64-bit `long`. -/
def clamp_long (v : Int) : Int :=
  if v < -(2 ^ 63 : Int) then -(2 ^ 63 : Int)
  else if v > (2 ^ 63 : Int) - 1 then (2 ^ 63 : Int) - 1 else v

/-- The libc `atol` (that is `strtol(s, NULL, 10)`): leading white space, an
optional sign, decimal digits; out-of-range values saturate. -/
def atol (s : List Nat) : Int :=
  match s.dropWhile isspace with
  | 45 :: r => clamp_long (-(atol_digits r 0 : Int))
  | 43 :: r => clamp_long (atol_digits r 0 : Int)
  | r => clamp_long (atol_digits r 0 : Int)

/-- Narrowing of an integer to a 32-bit signed `int` (two's complement). -/
def wrap32 (v : Int) : Int := (v + 2 ^ 31) % 2 ^ 32 - 2 ^ 31

/-- Digits of `printf("%d")` for a non-negative value, most significant first. -/
def decimal_aux : Nat → Nat → List Nat → List Nat
  | 0, _, acc => acc
  | fuel + 1, n, acc =>
    if n / 10 = 0 then (48 + n % 10) :: acc
    else decimal_aux fuel (n / 10) ((48 + n % 10) :: acc)

/-- The text `printf("%d", v)` produces. -/
def fmt_d (v : Int) : List Nat :=
  match v with
  | Int.ofNat n => decimal_aux (n + 1) n []
  | Int.negSucc n => 45 :: decimal_aux (n + 2) (n + 1) []

/-- The libc `strncpy` source image: exactly `n` bytes, the string cut at `n`
and padded with NULs. -/
def strncpy_bytes (s : List Nat) (n : Nat) : List Nat :=
  s.take n ++ zeros (n - s.length)

/-! ## Constants of `http_conn.cpp` and `http_conn.h` -/

def ok_200_title : List Nat := str "OK"
def error_400_title : List Nat := str "Bad Request"
def error_400_form : List Nat :=
  str "Your request has bad syntax or is inherently impossible to satisfy.\n"
def error_403_title : List Nat := str "Forbidden"
def error_403_form : List Nat :=
  str "You do not have permission to get file from this server.\n"
def error_404_title : List Nat := str "Not Found"
def error_404_form : List Nat := str "The requested file was not found on this server.\n"
def error_500_title : List Nat := str "Internal Error"
def error_500_form : List Nat :=
  str "There was an unusual problem serving the requested file.\n"

/-- The web root. -/
def doc_root : List Nat := str "/home/pawcook/webserver/resources"

def FILENAME_LEN : Nat := 200
def READ_BUFFER_SIZE : Nat := 2048
def WRITE_BUFFER_SIZE : Nat := 2048

/-- Mode bit `S_IROTH` of `sys/stat.h`. -/
def S_IROTH : Nat := 4
/-- File-type mask `S_IFMT` of `sys/stat.h`. -/
def S_IFMT : Nat := 61440
/-- File-type value `S_IFDIR` of `sys/stat.h`. -/
def S_IFDIR : Nat := 16384
/-- The test `S_ISDIR(mode)` of `sys/stat.h`. -/
def S_ISDIR (mode : Nat) : Bool := mode &&& S_IFMT == S_IFDIR

inductive METHOD where
  | GET | POST | HEAD | PUT | DELETE | TRACE | OPTIONS | CONNECT
  deriving DecidableEq

inductive CHECK_STATE where
  | CHECK_STATE_REQUESTLINE | CHECK_STATE_HEADER | CHECK_STATE_CONTENT
  deriving DecidableEq

inductive HTTP_CODE where
  | NO_REQUEST | GET_REQUEST | BAD_REQUEST | NO_RESOURCE | FORBIDDEN_REQUEST
  | FILE_REQUEST | INTERNAL_ERROR | CLOSED_CONNECTION
  deriving DecidableEq

inductive LINE_STATUS where
  | LINE_OK | LINE_BAD | LINE_OPEN
  deriving DecidableEq

/-! ## The environment: file system, socket input, socket output -/

/-- What `stat` and `mmap` see of one directory entry: its mode bits and, for a
file, its bytes (`st_size` is their number). -/
structure dir_entry where
  st_mode : Nat
  data : List Nat
  deriving DecidableEq

/-- The file system seen by `do_request`: a path either names an entry or does
not. -/
abbrev file_system := List Nat → Option dir_entry

/-- The fields of `struct stat` that the code reads. -/
structure file_stat where
  st_mode : Nat
  st_size : Nat
  deriving DecidableEq

/-- The result of one `recv` call. `bytes bs` is a return value of `bs.length`
with those bytes stored (`bytes []` is the return value 0). -/
inductive recv_result where
  | bytes (bs : List Nat)
  | would_block
  | error
  deriving DecidableEq

/-- The result of one `writev` call. -/
inductive send_result where
  | sent (n : Nat)
  | would_block
  | error
  deriving DecidableEq

/-- The object a scatter-gather descriptor points into. -/
inductive region where
  | write_buf | file
  deriving DecidableEq

/-- A `struct iovec`: `iov_base` is an object and a signed byte offset from its
start. -/
structure iovec where
  iov_region : region
  iov_off : Int
  iov_len : Nat
  deriving DecidableEq

/-! ## The connection object -/

structure http_conn where
  m_read_buf : List Nat
  m_read_idx : Nat
  m_checked_idx : Nat
  m_start_line : Nat
  m_check_state : CHECK_STATE
  m_method : METHOD
  m_request_path : List Nat
  m_url : Option Nat
  m_version : Option Nat
  m_host : Option Nat
  m_content_length : Int
  m_linger : Bool
  m_write_buf : List Nat
  m_write_idx : Nat
  m_file_address : Option (List Nat)
  m_file_stat : file_stat
  m_iv_0 : iovec
  m_iv_1 : iovec
  m_iv_count : Nat
  bytes_to_send : Int
  bytes_have_send : Int
  deriving DecidableEq

namespace http_conn

/-- The private `init()`: `bzero` of the three arrays (the write buffer over
`READ_BUFFER_SIZE` bytes, which is its whole size) and reset of the parser and
send-accounting fields; the mapping, `m_file_stat` and `m_iv` are not touched. -/
def init (c : http_conn) : http_conn :=
  { c with
    bytes_to_send := 0
    bytes_have_send := 0
    m_check_state := CHECK_STATE.CHECK_STATE_REQUESTLINE
    m_linger := false
    m_method := METHOD.GET
    m_url := none
    m_version := none
    m_content_length := 0
    m_host := none
    m_start_line := 0
    m_checked_idx := 0
    m_read_idx := 0
    m_write_idx := 0
    m_read_buf := zeros READ_BUFFER_SIZE
    m_write_buf := zeros WRITE_BUFFER_SIZE
    m_request_path := zeros FILENAME_LEN }

/-- A connection object before its first `init()`: every field holds some value
(here zero, no mapping). -/
def unset : http_conn :=
  { m_read_buf := zeros READ_BUFFER_SIZE
    m_read_idx := 0
    m_checked_idx := 0
    m_start_line := 0
    m_check_state := CHECK_STATE.CHECK_STATE_REQUESTLINE
    m_method := METHOD.GET
    m_request_path := zeros FILENAME_LEN
    m_url := none
    m_version := none
    m_host := none
    m_content_length := 0
    m_linger := false
    m_write_buf := zeros WRITE_BUFFER_SIZE
    m_write_idx := 0
    m_file_address := none
    m_file_stat := { st_mode := 0, st_size := 0 }
    m_iv_0 := { iov_region := region.write_buf, iov_off := 0, iov_len := 0 }
    m_iv_1 := { iov_region := region.file, iov_off := 0, iov_len := 0 }
    m_iv_count := 0
    bytes_to_send := 0
    bytes_have_send := 0 }

/-- The loop of `read()`, driven by the results of the successive `recv` calls.
A `recv` stores at most `READ_BUFFER_SIZE - m_read_idx` bytes; a script that ends
stands for a socket with nothing more to deliver (`EAGAIN`). -/
def read_loop : List recv_result → http_conn → Bool × http_conn
  | [], c => (true, c)
  | recv_result.would_block :: _, c => (true, c)
  | recv_result.error :: _, c => (false, c)
  | recv_result.bytes bs :: rest, c =>
    let got := bs.take (READ_BUFFER_SIZE - c.m_read_idx)
    if got.length = 0 then (false, c)
    else
      read_loop rest
        { c with
          m_read_buf := put c.m_read_buf c.m_read_idx got
          m_read_idx := c.m_read_idx + got.length }

/-- The method `read()`. -/
def read (script : List recv_result) (c : http_conn) : Bool × http_conn :=
  if c.m_read_idx ≥ READ_BUFFER_SIZE then (false, c) else read_loop script c

/-- The `for` loop of `parse_line()`; `fuel` bounds the number of iterations and
`m_read_idx - m_checked_idx` is always enough (`parse_line_loop_fuel`). -/
def parse_line_loop : Nat → http_conn → LINE_STATUS × http_conn
  | 0, c => (LINE_STATUS.LINE_OPEN, c)
  | fuel + 1, c =>
    if c.m_checked_idx < c.m_read_idx then
      let temp := c.m_read_buf.getD c.m_checked_idx 0
      if temp = 13 then
        if c.m_checked_idx + 1 = c.m_read_idx then (LINE_STATUS.LINE_OPEN, c)
        else if c.m_read_buf.getD (c.m_checked_idx + 1) 0 = 10 then
          (LINE_STATUS.LINE_OK,
            { c with
              m_read_buf := (c.m_read_buf.set c.m_checked_idx 0).set (c.m_checked_idx + 1) 0
              m_checked_idx := c.m_checked_idx + 2 })
        else (LINE_STATUS.LINE_BAD, c)
      else if temp = 10 then
        if c.m_checked_idx > 1 ∧ c.m_read_buf.getD (c.m_checked_idx - 1) 0 = 13 then
          (LINE_STATUS.LINE_OK,
            { c with
              m_read_buf := (c.m_read_buf.set (c.m_checked_idx - 1) 0).set c.m_checked_idx 0
              m_checked_idx := c.m_checked_idx + 1 })
        else (LINE_STATUS.LINE_BAD, c)
      else parse_line_loop fuel { c with m_checked_idx := c.m_checked_idx + 1 }
    else (LINE_STATUS.LINE_OPEN, c)

/-- The method `parse_line()`. -/
def parse_line (c : http_conn) : LINE_STATUS × http_conn :=
  parse_line_loop (c.m_read_idx - c.m_checked_idx) c

/-- The method `parse_request_line(text)`; `text` is an offset into `m_read_buf`. -/
def parse_request_line (c : http_conn) (text : Nat) : HTTP_CODE × http_conn :=
  match strpbrk c.m_read_buf text [32, 9] with
  | none => (HTTP_CODE.BAD_REQUEST, { c with m_url := none })
  | some p =>
    let c1 := { c with m_read_buf := c.m_read_buf.set p 0, m_url := some (p + 1) }
    if strcasecmp (cstr c1.m_read_buf text) (str "GET") = 0 then
      let c2 := { c1 with m_method := METHOD.GET }
      match strpbrk c2.m_read_buf (p + 1) [32, 9] with
      | none => (HTTP_CODE.BAD_REQUEST, { c2 with m_version := none })
      | some q =>
        let c3 := { c2 with m_read_buf := c2.m_read_buf.set q 0, m_version := some (q + 1) }
        if strcasecmp (cstr c3.m_read_buf (q + 1)) (str "HTTP/1.1") ≠ 0 then
          (HTTP_CODE.BAD_REQUEST, c3)
        else
          let c4 :=
            if strncasecmp (cstr c3.m_read_buf (p + 1)) (str "http://") 7 = 0 then
              { c3 with m_url := strchr c3.m_read_buf (p + 1 + 7) 47 }
            else c3
          match c4.m_url with
          | none => (HTTP_CODE.BAD_REQUEST, c4)
          | some u =>
            if c4.m_read_buf.getD u 0 ≠ 47 then (HTTP_CODE.BAD_REQUEST, c4)
            else
              (HTTP_CODE.NO_REQUEST,
                { c4 with m_check_state := CHECK_STATE.CHECK_STATE_HEADER })
    else (HTTP_CODE.BAD_REQUEST, c1)

/-- The method `parse_headers(text)`. -/
def parse_headers (c : http_conn) (text : Nat) : HTTP_CODE × http_conn :=
  if c.m_read_buf.getD text 0 = 0 then
    if c.m_content_length ≠ 0 then
      (HTTP_CODE.NO_REQUEST, { c with m_check_state := CHECK_STATE.CHECK_STATE_CONTENT })
    else (HTTP_CODE.GET_REQUEST, c)
  else if strncasecmp (cstr c.m_read_buf text) (str "Connection:") 11 = 0 then
    let text := text + 11
    let text := text + strspn c.m_read_buf text [32, 9]
    if strcasecmp (cstr c.m_read_buf text) (str "keep-alive") = 0 then
      (HTTP_CODE.NO_REQUEST, { c with m_linger := true })
    else (HTTP_CODE.NO_REQUEST, c)
  else if strncasecmp (cstr c.m_read_buf text) (str "Content-Length:") 15 = 0 then
    let text := text + 15
    let text := text + strspn c.m_read_buf text [32, 9]
    (HTTP_CODE.NO_REQUEST, { c with m_content_length := wrap32 (atol (cstr c.m_read_buf text)) })
  else if strncasecmp (cstr c.m_read_buf text) (str "Host:") 5 = 0 then
    let text := text + 5
    let text := text + strspn c.m_read_buf text [32, 9]
    (HTTP_CODE.NO_REQUEST, { c with m_host := some text })
  else (HTTP_CODE.NO_REQUEST, c)

/-- The index `text + m_content_length` at which `parse_content` stores a NUL. -/
def content_end (c : http_conn) (text : Nat) : Int := (text : Int) + c.m_content_length

/-- The method `parse_content(text)`. The result is `none` where the behaviour
of the code is undefined: when the `int` sum `m_content_length + m_checked_idx`
overflows, and when the store `text[m_content_length] = 0` is executed with an
index outside the array `m_read_buf` (below 0, or not below `READ_BUFFER_SIZE`,
or not inside the list that stands for the array). -/
def parse_content (c : http_conn) (text : Nat) : Option (HTTP_CODE × http_conn) :=
  if wrap32 (c.m_content_length + (c.m_checked_idx : Int))
      ≠ c.m_content_length + (c.m_checked_idx : Int) then none
  else if (c.m_read_idx : Int) ≥ c.m_content_length + (c.m_checked_idx : Int) then
    if 0 ≤ c.content_end text ∧ c.content_end text < (READ_BUFFER_SIZE : Int)
        ∧ c.content_end text < (c.m_read_buf.length : Int) then
      some (HTTP_CODE.GET_REQUEST,
        { c with m_read_buf := c.m_read_buf.set (c.content_end text).toNat 0 })
    else none
  else some (HTTP_CODE.NO_REQUEST, c)

/-- The method `do_request()`: `strcpy` of the root and `strncpy` of at most
`FILENAME_LEN - len - 1` bytes of the target into `m_request_path`, then `stat`,
the permission and directory tests, and the mapping of the file. `stat` leaves
`m_file_stat` alone when it fails; `open` and `mmap` are taken to succeed on an
entry that `stat` found. The method runs only after `parse_request_line` has
accepted a line, so `m_url` is not null; for a null `m_url` the model copies the
empty string. -/
def do_request (fs : file_system) (c : http_conn) : HTTP_CODE × http_conn :=
  let len := doc_root.length
  let url := match c.m_url with
    | some u => cstr c.m_read_buf u
    | none => []
  let path := put (put c.m_request_path 0 (doc_root ++ [0])) len
    (strncpy_bytes url (FILENAME_LEN - len - 1))
  let c1 := { c with m_request_path := path }
  match fs (cstr path 0) with
  | none => (HTTP_CODE.NO_RESOURCE, c1)
  | some e =>
    let c2 := { c1 with m_file_stat := { st_mode := e.st_mode, st_size := e.data.length } }
    if e.st_mode &&& S_IROTH = 0 then (HTTP_CODE.FORBIDDEN_REQUEST, c2)
    else if S_ISDIR e.st_mode then (HTTP_CODE.BAD_REQUEST, c2)
    else (HTTP_CODE.FILE_REQUEST, { c2 with m_file_address := some e.data })

/-- The `while` loop of `process_read()`. `line_status` is the local variable.
The result is `none` when `parse_content` has no defined result, and when
`fuel` runs out. -/
def process_read_loop (fs : file_system) :
    Nat → LINE_STATUS → http_conn → Option (HTTP_CODE × http_conn)
  | 0, _, _ => none
  | fuel + 1, line_status, c =>
    let l :=
      if c.m_check_state = CHECK_STATE.CHECK_STATE_CONTENT ∧ line_status = LINE_STATUS.LINE_OK
      then (line_status, c)
      else c.parse_line
    if l.1 = LINE_STATUS.LINE_OK then
      let text := l.2.m_start_line
      let c := { l.2 with m_start_line := l.2.m_checked_idx }
      match c.m_check_state with
      | CHECK_STATE.CHECK_STATE_REQUESTLINE =>
        let r := c.parse_request_line text
        if r.1 = HTTP_CODE.BAD_REQUEST then some (HTTP_CODE.BAD_REQUEST, r.2)
        else process_read_loop fs fuel l.1 r.2
      | CHECK_STATE.CHECK_STATE_HEADER =>
        let r := c.parse_headers text
        if r.1 = HTTP_CODE.BAD_REQUEST then some (HTTP_CODE.BAD_REQUEST, r.2)
        else if r.1 = HTTP_CODE.GET_REQUEST then some (r.2.do_request fs)
        else process_read_loop fs fuel l.1 r.2
      | CHECK_STATE.CHECK_STATE_CONTENT =>
        match c.parse_content text with
        | none => none
        | some r =>
          if r.1 = HTTP_CODE.GET_REQUEST then some (r.2.do_request fs)
          else process_read_loop fs fuel LINE_STATUS.LINE_OPEN r.2
    else some (HTTP_CODE.NO_REQUEST, l.2)

/-- The method `process_read()`. Every pass of the loop but the first consumes
at least one byte or follows a pass that did, so the fuel given is enough
(`process_read_ends`, `process_read_loop_fuel`): the result is `none` only
when a pass reaches a `parse_content` that has no defined result. -/
def process_read (fs : file_system) (c : http_conn) : Option (HTTP_CODE × http_conn) :=
  process_read_loop fs (2 * (c.m_read_idx - c.m_checked_idx) + 3) LINE_STATUS.LINE_OK c

/-- The method `unmap()`. -/
def unmap (c : http_conn) : http_conn :=
  match c.m_file_address with
  | some _ => { c with m_file_address := none }
  | none => c

/-- The method `add_response(format, ...)`, given the text `s` that the format
and its arguments expand to: `vsnprintf` with size `WRITE_BUFFER_SIZE - 1 -
m_write_idx` stores at most size - 1 bytes of `s` and a NUL, and returns the
full length of `s`, which is added to `m_write_idx`. -/
def add_response (c : http_conn) (s : List Nat) : Bool × http_conn :=
  if c.m_write_idx ≥ WRITE_BUFFER_SIZE then (false, c)
  else
    let size := WRITE_BUFFER_SIZE - 1 - c.m_write_idx
    let out := if size = 0 then [] else s.take (size - 1) ++ [0]
    (true,
      { c with
        m_write_buf := put c.m_write_buf c.m_write_idx out
        m_write_idx := c.m_write_idx + s.length })

/-- The method `add_status_line(status, title)`, format `"%s %d %s\r\n"`. -/
def add_status_line (c : http_conn) (status : Int) (title : List Nat) : Bool × http_conn :=
  c.add_response (str "HTTP/1.1" ++ str " " ++ fmt_d status ++ str " " ++ title ++ str "\r\n")

/-- The method `add_content_length(content_len)`, format `"Content-Length: %d\r\n"`. -/
def add_content_length (c : http_conn) (content_len : Int) : Bool × http_conn :=
  c.add_response (str "Content-Length: " ++ fmt_d content_len ++ str "\r\n")

/-- The method `add_content_type()`, format `"Content-Type:%s\r\n"`. -/
def add_content_type (c : http_conn) : Bool × http_conn :=
  c.add_response (str "Content-Type:" ++ str "text/html" ++ str "\r\n")

/-- The method `add_linger()`, format `"Connection: %s\r\n"`. -/
def add_linger (c : http_conn) : Bool × http_conn :=
  c.add_response
    (str "Connection: " ++ (if c.m_linger = true then str "keep-alive" else str "close")
      ++ str "\r\n")

/-- The method `add_blank_line()`. -/
def add_blank_line (c : http_conn) : Bool × http_conn :=
  c.add_response (str "\r\n")

/-- The method `add_content(content)`. -/
def add_content (c : http_conn) (content : List Nat) : Bool × http_conn :=
  c.add_response content

/-- The method `add_headers(content_len)`; the parameter is an `int`. -/
def add_headers (c : http_conn) (content_len : Int) : Bool × http_conn :=
  let c := (c.add_content_length content_len).2
  let c := c.add_content_type.2
  let c := c.add_linger.2
  let c := c.add_blank_line.2
  (true, c)

/-- The tail of `process_write` shared by the four error results. -/
def single_descriptor (c : http_conn) : Bool × http_conn :=
  (true,
    { c with
      m_iv_0 := { iov_region := region.write_buf, iov_off := 0, iov_len := c.m_write_idx }
      m_iv_count := 1
      bytes_to_send := (c.m_write_idx : Int) })

/-- The status line, headers and body of one error result. -/
def error_response (c : http_conn) (status : Int) (title form : List Nat) : http_conn :=
  let c := (c.add_status_line status title).2
  let c := (c.add_headers (wrap32 form.length)).2
  (c.add_content form).2

/-- The method `process_write(ret)`. -/
def process_write (c : http_conn) (ret : HTTP_CODE) : Bool × http_conn :=
  match ret with
  | HTTP_CODE.INTERNAL_ERROR =>
    (c.error_response 500 error_500_title error_500_form).single_descriptor
  | HTTP_CODE.BAD_REQUEST =>
    (c.error_response 400 error_400_title error_400_form).single_descriptor
  | HTTP_CODE.NO_RESOURCE =>
    (c.error_response 404 error_404_title error_404_form).single_descriptor
  | HTTP_CODE.FORBIDDEN_REQUEST =>
    (c.error_response 403 error_403_title error_403_form).single_descriptor
  | HTTP_CODE.FILE_REQUEST =>
    let c := (c.add_status_line 200 ok_200_title).2
    let c := (c.add_headers (wrap32 c.m_file_stat.st_size)).2
    (true,
      { c with
        m_iv_0 := { iov_region := region.write_buf, iov_off := 0, iov_len := c.m_write_idx }
        m_iv_1 := { iov_region := region.file, iov_off := 0, iov_len := c.m_file_stat.st_size }
        m_iv_count := 2
        bytes_to_send := wrap32 ((c.m_write_idx : Int) + (c.m_file_stat.st_size : Int)) })
  | _ => (false, c)

/-- The loop of `write()`, driven by the results of the successive `writev`
calls; a script that ends stands for a socket that accepts nothing more
(`EAGAIN`). The comparison `bytes_have_send >= m_iv[0].iov_len` is against the
CURRENT length of the first descriptor, as in the source. `writev` never
accepts more than the descriptors offer, so `bytes_to_send` stays non-negative
and `iov_len - temp` does not wrap. -/
def write_loop : List send_result → http_conn → Bool × http_conn
  | [], c => (true, c)
  | send_result.would_block :: _, c => (true, c)
  | send_result.error :: _, c => (false, c.unmap)
  | send_result.sent temp :: rest, c =>
    let c :=
      { c with
        bytes_have_send := c.bytes_have_send + (temp : Int)
        bytes_to_send := c.bytes_to_send - (temp : Int) }
    let c :=
      if c.bytes_have_send ≥ (c.m_iv_0.iov_len : Int) then
        { c with
          m_iv_0 := { c.m_iv_0 with iov_len := 0 }
          m_iv_1 :=
            { iov_region := region.file
              iov_off := c.bytes_have_send - (c.m_write_idx : Int)
              iov_len := c.bytes_to_send.toNat } }
      else
        { c with
          m_iv_0 :=
            { iov_region := region.write_buf
              iov_off := c.bytes_have_send
              iov_len := c.m_iv_0.iov_len - temp } }
    if c.bytes_to_send ≤ 0 then
      let c := c.unmap
      if c.m_linger then (true, c.init) else (false, c)
    else write_loop rest c

/-- The method `write()`. -/
def write (script : List send_result) (c : http_conn) : Bool × http_conn :=
  if c.bytes_to_send = 0 then (true, c.init) else write_loop script c

/-- The bytes a descriptor denotes, when it lies inside its object. -/
def iov_bytes (c : http_conn) (v : iovec) : Option (List Nat) :=
  let object := match v.iov_region with
    | region.write_buf => some c.m_write_buf
    | region.file => c.m_file_address
  if v.iov_len = 0 then some []
  else
    match object, v.iov_off with
    | some bs, Int.ofNat o =>
      if o + v.iov_len ≤ bs.length then some ((bs.drop o).take v.iov_len) else none
    | _, _ => none

/-- The bytes the next `writev(m_sockfd, m_iv, m_iv_count)` would offer to the
socket, in order. -/
def pending (c : http_conn) : Option (List Nat) :=
  match c.m_iv_count with
  | 0 => some []
  | 1 => c.iov_bytes c.m_iv_0
  | _ =>
    match c.iov_bytes c.m_iv_0, c.iov_bytes c.m_iv_1 with
    | some a, some b => some (a ++ b)
    | _, _ => none

end http_conn

/-! ## Scenarios: a fresh connection, a small site, one readable event -/

/-- A connection as `init(sockfd, addr)` leaves it. -/
def fresh_conn : http_conn := http_conn.unset.init

/-- A regular file, mode 0644. -/
def regular_0644 : Nat := 33188
/-- A regular file without the other-read bit, mode 0640. -/
def regular_0640 : Nat := 33184
/-- A directory, mode 0755. -/
def directory_0755 : Nat := 16877

/-- The 37 bytes of the sample `index.html`. -/
def index_html : List Nat := str "<html><body>hello, world</body></html"

/-- A document root that holds the 37-byte `index.html` and nothing else. -/
def small_site : file_system := fun path =>
  if path = doc_root ++ str "/index.html" then
    some { st_mode := regular_0644, data := index_html }
  else none

/-- The results of the successive `recv` calls of one `read()` on a socket
whose receive queue holds `chunk`, for a read buffer with `room` free bytes. A
chunk that fits is taken by the first call and the next call finds the queue
empty (`EAGAIN`); an empty chunk stands for the end of the stream, the first
call returns 0. Of a chunk that does not fit the first call takes `room` bytes,
which fills the buffer, and the next call, for 0 bytes, returns 0. -/
def recv_script (chunk : List Nat) (room : Nat) : List recv_result :=
  if chunk.length ≤ room then [recv_result.bytes chunk, recv_result.would_block]
  else [recv_result.bytes (chunk.take room), recv_result.bytes []]

/-- One readable event of the main loop (the EPOLLIN branch of `main.cpp`) on a
socket whose receive queue holds `chunk`. When `read()` returns false the main
loop closes the connection and nothing is parsed: the result is `none`. When
it returns true the connection is queued and the worker runs `process_read()`,
whose result this is. -/
def on_readable (fs : file_system) (chunk : List Nat) (c : http_conn) :
    Option (HTTP_CODE × http_conn) :=
  if (c.read (recv_script chunk (READ_BUFFER_SIZE - c.m_read_idx))).1 = true then
    (c.read (recv_script chunk (READ_BUFFER_SIZE - c.m_read_idx))).2.process_read fs
  else none

/-- The result code of a `process_read` outcome. -/
def code_of (r : Option (HTTP_CODE × http_conn)) : Option HTTP_CODE := r.map Prod.fst

/-- The parsed request fields named by the specification, read through their
offsets into the read buffer: method, target, version, host, content length,
keep-alive flag and main state. -/
def parsed_fields (c : http_conn) :
    METHOD × Option (List Nat) × Option (List Nat) × Option (List Nat) × Int × Bool
      × CHECK_STATE :=
  (c.m_method, c.m_url.map (cstr c.m_read_buf), c.m_version.map (cstr c.m_read_buf),
    c.m_host.map (cstr c.m_read_buf), c.m_content_length, c.m_linger, c.m_check_state)

/-- A request with a two-byte body. -/
def body_request : List Nat :=
  str "GET /index.html HTTP/1.1\r\nContent-Length: 2\r\n\r\nxy"

/-- The request of the concrete scenario of the specification. -/
def sample_request : List Nat :=
  str "GET /index.html HTTP/1.1\r\nHost: x\r\nConnection: keep-alive\r\n\r\n"

/-- The worker entry point `process()` on the object: `process_read`, and unless
it returned NO_REQUEST, `process_write` with its result. The flag is `false`
when `process_read` returned NO_REQUEST (no response is built) and the result of
`process_write` otherwise. -/
def http_conn.process (fs : file_system) (c : http_conn) : Option (Bool × http_conn) :=
  match c.process_read fs with
  | none => none
  | some (HTTP_CODE.NO_REQUEST, c1) => some (false, c1)
  | some (read_ret, c1) => some ((c1.process_write read_ret).1, (c1.process_write read_ret).2)

/-- The connection after `sample_request` was received on a fresh connection of
`small_site` and `process()` has built the response, before the first `writev`. -/
def reply_ready : http_conn :=
  match ((fresh_conn.read [recv_result.bytes sample_request]).2.process small_site) with
  | some r => r.2
  | none => fresh_conn

/-- The whole response a FILE_REQUEST connection owes the client: the header
text followed by the bytes of the mapped file. -/
def http_conn.response (c : http_conn) : List Nat :=
  c.m_write_buf.take c.m_write_idx ++ c.m_file_address.getD []

/-- The connection after `sample_request` was received on a fresh connection of
`small_site` and `process_read()` has run. -/
def sample_parsed : http_conn :=
  match on_readable small_site sample_request fresh_conn with
  | some r => r.2
  | none => fresh_conn

/-! ## Vocabulary of the statements about the response builder -/

/-- The status line `add_status_line` appends. -/
def status_line (status : Int) (title : List Nat) : List Nat :=
  str "HTTP/1.1" ++ str " " ++ fmt_d status ++ str " " ++ title ++ str "\r\n"

/-- The header block `add_headers` appends. -/
def header_block (content_len : Int) (linger : Bool) : List Nat :=
  (str "Content-Length: " ++ fmt_d content_len ++ str "\r\n")
    ++ (str "Content-Type:" ++ str "text/html" ++ str "\r\n")
    ++ (str "Connection: " ++ (if linger = true then str "keep-alive" else str "close")
      ++ str "\r\n")
    ++ str "\r\n"

/-- The relation `wrote c c1 t`: `c1` is `c` with the text `t` in the first
`t.length` bytes of the write buffer and `m_write_idx = t.length`; no other field
differs. -/
def http_conn.wrote (c c1 : http_conn) (t : List Nat) : Prop :=
  c1.m_write_buf.length = WRITE_BUFFER_SIZE ∧ c1.m_write_idx = t.length ∧
  c1.m_write_buf.take t.length = t ∧
  c1 = { c with m_write_buf := c1.m_write_buf, m_write_idx := c1.m_write_idx }

/-- The state `process_write(FILE_REQUEST)` reaches after its two `add_` calls. -/
def http_conn.file_headers (c : http_conn) : http_conn :=
  ((c.add_status_line 200 ok_200_title).2.add_headers
    (wrap32 (c.add_status_line 200 ok_200_title).2.m_file_stat.st_size)).2

/-- What the status/body table requires of `process_write`'s outcome `r` for one
row: success; the text written (`write_buf[0..write_idx)`) begins with the status
line, ends with the body, and consists of the status line, a Content-Length
header carrying the body length, the two fixed headers, the blank line and the
body; one descriptor covers exactly that text; `bytes_to_send = m_write_idx`. -/
def error_reply (r : Bool × http_conn) (status body : List Nat) : Prop :=
  r.1 = true ∧
  (r.2.m_write_buf.take r.2.m_write_idx).take status.length = status ∧
  (r.2.m_write_buf.take r.2.m_write_idx).drop (r.2.m_write_idx - body.length) = body ∧
  r.2.m_write_buf.take r.2.m_write_idx
    = status ++ (str "Content-Length: " ++ fmt_d (body.length : Int) ++ str "\r\n")
      ++ str "Content-Type:text/html\r\nConnection: close\r\n\r\n" ++ body ∧
  r.2.m_iv_count = 1 ∧
  r.2.m_iv_0 = { iov_region := region.write_buf, iov_off := 0, iov_len := r.2.m_write_idx } ∧
  r.2.bytes_to_send = (r.2.m_write_idx : Int)

/-! ## Vocabulary of the statements about resource resolution -/

/-- The path `do_request` hands to `stat` for a target: the root followed by at
most `FILENAME_LEN - strlen(doc_root) - 1` bytes of the target. -/
def lookup_path (target : List Nat) : List Nat :=
  doc_root ++ target.take (FILENAME_LEN - doc_root.length - 1)

/-- A target of 167 bytes: `/` and 166 times `a`. -/
def long_target : List Nat := 47 :: List.replicate 166 97

/-- A GET request for `long_target`. -/
def long_request : List Nat := str "GET " ++ long_target ++ str " HTTP/1.1\r\n\r\n"

/-- A document root whose only entry is a readable regular file named by the
first 166 bytes of `long_target`. -/
def truncating_site : file_system := fun path =>
  if path = doc_root ++ long_target.take 166 then
    some { st_mode := regular_0644, data := index_html }
  else none

/-! ## Vocabulary of the statements about the request line -/

/-- The bytes of a line before its first space or tab. -/
def method_token (line : List Nat) : List Nat :=
  line.takeWhile (fun b => !([32, 9].contains b))

/-- What follows the first space or tab of a line. -/
def after_token (line : List Nat) : List Nat :=
  (line.dropWhile (fun b => !([32, 9].contains b))).drop 1

/-- The target token: between the first and the second space or tab. -/
def target_token (line : List Nat) : List Nat := method_token (after_token line)

/-- The version token: what follows the second space or tab. -/
def version_token (line : List Nat) : List Nat := after_token (after_token line)

/-- The connection after `bs` arrived on a fresh connection and `parse_line()`
has terminated the first line. -/
def first_line_scanned (bs : List Nat) : http_conn :=
  (fresh_conn.read [recv_result.bytes bs]).2.parse_line.2

/-! ## Vocabulary of the statements about keep-alive -/

/-- Forget the fields that `init()` leaves alone (the mapping, `m_file_stat` and
the descriptors): two connections with the same image are in the same parser
and buffer state. -/
def http_conn.forget (c : http_conn) : http_conn :=
  { c with
    m_file_address := none
    m_file_stat := { st_mode := 0, st_size := 0 }
    m_iv_0 := { iov_region := region.write_buf, iov_off := 0, iov_len := 0 }
    m_iv_1 := { iov_region := region.file, iov_off := 0, iov_len := 0 }
    m_iv_count := 0 }

/-- A second request, without a Connection header. -/
def second_request : List Nat := str "GET /index.html HTTP/1.1\r\n\r\n"

/-- The connection after `sample_request` (keep-alive) and `second_request`
arrived back to back in one `read()` on a fresh connection of `small_site` and
`process()` has built the response to the first. -/
def pipelined_ready : http_conn :=
  match ((fresh_conn.read [recv_result.bytes (sample_request ++ second_request)]).2.process
      small_site) with
  | some r => r.2
  | none => fresh_conn

/-! ## The timer list of `lst_timer.cpp` -/

/-- Modelled from the spec: `lst_timer.h`, which declares `util_timer`, is not
among the sources. A timer entry holds an absolute expiry time, a reference to
the client it guards (here a number that names the client and is what the
eviction callback receives) and the back and forward links; these are the
members `lst_timer.cpp` uses (`expire`, `user_data`, `cb_func`, `prev`, `next`).
A pointer to an entry is an address of the heap, the null pointer is `none`. -/
structure util_timer where
  expire : Int
  user_data : Nat
  prev : Option Nat
  next : Option Nat
  deriving DecidableEq

/-- Modelled from the spec: the object `new util_timer` yields before any member
is assigned; `lst_timer.h` is not among the sources, the links are taken to be
null and the expiry zero. -/
def util_timer.blank : util_timer := { expire := 0, user_data := 0, prev := none, next := none }

/-- The constant `LONG_MAX` of `climits` (64-bit `long`). -/
def LONG_MAX : Int := 2 ^ 63 - 1

/-- How a call ends: it returns, or it dereferences a null or freed pointer
(undefined behaviour), or it is still running when the fuel of the model is
used up. -/
inductive outcome (α : Type) where
  | returned (a : α)
  | undefined
  | running
  deriving DecidableEq

/-- The class `sort_timer_lst` together with the memory its entries live in:
`heap[a]` is the entry at address `a`, `none` once it has been deleted. `called`
records the `user_data` of every `cb_func` call, oldest first. -/
structure sort_timer_lst where
  heap : List (Option util_timer)
  head : Option Nat
  tail : Option Nat
  called : List Nat
  deriving DecidableEq

namespace sort_timer_lst

/-- Read through a pointer: the entry it points to, if it is neither null nor
deleted. -/
def get (s : sort_timer_lst) (p : Option Nat) : Option util_timer :=
  match p with
  | none => none
  | some a => s.heap.getD a none

/-- The assignment `p->next = v`. -/
def set_next (s : sort_timer_lst) (p v : Option Nat) : Option sort_timer_lst :=
  match p, s.get p with
  | some a, some t => some { s with heap := s.heap.set a (some { t with next := v }) }
  | _, _ => none

/-- The assignment `p->prev = v`. -/
def set_prev (s : sort_timer_lst) (p v : Option Nat) : Option sort_timer_lst :=
  match p, s.get p with
  | some a, some t => some { s with heap := s.heap.set a (some { t with prev := v }) }
  | _, _ => none

/-- The statement `delete p` for a non-null pointer. -/
def delete (s : sort_timer_lst) (p : Option Nat) : Option sort_timer_lst :=
  match p, s.get p with
  | some a, some _ => some { s with heap := s.heap.set a none }
  | _, _ => none

/-- A caller's `new util_timer` with `expire` and `user_data` assigned: the new
entry takes the next free address. -/
def new_timer (s : sort_timer_lst) (expire : Int) (user_data : Nat) : Nat × sort_timer_lst :=
  (s.heap.length,
    { s with
      heap := s.heap ++ [some { util_timer.blank with expire := expire, user_data := user_data }] })

/-- The constructor: two sentinels linked to each other, the tail holding
`LONG_MAX`. -/
def create : sort_timer_lst :=
  { heap :=
      [some { util_timer.blank with next := some 1 },
       some { util_timer.blank with prev := some 0, expire := LONG_MAX }]
    head := some 0
    tail := some 1
    called := [] }

/-- An `Option` result as an outcome: a failed dereference is undefined
behaviour. -/
def of_option {α : Type} (r : Option α) : outcome α :=
  match r with
  | some a => outcome.returned a
  | none => outcome.undefined

/-- The four assignments that link `timer` before `tmp` in `add_timer`. -/
def link_before (s : sort_timer_lst) (timer tmp : Option Nat) : Option sort_timer_lst := do
  let s1 ← s.set_next timer tmp
  let n1 ← s1.get tmp
  let s2 ← s1.set_prev timer n1.prev
  let n2 ← s2.get tmp
  let s3 ← s2.set_next n2.prev timer
  s3.set_prev tmp timer

/-- The `while (tmp)` loop of `add_timer`. The body does not assign `tmp`: a
pass that does not insert is followed by the same pass. -/
def add_timer_loop : Nat → sort_timer_lst → Option Nat → Option Nat → outcome sort_timer_lst
  | 0, _, _, _ => outcome.running
  | fuel + 1, s, timer, tmp =>
    match tmp with
    | none => outcome.returned s
    | some _ =>
      match s.get timer, s.get tmp with
      | some t, some n =>
        if t.expire < n.expire then of_option (s.link_before timer tmp)
        else add_timer_loop fuel s timer tmp
      | _, _ => outcome.undefined

/-- The method `add_timer(timer)`. -/
def add_timer (fuel : Nat) (s : sort_timer_lst) (timer : Option Nat) :
    outcome sort_timer_lst :=
  match timer with
  | none => outcome.returned s
  | some _ =>
    match s.get s.head with
    | none => outcome.undefined
    | some h => add_timer_loop fuel s timer h.next

/-- The two assignments that take `timer` out of the list. -/
def unlink (s : sort_timer_lst) (timer : Option Nat) : Option sort_timer_lst := do
  let t ← s.get timer
  let s1 ← s.set_next t.prev t.next
  let t1 ← s1.get timer
  s1.set_prev t1.next t1.prev

/-- The method `adjust_timer(timer)`. -/
def adjust_timer (fuel : Nat) (s : sort_timer_lst) (timer : Option Nat) :
    outcome sort_timer_lst :=
  if timer = none ∨ timer = s.head ∨ timer = s.tail then outcome.returned s
  else
    match s.get timer with
    | none => outcome.undefined
    | some t =>
      match s.get t.next with
      | none => outcome.undefined
      | some n =>
        if t.expire < n.expire then outcome.returned s
        else
          match s.unlink timer with
          | none => outcome.undefined
          | some s1 => add_timer fuel s1 timer

/-- The loop of `del_timer` that deletes every entry from the head on. -/
def delete_all : Nat → sort_timer_lst → Option Nat → outcome sort_timer_lst
  | 0, _, _ => outcome.running
  | fuel + 1, s, tmp =>
    match tmp with
    | none => outcome.returned s
    | some _ =>
      match s.get tmp with
      | none => outcome.undefined
      | some t =>
        match ({ s with head := t.next } : sort_timer_lst).delete tmp with
        | none => outcome.undefined
        | some s1 => delete_all fuel s1 s1.head

/-- The method `del_timer(timer)`. -/
def del_timer (s : sort_timer_lst) (timer : Option Nat) : outcome sort_timer_lst :=
  if timer = none then outcome.returned s
  else if timer = s.head ∨ timer = s.tail then
    match delete_all (s.heap.length + 1) s s.head with
    | outcome.returned s1 => outcome.returned { s1 with head := none, tail := none }
    | r => r
  else
    of_option (do
      let s1 ← s.unlink timer
      s1.delete timer)

/-- The `while (tmp != tail)` loop of `tick`. The body does not assign `tmp`. -/
def tick_loop : Nat → sort_timer_lst → Int → Option Nat → outcome sort_timer_lst
  | 0, _, _, _ => outcome.running
  | fuel + 1, s, cur, tmp =>
    if tmp = s.tail then outcome.returned s
    else
      match s.get tmp with
      | none => outcome.undefined
      | some t =>
        if cur < t.expire then outcome.returned s
        else
          match ({ s with called := s.called ++ [t.user_data] } : sort_timer_lst).del_timer tmp with
          | outcome.returned s1 => tick_loop fuel s1 cur tmp
          | r => r

/-- The method `tick()`; `cur` is the value `time(nullptr)` returns. -/
def tick (fuel : Nat) (s : sort_timer_lst) (cur : Int) : outcome sort_timer_lst :=
  match s.get s.head with
  | none => outcome.undefined
  | some h =>
    if h.next = s.tail then outcome.returned s
    else tick_loop fuel s cur h.next

/-- The entries between the sentinels, from the front: follow `next` from
`p` until the tail (at most `fuel` steps). -/
def entries_from : Nat → sort_timer_lst → Option Nat → List util_timer
  | 0, _, _ => []
  | fuel + 1, s, p =>
    if p = s.tail then []
    else
      match s.get p with
      | none => []
      | some t => t :: entries_from fuel s t.next

/-- The entries between the sentinels, from the front. -/
def entries (s : sort_timer_lst) : List util_timer :=
  match s.get s.head with
  | none => []
  | some h => entries_from s.heap.length s h.next

end sort_timer_lst

/-! ## The work queue of `threadpool.h`, seen by one thread at a time -/

/-- The value of an `int` converted to the unsigned 64-bit `size_t`. -/
def size_t_of (v : Int) : Nat := (v % 2 ^ 64).toNat

/-- The class `threadpool<T>` without its threads, lock and semaphore: a `T*`
is an address or the null pointer (`none`). -/
structure threadpool where
  m_thread_number : Int
  m_max_requests : Int
  m_workqueue : List (Option Nat)
  m_stop : Bool
  deriving DecidableEq

namespace threadpool

/-- The constructor, which throws (`none`) unless both arguments are positive. -/
def create (thread_number max_requests : Int) : Option threadpool :=
  if thread_number ≤ 0 ∨ max_requests ≤ 0 then none
  else
    some
      { m_thread_number := thread_number
        m_max_requests := max_requests
        m_workqueue := []
        m_stop := false }

/-- The method `append(request)`; `size() >= m_max_requests` compares as
`size_t`. -/
def append (p : threadpool) (request : Option Nat) : Bool × threadpool :=
  if p.m_workqueue.length ≥ size_t_of p.m_max_requests then (false, p)
  else (true, { p with m_workqueue := p.m_workqueue ++ [request] })

/-- The locked section of one pass of `run()`: nothing when the queue is empty,
otherwise `front()` and `pop_front()`. -/
def pop (p : threadpool) : Option (Option Nat) × threadpool :=
  match p.m_workqueue with
  | [] => (none, p)
  | request :: rest => (some request, { p with m_workqueue := rest })

end threadpool

/-- A step of a history of the queue. -/
inductive pool_op where
  | append (request : Option Nat)
  | pop
  deriving DecidableEq

/-- A pool with the requests accepted by `append` so far and the requests
popped so far, both oldest first. -/
structure pool_history where
  pool : threadpool
  accepted : List (Option Nat)
  popped : List (Option Nat)

/-- Run a history of `append` and `pop` calls. -/
def pool_history.run : List pool_op → pool_history → pool_history
  | [], h => h
  | pool_op.append request :: ops, h =>
    pool_history.run ops
      (if (h.pool.append request).1 = true then
        { h with pool := (h.pool.append request).2, accepted := h.accepted ++ [request] }
      else { h with pool := (h.pool.append request).2 })
  | pool_op.pop :: ops, h =>
    pool_history.run ops
      (match h.pool.pop with
      | (some request, p) => { h with pool := p, popped := h.popped ++ [request] }
      | (none, p) => { h with pool := p })

/-! ## Scenarios: small timer lists -/

/-- The list a call left, or `d` when the call did not return. -/
def outcome.get_or {α : Type} (o : outcome α) (d : α) : α :=
  match o with
  | outcome.returned a => a
  | _ => d

/-- The assignment `p->expire = v` a caller makes before `adjust_timer`. -/
def sort_timer_lst.set_expire (s : sort_timer_lst) (p : Option Nat) (v : Int) :
    Option sort_timer_lst :=
  match p, s.get p with
  | some a, some t => some { s with heap := s.heap.set a (some { t with expire := v }) }
  | _, _ => none

/-- The expiry times of the entries between the sentinels, from the front. -/
def sort_timer_lst.expiries (s : sort_timer_lst) : List Int := s.entries.map util_timer.expire

/-- The list with the single entry of expiry 5 (client 100, address 2). -/
def timers_5 : sort_timer_lst :=
  ((sort_timer_lst.create.new_timer 5 100).2.add_timer 1 (some 2)).get_or sort_timer_lst.create

/-- The list `timers_5` and a new, not yet linked timer of expiry 7 (client 101,
address 3). -/
def timers_5_new_7 : sort_timer_lst := (timers_5.new_timer 7 101).2

/-- The list with the entries of expiry 3 (address 3) and 5 (address 2). -/
def timers_3_5 : sort_timer_lst :=
  ((timers_5.new_timer 3 102).2.add_timer 1 (some 3)).get_or sort_timer_lst.create

/-- The list `timers_3_5` and a new, not yet linked timer of expiry 4 (client
103, address 4). -/
def timers_3_5_new_4 : sort_timer_lst := (timers_3_5.new_timer 4 103).2

/-- The list `timers_3_5` after the caller has raised the expiry of its first
entry (address 3) from 3 to `v`. -/
def timers_3_5_raised (v : Int) : sort_timer_lst :=
  (timers_3_5.set_expire (some 3) v).getD sort_timer_lst.create

/-! ## Vocabulary: how a run of `write()` ends -/

/-- The three ways the loop of `write()` is left. -/
inductive send_ending where
  | would_block
  | failed
  | completed
  deriving DecidableEq

/-- How the successive `writev` results end a `write()` that is entered with
`to_send` bytes pending: by a would-block result (or by a socket that accepts
nothing more), by another failure, or by the result with which the pending
count reaches zero. -/
def send_ending_of : List send_result → Int → send_ending
  | [], _ => send_ending.would_block
  | send_result.would_block :: _, _ => send_ending.would_block
  | send_result.error :: _, _ => send_ending.failed
  | send_result.sent temp :: rest, to_send =>
    if to_send - (temp : Int) ≤ 0 then send_ending.completed
    else send_ending_of rest (to_send - (temp : Int))

/-- The number of bytes the socket accepted before the run of `write()` ended. -/
def accepted_bytes : List send_result → Int → Int
  | send_result.sent temp :: rest, to_send =>
    (temp : Int) + (if to_send - (temp : Int) ≤ 0 then 0 else accepted_bytes rest (to_send - (temp : Int)))
  | _, _ => 0

/-- The accounting statements of one pass of the loop of `write()` after a
`writev` that accepted `temp` bytes. -/
def http_conn.account (c : http_conn) (temp : Nat) : http_conn :=
  let c :=
    { c with
      bytes_have_send := c.bytes_have_send + (temp : Int)
      bytes_to_send := c.bytes_to_send - (temp : Int) }
  if c.bytes_have_send ≥ (c.m_iv_0.iov_len : Int) then
    { c with
      m_iv_0 := { c.m_iv_0 with iov_len := 0 }
      m_iv_1 :=
        { iov_region := region.file
          iov_off := c.bytes_have_send - (c.m_write_idx : Int)
          iov_len := c.bytes_to_send.toNat } }
  else
    { c with
      m_iv_0 :=
        { iov_region := region.write_buf
          iov_off := c.bytes_have_send
          iov_len := c.m_iv_0.iov_len - temp } }

/-- The state `d` differs from `c` at most in the send accounting
(`bytes_have_send`, `bytes_to_send`) and in the two descriptors: the parser
state, the buffers, the mapping and everything else are those of `c`. -/
def http_conn.resumable_from (c d : http_conn) : Prop :=
  d = { c with
        bytes_have_send := d.bytes_have_send
        bytes_to_send := d.bytes_to_send
        m_iv_0 := d.m_iv_0
        m_iv_1 := d.m_iv_1 }

/-! ## Scenarios: request lines -/

/-- A request whose target is in absolute form. -/
def absolute_request : List Nat := str "GET http://localhost:10000/index.html HTTP/1.1\r\n\r\n"

/-- A request with two spaces between the method and the target. -/
def double_space_request : List Nat := str "GET  /index.html HTTP/1.1\r\n\r\n"

/-! ## Vocabulary of the statements about the line scanner -/

/-- The cursor of `c` is at or beyond `k`, inside the bytes read, and the byte
just below index `k` is not a carriage return. This holds with `k` the cursor
that a LINE_OK call of `parse_line` leaves: the call stored a NUL there. -/
def http_conn.scanned_past (k : Nat) (c : http_conn) : Prop :=
  1 ≤ k ∧ k ≤ c.m_checked_idx ∧ c.m_checked_idx ≤ c.m_read_idx ∧
    c.m_read_buf.getD (k - 1) 0 ≠ 13

/-- The states a connection can be in after the state `c` without a call of
`init()`: any sequence of `read()`, `parse_line()`, the three line handlers
(with any `text`), `do_request()`, and of steps that leave the read buffer, the
cursor and the fill index as they are (the assignment to `m_start_line`,
`process_write`, `unmap`, a `write()` that does not reset). -/
inductive http_conn.later (c : http_conn) : http_conn → Prop where
  | refl : http_conn.later c c
  | read (d : http_conn) (script : List recv_result) :
      http_conn.later c d → http_conn.later c (d.read script).2
  | parse_line (d : http_conn) : http_conn.later c d → http_conn.later c d.parse_line.2
  | parse_request_line (d : http_conn) (text : Nat) :
      http_conn.later c d → http_conn.later c (d.parse_request_line text).2
  | parse_headers (d : http_conn) (text : Nat) :
      http_conn.later c d → http_conn.later c (d.parse_headers text).2
  | parse_content (d : http_conn) (text : Nat) (r : HTTP_CODE × http_conn) :
      http_conn.later c d → d.parse_content text = some r → http_conn.later c r.2
  | do_request (d : http_conn) (fs : file_system) :
      http_conn.later c d → http_conn.later c (d.do_request fs).2
  | other (d e : http_conn) :
      http_conn.later c d → e.m_read_buf = d.m_read_buf → e.m_checked_idx = d.m_checked_idx →
      e.m_read_idx = d.m_read_idx → http_conn.later c e

/-- A request of which only a part of the first line has arrived. -/
def partial_line : List Nat := str "GET /index.html HT"

/-! ## Vocabulary of the statements about docroot confinement

The source has no notion of a normalized path; these definitions follow the
usual reading of `.` and `..` segments and serve to say that a target leaves
the document root. -/

/-- The segments of a path: the byte strings between its `/` bytes. -/
def segments_from : List Nat → List Nat → List (List Nat)
  | [], cur => [cur.reverse]
  | b :: bs, cur =>
    if b = 47 then cur.reverse :: segments_from bs [] else segments_from bs (b :: cur)

/-- Resolve the segments onto a stack of directory names: an empty segment and
`.` stay, `..` goes one up (and stays at `/`), a name goes one down. -/
def resolve_segments : List (List Nat) → List (List Nat) → List (List Nat)
  | [], stack => stack.reverse
  | s :: ss, stack =>
    if s = [] ∨ s = str "." then resolve_segments ss stack
    else if s = str ".." then resolve_segments ss stack.tail
    else resolve_segments ss (s :: stack)

/-- The normalized form of an absolute path, as its list of names. -/
def normalized (path : List Nat) : List (List Nat) :=
  resolve_segments (segments_from path []) []

/-- The path `doc_root ++ target` normalizes to a path outside the document
root: the names of the root are not its leading names. -/
def escapes_root (target : List Nat) : Bool :=
  (normalized (doc_root ++ target)).take (normalized doc_root).length != normalized doc_root

/-- A target with a `..` segment that leaves the document root. -/
def escape_target : List Nat := str "/../secret.txt"

/-- A GET request for `escape_target`. -/
def escape_request : List Nat := str "GET /../secret.txt HTTP/1.1\r\n\r\n"

/-- A file system with one entry, a world-readable regular file next to the
document root, at the path `doc_root ++ escape_target`. -/
def escape_site : file_system := fun path =>
  if path = doc_root ++ escape_target then
    some { st_mode := regular_0644, data := str "secret" }
  else none

/-! ## Vocabulary of the statements about the buffer cursors -/

/-- The cursor invariant `0 ≤ m_checked_idx ≤ m_read_idx ≤ READ_BUFFER_SIZE` (the
indices are natural numbers, so the first inequality needs no saying). -/
def http_conn.cursor_inv (c : http_conn) : Prop :=
  c.m_checked_idx ≤ c.m_read_idx ∧ c.m_read_idx ≤ READ_BUFFER_SIZE

/-- The connection after the first 30 bytes of `sample_request` arrived on a
fresh connection: the first line is complete, the second is not. -/
def line_and_a_bit : http_conn :=
  (fresh_conn.read [recv_result.bytes (sample_request.take 30), recv_result.would_block]).2

/-! ## Scenarios: an error response ready to be sent -/

/-- The connection after `process_write(BAD_REQUEST)` on a fresh connection: the
159 bytes of the 400 response are in the write buffer, one descriptor. -/
def bad_request_ready : http_conn := (fresh_conn.process_write HTTP_CODE.BAD_REQUEST).2

/-- The connection `bad_request_ready` after `writev` accepted 100 bytes and
then 10 bytes: the state after two passes of the loop of `write()`. -/
def bad_request_stalled : http_conn := (bad_request_ready.account 100).account 10

/-! ## One pass of the loop of `process_read()` -/

/-- How a pass of the loop of `process_read()` ends: the method returns, or the
loop goes round with a line status and a connection state, or the pass calls a
`parse_content` that has no defined result. -/
inductive pass_result where
  | returns (r : HTTP_CODE × http_conn)
  | again (line_status : LINE_STATUS) (c : http_conn)
  | undefined
  deriving DecidableEq

/-- The body of the `while` loop of `process_read()`, with its condition: one
pass of `process_read_loop` (`process_read_loop_pass`). -/
def http_conn.process_read_pass (fs : file_system) (line_status : LINE_STATUS) (c : http_conn) :
    pass_result :=
  let l :=
    if c.m_check_state = CHECK_STATE.CHECK_STATE_CONTENT ∧ line_status = LINE_STATUS.LINE_OK
    then (line_status, c)
    else c.parse_line
  if l.1 = LINE_STATUS.LINE_OK then
    let text := l.2.m_start_line
    let c := { l.2 with m_start_line := l.2.m_checked_idx }
    match c.m_check_state with
    | CHECK_STATE.CHECK_STATE_REQUESTLINE =>
      let r := c.parse_request_line text
      if r.1 = HTTP_CODE.BAD_REQUEST then pass_result.returns (HTTP_CODE.BAD_REQUEST, r.2)
      else pass_result.again l.1 r.2
    | CHECK_STATE.CHECK_STATE_HEADER =>
      let r := c.parse_headers text
      if r.1 = HTTP_CODE.BAD_REQUEST then pass_result.returns (HTTP_CODE.BAD_REQUEST, r.2)
      else if r.1 = HTTP_CODE.GET_REQUEST then pass_result.returns (r.2.do_request fs)
      else pass_result.again l.1 r.2
    | CHECK_STATE.CHECK_STATE_CONTENT =>
      match c.parse_content text with
      | none => pass_result.undefined
      | some r =>
        if r.1 = HTTP_CODE.GET_REQUEST then pass_result.returns (r.2.do_request fs)
        else pass_result.again LINE_STATUS.LINE_OPEN r.2
  else pass_result.returns (HTTP_CODE.NO_REQUEST, l.2)

/-- The line status and the state with which the loop of `process_read()`
enters its pass number `k + 1`; `none` when the method has ended before. -/
def http_conn.after_passes (fs : file_system) :
    Nat → LINE_STATUS → http_conn → Option (LINE_STATUS × http_conn)
  | 0, line_status, c => some (line_status, c)
  | k + 1, line_status, c =>
    match c.process_read_pass fs line_status with
    | pass_result.again line_status1 c1 => http_conn.after_passes fs k line_status1 c1
    | pass_result.returns _ => none
    | pass_result.undefined => none

/-- The fields of a connection that the parser's position consists of: main
state, `m_start_line`, `m_checked_idx`, `m_read_idx`, `m_content_length`. -/
def http_conn.position (c : http_conn) : CHECK_STATE × Nat × Nat × Nat × Int :=
  (c.m_check_state, c.m_start_line, c.m_checked_idx, c.m_read_idx, c.m_content_length)

/-! ## Scenarios: requests with a negative Content-Length -/

/-- A request that announces a body of -100 bytes (50 bytes in all). -/
def negative_length_request : List Nat :=
  str "GET /index.html HTTP/1.1\r\nContent-Length: -100\r\n\r\n"

/-- A request that announces a body of -39 bytes (49 bytes in all). -/
def negative_39_request : List Nat :=
  str "GET /index.html HTTP/1.1\r\nContent-Length: -39\r\n\r\n"

/-- The request `negative_39_request` with the header line `X-Trace: 1` added
in front of its Content-Length line (61 bytes in all). -/
def negative_39_request_extended : List Nat :=
  str "GET /index.html HTTP/1.1\r\nX-Trace: 1\r\nContent-Length: -39\r\n\r\n"

/-- The state with which `process_read` on `negative_length_request`, received
on a fresh connection of `small_site`, enters its fourth pass. -/
def negative_length_at_body : http_conn :=
  match (fresh_conn.read [recv_result.bytes negative_length_request,
      recv_result.would_block]).2.after_passes small_site 3 LINE_STATUS.LINE_OK with
  | some r => r.2
  | none => fresh_conn

/-! ## Vocabulary of the statements about the header block -/

/-- The header block as the specification words it, with a space after each
colon: `Content-Length: <n>`, `Content-Type: text/html`, `Connection: <v>` and
the blank line. This definition follows the specification, not the source. -/
def claimed_header_block (n : Nat) (linger : Bool) : List Nat :=
  str "Content-Length: " ++ fmt_d (n : Int) ++ str "\r\n"
    ++ str "Content-Type: text/html\r\n"
    ++ str "Connection: " ++ (if linger = true then str "keep-alive" else str "close")
    ++ str "\r\n" ++ str "\r\n"

/-- The outcome `r` of `process_write` is success, and the text written,
`write_buf[0..write_idx)`, is the status line, then the bytes
`Content-Length: <n>\r\nContent-Type:text/html\r\nConnection: <v>\r\n\r\n` with
no space after `Content-Type:`, then `body`; `<v>` is `keep-alive` for a set
flag and `close` otherwise. -/
def written_header_block (r : Bool × http_conn) (status : List Nat) (n : Nat) (linger : Bool)
    (body : List Nat) : Prop :=
  r.1 = true ∧
  r.2.m_write_buf.take r.2.m_write_idx
    = status
      ++ (str "Content-Length: " ++ fmt_d (n : Int) ++ str "\r\n"
          ++ str "Content-Type:text/html\r\n"
          ++ str "Connection: " ++ (if linger = true then str "keep-alive" else str "close")
          ++ str "\r\n" ++ str "\r\n")
      ++ body

/-! ## The thread pool with its workers and the main loop, as interleaved steps

The threads of the program are the main loop of `main.cpp`, which is the only
caller of `append`, and the workers, which run `threadpool::run()`. A step of
the model is a stretch of one thread in which no other thread can interfere
with the shared data: a critical section of the queue lock, a semaphore
operation, or a call of `process()`. -/

/-- Where a worker thread is in `threadpool::run()`: blocked in
`m_queuesem.wait()`; past it and before `m_queuelocker.lock()`; or inside
`request->process()`. -/
inductive worker_pc where
  | waiting
  | woken
  | processing (request : Nat)
  deriving DecidableEq

/-- The registration of a connection's descriptor with epoll. `addfd(…, true)`
in `init(sockfd, addr)` and every `modfd` register it with `EPOLLONESHOT`:
after one event has been reported for it no further event is reported
(`disarmed`) until `modfd` arms it again. -/
inductive fd_state where
  | closed
  | armed
  | disarmed
  deriving DecidableEq

/-- Modelled from the spec: `locker.h`, which declares `locker` and `sem`, is
not among the sources. The queue lock is a mutual-exclusion lock, so a stretch
between `lock()` and `unlock()` is one step; the semaphore is a counter that
`post()` increments and `wait()` decrements when it is positive. The state of
the server: the pool, the semaphore count, the number of `append` calls that
have unlocked but not yet posted, the workers, the epoll registrations
(connections are named by their index in `users`), and two histories kept for
the statements: the handles of the `append` calls that returned true, and the
`process()` calls begun, each with its worker. -/
structure server where
  pool : threadpool
  sem : Nat
  posts : Nat
  workers : List worker_pc
  fds : Nat → fd_state
  accepted : List Nat
  started : List (Nat × Nat)

/-- The steps of the threads. `accept`, `hangup` and `readable` are branches of
the main loop; `post` is the `m_queuesem.post()` at the end of `append`; `wait`,
`take` and `finish` are the parts of one round of `run()` in worker `w`. -/
inductive action where
  | accept (r : Nat)
  | hangup (r : Nat)
  | readable (r : Nat) (read_ok : Bool)
  | post
  | wait (w : Nat)
  | take (w : Nat)
  | finish (w : Nat) (closes : Bool)
  deriving DecidableEq

/-- The registration table with the entry of `r` replaced. -/
def set_fd (fds : Nat → fd_state) (r : Nat) (v : fd_state) : Nat → fd_state :=
  fun x => if x = r then v else fds x

namespace server

/-- The server when the constructor of the pool has started the workers: the
queue is empty, every worker is about to wait, no connection is open. -/
def start (p : threadpool) : server :=
  { pool := p
    sem := 0
    posts := 0
    workers := List.replicate p.m_thread_number.toNat worker_pc.waiting
    fds := fun _ => fd_state.closed
    accepted := []
    started := [] }

/-- One step; a step that is not enabled leaves the state as it is.
* `accept r`: `users[connfd].init(connfd, addr)` arms the descriptor.
* `hangup r`: an event of an armed descriptor that makes the main loop close
  the connection (`close_conn()` after an error event or a failed `write()`).
* `readable r read_ok`: the `EPOLLIN` branch for an armed descriptor; the
  event disarms it; when `read()` fails the connection is closed, otherwise
  `pool->append(users + sockfd)` runs its critical section (the result is not
  looked at by `main`) and, when it has pushed, still owes its `post()`.
* `post`: an `append` that has pushed posts the semaphore.
* `wait w`: `m_queuesem.wait()` returns in worker `w`.
* `take w`: worker `w` locks; an empty queue or a null request sends it back
  to `wait`; otherwise it takes the front request and calls `process()`.
* `finish w closes`: `process()` returns in worker `w`; its last statement is
  the `modfd` that arms the descriptor again (or the connection was closed). -/
def step (s : server) : action → server
  | action.accept r =>
    if s.fds r = fd_state.closed then { s with fds := set_fd s.fds r fd_state.armed } else s
  | action.hangup r =>
    if s.fds r = fd_state.armed then { s with fds := set_fd s.fds r fd_state.closed } else s
  | action.readable r read_ok =>
    if s.fds r = fd_state.armed then
      if read_ok = true then
        if (s.pool.append (some r)).1 = true then
          { s with
            fds := set_fd s.fds r fd_state.disarmed
            pool := (s.pool.append (some r)).2
            posts := s.posts + 1
            accepted := s.accepted ++ [r] }
        else
          { s with
            fds := set_fd s.fds r fd_state.disarmed
            pool := (s.pool.append (some r)).2 }
      else { s with fds := set_fd s.fds r fd_state.closed }
    else s
  | action.post =>
    if 0 < s.posts then { s with posts := s.posts - 1, sem := s.sem + 1 } else s
  | action.wait w =>
    if s.workers[w]? = some worker_pc.waiting ∧ 0 < s.sem then
      { s with sem := s.sem - 1, workers := s.workers.set w worker_pc.woken }
    else s
  | action.take w =>
    if s.workers[w]? = some worker_pc.woken then
      match s.pool.pop with
      | (some (some r), p) =>
        { s with
          pool := p
          workers := s.workers.set w (worker_pc.processing r)
          started := s.started ++ [(w, r)] }
      | (_, p) => { s with pool := p, workers := s.workers.set w worker_pc.waiting }
    else s
  | action.finish w closes =>
    match s.workers[w]? with
    | some (worker_pc.processing r) =>
      { s with
        workers := s.workers.set w worker_pc.waiting
        fds := set_fd s.fds r (if closes = true then fd_state.closed else fd_state.armed) }
    | _ => s

/-- The state after a schedule: the steps of the threads in the order in which
they happen. -/
def run : List action → server → server
  | [], s => s
  | a :: rest, s => run rest (s.step a)

/-- The invariant of the server: the handles whose `process()` has begun,
followed by the queue, are the accepted handles in order; every queued request
has its token (a semaphore count, a woken worker or a `post` still owed); and a
connection occurs at most once among the queue and the workers inside
`process()`, and only while its descriptor is disarmed. -/
def inv (s : server) : Prop :=
  s.started.map (fun e => some e.2) ++ s.pool.m_workqueue = s.accepted.map some ∧
  s.sem + s.workers.count worker_pc.woken + s.posts = s.pool.m_workqueue.length ∧
  ∀ r : Nat,
    s.pool.m_workqueue.count (some r) + s.workers.count (worker_pc.processing r)
      ≤ (if s.fds r = fd_state.disarmed then 1 else 0)

end server

/-- A schedule for a pool of two workers: two connections are accepted and
become readable, both are queued and taken by the two workers; the first
worker finishes, the connection it served becomes readable again, is queued
again and is taken by the same worker while the other is still busy. -/
def sample_schedule : List action :=
  [action.accept 5, action.accept 6, action.readable 5 true, action.readable 6 true,
   action.post, action.post, action.wait 0, action.wait 1, action.take 0, action.take 1,
   action.readable 6 true, action.finish 0 false, action.readable 5 true, action.post,
   action.wait 0, action.take 0]

/-! ## Vocabulary of the statements about header lines -/

/-- The bytes of a sequence of header lines on the wire: each line followed by
CR LF. -/
def header_lines : List (List Nat) → List Nat
  | [] => []
  | line :: rest => line ++ 13 :: 10 :: header_lines rest

/-- A GET request for `target` with the header lines `lines` and no body: the
request line, the header lines, and the blank line. -/
def get_request (target : List Nat) (lines : List (List Nat)) : List Nat :=
  str "GET " ++ target ++ str " HTTP/1.1\r\n" ++ header_lines lines ++ str "\r\n"

/-- A header line that `parse_headers` can take in without starting a body: it
is not empty, holds no CR, LF or NUL, and does not begin with
`Content-Length:` in any letter case. -/
def plain_header_line (line : List Nat) : Prop :=
  line ≠ [] ∧ (∀ b ∈ line, b ≠ 13 ∧ b ≠ 10 ∧ b ≠ 0) ∧
  strncasecmp line (str "Content-Length:") 15 ≠ 0

/-- A header line that `parse_headers` does not recognize: a plain line that
begins with neither `Connection:` nor `Host:` (nor, being plain, with
`Content-Length:`), compared without regard to letter case. -/
def unrecognized_header_line (line : List Nat) : Prop :=
  plain_header_line line ∧
  strncasecmp line (str "Connection:") 11 ≠ 0 ∧ strncasecmp line (str "Host:") 5 ≠ 0

/-! ## Scenarios: a request with a Content-Length at the top of the `int` range -/

/-- A request that announces a body of 2147483647 bytes (56 bytes in all). -/
def huge_length_request : List Nat :=
  str "GET /index.html HTTP/1.1\r\nContent-Length: 2147483647\r\n\r\n"

/-- The state with which `process_read` on `huge_length_request`, received on a
fresh connection of `small_site`, enters its fourth pass. -/
def huge_length_at_body : http_conn :=
  match (fresh_conn.read [recv_result.bytes huge_length_request,
      recv_result.would_block]).2.after_passes small_site 3 LINE_STATUS.LINE_OK with
  | some r => r.2
  | none => fresh_conn

/-- The connection `reply_ready` at the return of a `write()` in which `writev`
accepted 50 bytes, then 1 byte, and then would block. -/
def reply_interrupted : http_conn :=
  (reply_ready.write [send_result.sent 50, send_result.sent 1, send_result.would_block]).2

/-! # Theorems -/

/-- C1, at the failing input: the request `body_request` (Content-Length 2, body
`xy`) received whole is answered FILE_REQUEST by one `process_read`, but when
the same bytes arrive cut before the last byte, `process_read` returns
NO_REQUEST after the first chunk and NO_REQUEST again after the second, although
every byte has then been appended. -/
theorem split_body_request_loses_completion :
    code_of (on_readable small_site body_request fresh_conn) = some HTTP_CODE.FILE_REQUEST ∧
    body_request.take 48 ++ body_request.drop 48 = body_request ∧
    code_of (on_readable small_site (body_request.take 48) fresh_conn)
      = some HTTP_CODE.NO_REQUEST ∧
    code_of ((on_readable small_site (body_request.take 48) fresh_conn).bind
      (fun r => on_readable small_site (body_request.drop 48) r.2))
      = some HTTP_CODE.NO_REQUEST := by
  decide!

/-- C2, at the failing input: for the 87-byte header and 37-byte file of
`reply_ready` the descriptors first denote header ++ file, but after `writev`
accepts 50 bytes and then 1 byte, `write()` has dropped the first descriptor
(length 0) and pointed the second 36 bytes BEFORE the mapped file, so the
descriptors no longer denote the unsent suffix (header bytes 51..86 and the
file); the same happens after 44 one-byte sends. -/
theorem partial_send_misplaces_file_descriptor :
    reply_ready.m_write_idx = 87 ∧ reply_ready.m_file_stat.st_size = 37 ∧
    reply_ready.bytes_to_send = 124 ∧
    reply_ready.pending = some reply_ready.response ∧
    (reply_ready.write [send_result.sent 50, send_result.sent 1, send_result.would_block]).1
      = true ∧
    (reply_ready.write [send_result.sent 50, send_result.sent 1]).2.bytes_have_send = 51 ∧
    (reply_ready.write [send_result.sent 50, send_result.sent 1]).2.m_iv_0.iov_len = 0 ∧
    (reply_ready.write [send_result.sent 50, send_result.sent 1]).2.m_iv_1
      = { iov_region := region.file, iov_off := -36, iov_len := 73 } ∧
    (reply_ready.write [send_result.sent 50, send_result.sent 1]).2.pending
      ≠ some (reply_ready.response.drop 51) ∧
    (reply_ready.write (List.replicate 44 (send_result.sent 1))).2.bytes_have_send = 44 ∧
    (reply_ready.write (List.replicate 44 (send_result.sent 1))).2.m_iv_1
      = { iov_region := region.file, iov_off := -43, iov_len := 80 } ∧
    (reply_ready.write (List.replicate 44 (send_result.sent 1))).2.pending
      ≠ some (reply_ready.response.drop 44) := by
  decide!

/-! ## Helper lemmas: buffers and formatting -/

theorem put_length (buf : List Nat) (i : Nat) (bs : List Nat) :
    (put buf i bs).length = buf.length := by
  simp only [put, List.length_append, List.length_take, List.length_drop]
  omega

theorem put_take_of_fits (buf : List Nat) (i : Nat) (bs : List Nat)
    (h : i + bs.length ≤ buf.length) :
    (put buf i bs).take (i + bs.length) = buf.take i ++ bs := by
  have h1 : (buf.take i).length = i := List.length_take_of_le (by omega)
  have h2 : bs.take (buf.length - i) = bs := List.take_of_length_le (by omega)
  rw [put, h2, ← List.append_assoc]
  have h3 : (List.take i buf ++ bs).length = i + bs.length := by simp [h1]
  rw [List.take_append_of_le_length (by omega)]
  rw [List.take_of_length_le (by omega)]

theorem decimal_aux_length (k : Nat) : ∀ (fuel n : Nat) (acc : List Nat),
    n < 10 ^ (k + 1) → k < fuel → (decimal_aux fuel n acc).length ≤ acc.length + (k + 1) := by
  induction k with
  | zero =>
    intro fuel n acc hn hf
    obtain ⟨f, rfl⟩ : ∃ f, fuel = f + 1 := ⟨fuel - 1, by omega⟩
    have : n / 10 = 0 := by omega
    simp [decimal_aux, this]
  | succ k ih =>
    intro fuel n acc hn hf
    obtain ⟨f, rfl⟩ : ∃ f, fuel = f + 1 := ⟨fuel - 1, by omega⟩
    unfold decimal_aux
    split
    · simp
    · have hq : n / 10 < 10 ^ (k + 1) := by
        rw [Nat.div_lt_iff_lt_mul (by norm_num)]
        calc n < 10 ^ (k + 1 + 1) := hn
          _ = 10 ^ (k + 1) * 10 := by ring
      have := ih f (n / 10) ((48 + n % 10) :: acc) hq (by omega)
      simp at this ⊢
      omega

theorem fmt_d_length (n : Nat) (h : n < 2 ^ 31) : (fmt_d (n : Int)).length ≤ 10 := by
  have : (fmt_d (n : Int)) = decimal_aux (n + 1) n [] := rfl
  rw [this]
  have hpow : n < 10 ^ (9 + 1) := by norm_num at h ⊢; omega
  by_cases h9 : 9 < n + 1
  · simpa using decimal_aux_length 9 (n + 1) n [] hpow h9
  · have h8 : n ≤ 8 := by omega
    have := decimal_aux_length 0 (n + 1) n [] (by omega) (by omega)
    simp at this
    omega

namespace http_conn

theorem wrote_start (c : http_conn) (h0 : c.m_write_idx = 0)
    (hlen : c.m_write_buf.length = WRITE_BUFFER_SIZE) : wrote c c [] := by
  refine ⟨hlen, by simpa using h0, by simp, ?_⟩
  cases c
  rfl

theorem wrote_step {c c1 : http_conn} {t : List Nat} (h : wrote c c1 t) (s : List Nat)
    (hfit : t.length + s.length + 2 ≤ WRITE_BUFFER_SIZE) :
    wrote c (c1.add_response s).2 (t ++ s) := by
  obtain ⟨hlen, hidx, htext, hframe⟩ := h
  have hW : WRITE_BUFFER_SIZE = 2048 := rfl
  have hlt : ¬ c1.m_write_idx ≥ WRITE_BUFFER_SIZE := by omega
  have hsize : ¬ WRITE_BUFFER_SIZE - 1 - c1.m_write_idx = 0 := by omega
  have htake : s.take (WRITE_BUFFER_SIZE - 1 - c1.m_write_idx - 1) = s :=
    List.take_of_length_le (by omega)
  simp only [add_response, hlt, if_false, hsize, htake]
  refine ⟨by simpa [put_length] using hlen, by simp [hidx], ?_, ?_⟩
  · show (put c1.m_write_buf c1.m_write_idx (s ++ [0])).take (t ++ s).length = t ++ s
    have hput := put_take_of_fits c1.m_write_buf c1.m_write_idx (s ++ [0])
      (by simp; omega)
    have : (t ++ s).length = c1.m_write_idx + s.length := by simp [hidx]
    rw [this]
    have h2 := congrArg (List.take (c1.m_write_idx + s.length)) hput
    rw [List.take_take] at h2
    have hmin : (c1.m_write_idx + s.length) ⊓ (c1.m_write_idx + (s ++ [0]).length)
        = c1.m_write_idx + s.length := by simp
    rw [hmin] at h2
    rw [h2, hidx, htext, ← List.append_assoc]
    rw [List.take_append_of_le_length (by simp)]
    exact List.take_of_length_le (by simp)
  · rw [hframe]

theorem wrote_linger {c c1 : http_conn} {t : List Nat} (h : wrote c c1 t) :
    c1.m_linger = c.m_linger := by
  rw [h.2.2.2]

theorem wrote_file_stat {c c1 : http_conn} {t : List Nat} (h : wrote c c1 t) :
    c1.m_file_stat = c.m_file_stat := by
  rw [h.2.2.2]

end http_conn

theorem header_block_length (n : Int) (l : Bool) :
    (header_block n l).length ≤ (fmt_d n).length + 68 := by
  cases l <;> simp [header_block, str]

namespace http_conn

theorem add_headers_wrote {c c1 : http_conn} {t : List Nat} (h : wrote c c1 t) (n : Int)
    (hfit : t.length + (fmt_d n).length + 70 ≤ WRITE_BUFFER_SIZE) :
    wrote c (c1.add_headers n).2 (t ++ header_block n c.m_linger) := by
  have hW : WRITE_BUFFER_SIZE = 2048 := rfl
  have h1 := wrote_step h (str "Content-Length: " ++ fmt_d n ++ str "\r\n")
    (by simp [str]; omega)
  have h2 := wrote_step h1 (str "Content-Type:" ++ str "text/html" ++ str "\r\n")
    (by simp [str]; omega)
  have h3 := wrote_step h2
    (str "Connection: " ++ (if c.m_linger = true then str "keep-alive" else str "close")
      ++ str "\r\n")
    (by cases c.m_linger <;> simp [str] <;> omega)
  have h4 := wrote_step h3 (str "\r\n")
    (by cases c.m_linger <;> simp [str] <;> omega)
  have hl : (c1.add_content_length n).2.add_content_type.2.m_linger = c.m_linger :=
    wrote_linger h2
  simp only [add_headers, add_linger, add_blank_line, hl]
  simpa [header_block, add_content_length, add_content_type, List.append_assoc] using h4

theorem error_response_wrote (c : http_conn) (status : Int) (title form : List Nat)
    (h0 : c.m_write_idx = 0) (hlen : c.m_write_buf.length = WRITE_BUFFER_SIZE)
    (hfit : (status_line status title).length + (fmt_d (wrap32 form.length)).length
      + form.length + 70 ≤ WRITE_BUFFER_SIZE) :
    wrote c (c.error_response status title form)
      (status_line status title ++ header_block (wrap32 form.length) c.m_linger ++ form) := by
  have hW : WRITE_BUFFER_SIZE = 2048 := rfl
  have h1 := wrote_step (wrote_start c h0 hlen) (status_line status title) (by simp; omega)
  have h2 := add_headers_wrote h1 (wrap32 form.length) (by simp; omega)
  have hb := header_block_length (wrap32 form.length) c.m_linger
  have h3 := wrote_step h2 form (by simp; omega)
  simpa [error_response, add_status_line, add_content, status_line] using h3

end http_conn

theorem error_reply_of_wrote (c c1 : http_conn) (t status body : List Nat)
    (h : http_conn.wrote c c1 t)
    (ht : t = status ++ (str "Content-Length: " ++ fmt_d (body.length : Int) ++ str "\r\n")
      ++ str "Content-Type:text/html\r\nConnection: close\r\n\r\n" ++ body) :
    error_reply c1.single_descriptor status body := by
  obtain ⟨_, hidx, htext, _⟩ := h
  have htext1 : List.take c1.m_write_idx c1.m_write_buf = t := by rw [hidx, htext]
  refine ⟨rfl, ?_, ?_, ?_, rfl, rfl, rfl⟩
  · show (List.take c1.m_write_idx c1.m_write_buf).take status.length = status
    rw [htext1, ht]
    simp [List.append_assoc]
  · show (List.take c1.m_write_idx c1.m_write_buf).drop (c1.m_write_idx - body.length) = body
    rw [htext1, hidx, ht, List.length_append, Nat.add_sub_cancel]
    exact List.drop_left _ _
  · show List.take c1.m_write_idx c1.m_write_buf = _
    rw [htext1, ht]

/-- C3: on a freshly reset connection `process_write` answers each of
BAD_REQUEST, FORBIDDEN_REQUEST, NO_RESOURCE and INTERNAL_ERROR with `true` and a
write buffer holding the status line of the table (400 Bad Request, 403
Forbidden, 404 Not Found, 500 Internal Error), a Content-Length header with the
length of the literal body, and that body byte for byte at the end; one send
descriptor covers `write_buf[0..write_idx)` and `bytes_to_send = m_write_idx`. -/
theorem status_body_table (c : http_conn) :
    error_reply (c.init.process_write HTTP_CODE.BAD_REQUEST)
      (str "HTTP/1.1 400 Bad Request\r\n")
      (str "Your request has bad syntax or is inherently impossible to satisfy.\n") ∧
    error_reply (c.init.process_write HTTP_CODE.FORBIDDEN_REQUEST)
      (str "HTTP/1.1 403 Forbidden\r\n")
      (str "You do not have permission to get file from this server.\n") ∧
    error_reply (c.init.process_write HTTP_CODE.NO_RESOURCE)
      (str "HTTP/1.1 404 Not Found\r\n")
      (str "The requested file was not found on this server.\n") ∧
    error_reply (c.init.process_write HTTP_CODE.INTERNAL_ERROR)
      (str "HTTP/1.1 500 Internal Error\r\n")
      (str "There was an unusual problem serving the requested file.\n") := by
  have h0 : c.init.m_write_idx = 0 := rfl
  have hlen : c.init.m_write_buf.length = WRITE_BUFFER_SIZE := by
    show (zeros WRITE_BUFFER_SIZE).length = WRITE_BUFFER_SIZE
    simp [zeros]
  have hl : c.init.m_linger = false := rfl
  refine ⟨?_, ?_, ?_, ?_⟩
  · exact error_reply_of_wrote _ _ _ _ _
      (http_conn.error_response_wrote c.init 400 error_400_title error_400_form h0 hlen
        (by decide))
      (by rw [hl]; decide!)
  · exact error_reply_of_wrote _ _ _ _ _
      (http_conn.error_response_wrote c.init 403 error_403_title error_403_form h0 hlen
        (by decide))
      (by rw [hl]; decide!)
  · exact error_reply_of_wrote _ _ _ _ _
      (http_conn.error_response_wrote c.init 404 error_404_title error_404_form h0 hlen
        (by decide))
      (by rw [hl]; decide!)
  · exact error_reply_of_wrote _ _ _ _ _
      (http_conn.error_response_wrote c.init 500 error_500_title error_500_form h0 hlen
        (by decide))
      (by rw [hl]; decide!)

theorem wrap32_of_range (v : Int) (h0 : 0 ≤ v) (h1 : v < 2 ^ 31) : wrap32 v = v := by
  unfold wrap32
  omega

theorem process_write_file (c : http_conn) :
    c.process_write HTTP_CODE.FILE_REQUEST =
      (true,
        { c.file_headers with
          m_iv_0 := { iov_region := region.write_buf, iov_off := 0,
                      iov_len := c.file_headers.m_write_idx }
          m_iv_1 := { iov_region := region.file, iov_off := 0,
                      iov_len := c.file_headers.m_file_stat.st_size }
          m_iv_count := 2
          bytes_to_send := wrap32 ((c.file_headers.m_write_idx : Int)
            + (c.file_headers.m_file_stat.st_size : Int)) }) := by
  simp only [http_conn.process_write, http_conn.file_headers]

theorem file_reply_wrote (c : http_conn) (S : Nat) (h0 : c.m_write_idx = 0)
    (hlen : c.m_write_buf.length = WRITE_BUFFER_SIZE) (hS : c.m_file_stat.st_size = S)
    (hlt : S < 2 ^ 31) :
    http_conn.wrote c c.file_headers
      (status_line 200 ok_200_title ++ header_block (S : Int) c.m_linger) := by
  unfold http_conn.file_headers
  have hW : WRITE_BUFFER_SIZE = 2048 := rfl
  have hs : (status_line 200 ok_200_title).length = 17 := by decide
  have h1 := http_conn.wrote_step (http_conn.wrote_start c h0 hlen) (status_line 200 ok_200_title)
    (by simp [hs]; omega)
  have hst : (c.add_status_line 200 ok_200_title).2.m_file_stat.st_size = S := by
    have := http_conn.wrote_file_stat h1
    simp only [List.nil_append] at this
    rw [← hS]
    exact congrArg file_stat.st_size this
  have hw : wrap32 (S : Int) = (S : Int) := wrap32_of_range _ (by omega) (by omega)
  have hd := fmt_d_length S hlt
  have h2 := http_conn.add_headers_wrote h1 (S : Int) (by simp [hs]; omega)
  rw [hst, hw]
  simpa [http_conn.add_status_line, status_line] using h2

/-- C4: on a connection whose write buffer is empty (as `init()` leaves it) and
whose `m_file_stat.st_size` is `S`, with header length plus `S` below 2^31,
`process_write(FILE_REQUEST)` returns `true`, writes the status line
`HTTP/1.1 200 OK`, a Content-Length header with the decimal value `S`, the
Content-Type header, the Connection header for the keep-alive flag and the blank
line; descriptor 0 is `write_buf[0..write_idx)`, descriptor 1 is the mapped file
from its start with length `S`, two descriptors are used, and
`bytes_to_send = m_write_idx + S`. -/
theorem file_response_construction (c : http_conn) (S : Nat)
    (h0 : c.m_write_idx = 0) (hlen : c.m_write_buf.length = WRITE_BUFFER_SIZE)
    (hS : c.m_file_stat.st_size = S)
    (hint : ((c.process_write HTTP_CODE.FILE_REQUEST).2.m_write_idx : Int) + (S : Int) < 2 ^ 31) :
    (c.process_write HTTP_CODE.FILE_REQUEST).1 = true ∧
    (c.process_write HTTP_CODE.FILE_REQUEST).2.m_write_buf.take
        (c.process_write HTTP_CODE.FILE_REQUEST).2.m_write_idx
      = str "HTTP/1.1 200 OK\r\n" ++ (str "Content-Length: " ++ fmt_d (S : Int) ++ str "\r\n")
        ++ str "Content-Type:text/html\r\n"
        ++ (str "Connection: " ++ (if c.m_linger = true then str "keep-alive" else str "close")
          ++ str "\r\n")
        ++ str "\r\n" ∧
    (c.process_write HTTP_CODE.FILE_REQUEST).2.m_iv_0
      = { iov_region := region.write_buf, iov_off := 0,
          iov_len := (c.process_write HTTP_CODE.FILE_REQUEST).2.m_write_idx } ∧
    (c.process_write HTTP_CODE.FILE_REQUEST).2.m_iv_1
      = { iov_region := region.file, iov_off := 0, iov_len := S } ∧
    (c.process_write HTTP_CODE.FILE_REQUEST).2.m_iv_count = 2 ∧
    (c.process_write HTTP_CODE.FILE_REQUEST).2.bytes_to_send
      = ((c.process_write HTTP_CODE.FILE_REQUEST).2.m_write_idx : Int) + (S : Int) ∧
    (c.process_write HTTP_CODE.FILE_REQUEST).2.m_file_address = c.m_file_address := by
  rw [process_write_file] at hint ⊢
  dsimp only at hint ⊢
  have hlt : S < 2 ^ 31 := by omega
  obtain ⟨_, hidx, htext, hframe⟩ := file_reply_wrote c S h0 hlen hS hlt
  have hst : c.file_headers.m_file_stat.st_size = S := by
    rw [hframe]
    exact hS
  have hfa : c.file_headers.m_file_address = c.m_file_address := by
    rw [hframe]
  have e1 : status_line 200 ok_200_title = str "HTTP/1.1 200 OK\r\n" := by decide
  have e2 : str "Content-Type:" ++ str "text/html" ++ str "\r\n"
      = str "Content-Type:text/html\r\n" := by decide
  refine ⟨rfl, ?_, rfl, ?_, rfl, ?_, hfa⟩
  · rw [hidx, htext, e1]
    unfold header_block
    rw [e2]
    simp only [List.append_assoc]
  · rw [hst]
  · rw [hst]
    exact wrap32_of_range _ (by omega) hint

/-- C4, the scenario of the specification: `sample_request` on `small_site`
(a 37-byte other-readable regular `index.html`) parses to FILE_REQUEST with the
keep-alive flag set, and `file_response_construction` applies to the parsed
connection with `S = 37`: the header is the 87 bytes shown, with
`Content-Length: 37` and `Connection: keep-alive`, and `bytes_to_send` is
87 + 37. -/
theorem file_response_sample :
    code_of (on_readable small_site sample_request fresh_conn) = some HTTP_CODE.FILE_REQUEST ∧
    sample_parsed.m_linger = true ∧
    sample_parsed.m_file_address = some index_html ∧ index_html.length = 37 ∧
    (sample_parsed.process_write HTTP_CODE.FILE_REQUEST).2.m_write_buf.take
        (sample_parsed.process_write HTTP_CODE.FILE_REQUEST).2.m_write_idx
      = str ("HTTP/1.1 200 OK\r\nContent-Length: 37\r\nContent-Type:text/html\r\n"
          ++ "Connection: keep-alive\r\n\r\n") ∧
    (sample_parsed.process_write HTTP_CODE.FILE_REQUEST).2.bytes_to_send = 87 + 37 ∧
    ((sample_parsed.process_write HTTP_CODE.FILE_REQUEST).1 = true ∧
    (sample_parsed.process_write HTTP_CODE.FILE_REQUEST).2.m_write_buf.take
        (sample_parsed.process_write HTTP_CODE.FILE_REQUEST).2.m_write_idx
      = str "HTTP/1.1 200 OK\r\n" ++ (str "Content-Length: " ++ fmt_d ((37 : Nat) : Int)
          ++ str "\r\n")
        ++ str "Content-Type:text/html\r\n"
        ++ (str "Connection: "
          ++ (if sample_parsed.m_linger = true then str "keep-alive" else str "close")
          ++ str "\r\n")
        ++ str "\r\n" ∧
    (sample_parsed.process_write HTTP_CODE.FILE_REQUEST).2.m_iv_0
      = { iov_region := region.write_buf, iov_off := 0,
          iov_len := (sample_parsed.process_write HTTP_CODE.FILE_REQUEST).2.m_write_idx } ∧
    (sample_parsed.process_write HTTP_CODE.FILE_REQUEST).2.m_iv_1
      = { iov_region := region.file, iov_off := 0, iov_len := 37 } ∧
    (sample_parsed.process_write HTTP_CODE.FILE_REQUEST).2.m_iv_count = 2 ∧
    (sample_parsed.process_write HTTP_CODE.FILE_REQUEST).2.bytes_to_send
      = ((sample_parsed.process_write HTTP_CODE.FILE_REQUEST).2.m_write_idx : Int)
        + ((37 : Nat) : Int) ∧
    (sample_parsed.process_write HTTP_CODE.FILE_REQUEST).2.m_file_address
      = sample_parsed.m_file_address) :=
  ⟨by decide!, by decide!, by decide!, by decide!, by decide!, by decide!,
    file_response_construction sample_parsed 37 (by decide!) (by decide!) (by decide!)
      (by decide!)⟩

theorem put_append (a b r bs : List Nat) (h : b.length = bs.length) :
    put (a ++ b ++ r) a.length bs = a ++ bs ++ r := by
  unfold put
  have h1 : (a ++ b ++ r).take a.length = a := by
    rw [List.append_assoc]
    exact List.take_left _ _
  have h2 : bs.take ((a ++ b ++ r).length - a.length) = bs :=
    List.take_of_length_le (by simp; omega)
  have h3 : (a ++ b ++ r).drop (a.length + bs.length) = r := by
    rw [← h, ← List.length_append]
    exact List.drop_left _ _
  rw [h1, h2, h3, List.append_assoc]

theorem cstr_of_terminated (s rest : List Nat) (hs : ∀ b ∈ s, b ≠ 0) :
    cstr (s ++ 0 :: rest) 0 = s := by
  unfold cstr
  rw [List.drop_zero]
  induction s with
  | nil => simp
  | cons a s ih =>
    have ha : a ≠ 0 := hs a (List.mem_cons_self _ _)
    have := ih (fun b hb => hs b (List.mem_cons_of_mem _ hb))
    simp [List.takeWhile_cons, ha, this]

theorem cstr_nonzero (buf : List Nat) (off : Nat) : ∀ b ∈ cstr buf off, b ≠ 0 := by
  intro b hb
  have := List.mem_takeWhile_imp hb
  simpa using this

theorem doc_root_nonzero : ∀ b ∈ doc_root, b ≠ 0 := by decide

theorem request_path_string (P url : List Nat) (hlen : P.length = FILENAME_LEN)
    (hz : P.getD (FILENAME_LEN - 1) 0 = 0) (hu : ∀ b ∈ url, b ≠ 0) :
    cstr (put (put P 0 (doc_root ++ [0])) doc_root.length
        (strncpy_bytes url (FILENAME_LEN - doc_root.length - 1))) 0
      = doc_root ++ url.take (FILENAME_LEN - doc_root.length - 1) := by
  have hF : FILENAME_LEN = 200 := rfl
  have hd : doc_root.length = 33 := by decide
  have hn : FILENAME_LEN - doc_root.length - 1 = 166 := by rw [hF, hd]
  rw [hn]
  -- the array is its first 34 bytes, the next 165 and the last one, which is zero
  have hsplit : P = P.take 34 ++ (P.drop 34).take 165 ++ [0] := by
    have h199 : P.drop 199 = [0] := by
      rw [hF] at hlen hz
      have hlt : 199 < P.length := by omega
      rw [List.drop_eq_getElem_cons hlt]
      have : P.drop 200 = [] := List.drop_of_length_le (by omega)
      rw [this]
      have hg : P.getD 199 0 = P[199] := by
        simp [List.getD_eq_getElem?_getD, List.getElem?_eq_getElem hlt]
      rw [← hg]
      rw [show (200 - 1 : Nat) = 199 from rfl] at hz
      rw [hz]
    conv_lhs => rw [← List.take_append_drop 34 P, ← List.take_append_drop 165 (P.drop 34)]
    rw [List.drop_drop, show 34 + 165 = 199 from rfl, h199, List.append_assoc]
  have h34 : (P.take 34).length = 34 := List.length_take_of_le (by rw [hlen, hF]; omega)
  have h165 : ((P.drop 34).take 165).length = 165 :=
    List.length_take_of_le (by rw [List.length_drop, hlen, hF]; omega)
  have e1 : put P 0 (doc_root ++ [0]) = doc_root ++ ([0] ++ (P.drop 34).take 165) ++ [0] := by
    conv_lhs => rw [hsplit]
    have := put_append [] (P.take 34) ((P.drop 34).take 165 ++ [0]) (doc_root ++ [0])
      (by simp [h34, hd])
    simp only [List.nil_append, List.length_nil, List.append_assoc] at this ⊢
    exact this
  rw [e1]
  have e2 := put_append doc_root ([0] ++ (P.drop 34).take 165) [0] (strncpy_bytes url 166)
    (by simp [strncpy_bytes, zeros, h165]; omega)
  rw [e2]
  unfold strncpy_bytes
  have e3 : ∃ rest, zeros (166 - url.length) ++ [0] = 0 :: rest := by
    cases h : 166 - url.length with
    | zero => exact ⟨[], by simp [zeros]⟩
    | succ k => exact ⟨zeros k ++ [0], by simp [zeros, List.replicate_succ]⟩
  obtain ⟨rest, hrest⟩ := e3
  have e4 : doc_root ++ (url.take 166 ++ zeros (166 - url.length)) ++ [0]
      = (doc_root ++ url.take 166) ++ 0 :: rest := by
    rw [← hrest]
    simp only [List.append_assoc]
  rw [e4]
  apply cstr_of_terminated
  intro b hb
  rcases List.mem_append.mp hb with h | h
  · exact doc_root_nonzero b h
  · exact hu b (List.mem_of_mem_take h)

/-- C5, counterexample to the claim as stated: for the 167-byte target
`long_target` the lookup of `doc_root ++ target` finds nothing in
`truncating_site`, yet the request is answered FILE_REQUEST, because the path
looked up is cut to 199 bytes. -/
theorem long_target_is_truncated :
    truncating_site (doc_root ++ long_target) = none ∧
    (on_readable truncating_site long_request fresh_conn).map
        (fun r => r.2.m_url.map (cstr r.2.m_read_buf)) = some (some long_target) ∧
    code_of (on_readable truncating_site long_request fresh_conn)
      = some HTTP_CODE.FILE_REQUEST := by
  decide!

/-- C5 as amended: with `target` the string at `m_url` and `lookup_path target`
the root followed by at most 166 bytes of it, `do_request` returns NO_RESOURCE
when the lookup finds nothing, FORBIDDEN_REQUEST when the entry found is not
other-readable, BAD_REQUEST when it is other-readable and a directory, and
FILE_REQUEST exactly when an entry is found that is other-readable and not a
directory. The hypotheses say that `m_request_path` is the 200-byte array whose
last byte `init()` zeroed. -/
theorem resource_classification (fs : file_system) (c : http_conn) (u : Nat)
    (hlen : c.m_request_path.length = FILENAME_LEN)
    (hz : c.m_request_path.getD (FILENAME_LEN - 1) 0 = 0)
    (hu : c.m_url = some u) :
    (fs (lookup_path (cstr c.m_read_buf u)) = none →
      (c.do_request fs).1 = HTTP_CODE.NO_RESOURCE) ∧
    (∀ e, fs (lookup_path (cstr c.m_read_buf u)) = some e → e.st_mode &&& S_IROTH = 0 →
      (c.do_request fs).1 = HTTP_CODE.FORBIDDEN_REQUEST) ∧
    (∀ e, fs (lookup_path (cstr c.m_read_buf u)) = some e → e.st_mode &&& S_IROTH ≠ 0 →
      S_ISDIR e.st_mode = true → (c.do_request fs).1 = HTTP_CODE.BAD_REQUEST) ∧
    ((c.do_request fs).1 = HTTP_CODE.FILE_REQUEST ↔
      ∃ e, fs (lookup_path (cstr c.m_read_buf u)) = some e ∧ e.st_mode &&& S_IROTH ≠ 0 ∧
        S_ISDIR e.st_mode = false) := by
  have hp := request_path_string c.m_request_path (cstr c.m_read_buf u) hlen hz
    (cstr_nonzero _ _)
  have hdo : c.do_request fs =
      match fs (lookup_path (cstr c.m_read_buf u)) with
      | none => (HTTP_CODE.NO_RESOURCE, (c.do_request fs).2)
      | some e =>
        if e.st_mode &&& S_IROTH = 0 then (HTTP_CODE.FORBIDDEN_REQUEST, (c.do_request fs).2)
        else if S_ISDIR e.st_mode then (HTTP_CODE.BAD_REQUEST, (c.do_request fs).2)
        else (HTTP_CODE.FILE_REQUEST, (c.do_request fs).2) := by
    unfold lookup_path
    rw [← hp]
    simp only [http_conn.do_request, hu]
    cases fs (cstr (put (put c.m_request_path 0 (doc_root ++ [0])) doc_root.length
        (strncpy_bytes (cstr c.m_read_buf u) (FILENAME_LEN - doc_root.length - 1))) 0) with
    | none => rfl
    | some e =>
      dsimp only
      split_ifs <;> rfl
  refine ⟨?_, ?_, ?_, ?_⟩
  · intro h
    rw [hdo, h]
  · intro e h hr
    rw [hdo, h]
    simp [hr]
  · intro e h hr hdir
    rw [hdo, h]
    simp [hr, hdir]
  · constructor
    · intro h
      rw [hdo] at h
      cases hfs : fs (lookup_path (cstr c.m_read_buf u)) with
      | none => rw [hfs] at h; simp at h
      | some e =>
        rw [hfs] at h
        refine ⟨e, rfl, ?_, ?_⟩
        · intro hr
          simp [hr] at h
        · cases hd : S_ISDIR e.st_mode with
          | false => rfl
          | true =>
            by_cases hr : e.st_mode &&& S_IROTH = 0 <;> simp [hr, hd] at h
    · rintro ⟨e, h, hr, hdir⟩
      rw [hdo, h]
      simp [hr, hdir]

/-- C5, an instance: the parsed sample request on `small_site`. -/
theorem resource_classification_sample :
    sample_parsed.m_request_path.length = FILENAME_LEN ∧
    sample_parsed.m_request_path.getD (FILENAME_LEN - 1) 0 = 0 ∧
    sample_parsed.m_url = some 4 ∧
    small_site (lookup_path (cstr sample_parsed.m_read_buf 4))
      = some { st_mode := regular_0644, data := index_html } ∧
    ((sample_parsed.do_request small_site).1 = HTTP_CODE.FILE_REQUEST ↔
      ∃ e, small_site (lookup_path (cstr sample_parsed.m_read_buf 4)) = some e ∧
        e.st_mode &&& S_IROTH ≠ 0 ∧ S_ISDIR e.st_mode = false) :=
  ⟨by decide!, by decide!, by decide!, by decide!,
    (resource_classification small_site sample_parsed 4 (by decide!) (by decide!)
      (by decide!)).2.2.2⟩

/-! ## Helper lemmas: the string scans of the request-line parser -/

theorem tolower_ne_zero (b : Nat) (h : b ≠ 0) : tolower b ≠ 0 := by
  unfold tolower
  split <;> omega

theorem strcasecmp_eq_zero_iff (s : List Nat) : ∀ t : List Nat, (∀ b ∈ s, b ≠ 0) →
    (∀ b ∈ t, b ≠ 0) → (strcasecmp s t = 0 ↔ s.map tolower = t.map tolower) := by
  induction s with
  | nil =>
    intro t _ ht
    cases t with
    | nil => simp [strcasecmp]
    | cons b t =>
      have := tolower_ne_zero b (ht b (List.mem_cons_self _ _))
      simp only [strcasecmp, List.map_nil, List.map_cons]
      constructor
      · intro h
        omega
      · intro h
        cases h
  | cons a s ih =>
    intro t hs ht
    cases t with
    | nil =>
      have := tolower_ne_zero a (hs a (List.mem_cons_self _ _))
      simp only [strcasecmp, List.map_nil, List.map_cons]
      constructor
      · intro h
        omega
      · intro h
        cases h
    | cons b t =>
      simp only [strcasecmp, List.map_cons]
      by_cases hab : tolower a = tolower b
      · rw [if_pos hab, ih t (fun x hx => hs x (List.mem_cons_of_mem _ hx))
          (fun x hx => ht x (List.mem_cons_of_mem _ hx))]
        simp [hab]
      · rw [if_neg hab]
        constructor
        · intro h
          omega
        · intro h
          exact absurd (List.cons.inj h).1 hab

theorem strpbrk_from_spec (accept : List Nat) (l : List Nat) : ∀ i : Nat,
    (strpbrk_from l accept i = none ∧
      ∀ b ∈ l.takeWhile (fun b => b != 0), accept.contains b = false) ∨
    (∃ m sep r, l = m ++ sep :: r ∧ strpbrk_from l accept i = some (i + m.length) ∧
      (∀ b ∈ m, b ≠ 0) ∧ (∀ b ∈ m, accept.contains b = false) ∧ sep ≠ 0 ∧
      accept.contains sep = true) := by
  induction l with
  | nil =>
    intro i
    left
    simp [strpbrk_from]
  | cons a l ih =>
    intro i
    by_cases ha : a = 0
    · left
      subst ha
      simp [strpbrk_from]
    · by_cases hacc : accept.contains a = true
      · right
        exact ⟨[], a, l, rfl, by rw [strpbrk_from, if_neg ha, if_pos hacc]; rfl, by simp, by simp, ha, hacc⟩
      · have hacc' : accept.contains a = false := by simpa using hacc
        rcases ih (i + 1) with ⟨h1, h2⟩ | ⟨m, sep, r, h1, h2, h3, h4, h5, h6⟩
        · left
          refine ⟨by rw [strpbrk_from, if_neg ha, if_neg hacc, h1], ?_⟩
          intro b hb
          rw [List.takeWhile_cons] at hb
          have : (a != 0) = true := by simpa using ha
          rw [this] at hb
          rcases List.mem_cons.mp hb with rfl | hb
          · exact hacc'
          · exact h2 b hb
        · right
          refine ⟨a :: m, sep, r, by rw [h1]; rfl, ?_, ?_, ?_, h5, h6⟩
          · rw [strpbrk_from, if_neg ha, if_neg hacc, h2, List.length_cons]
            congr 1
            omega
          · intro b hb
            rcases List.mem_cons.mp hb with rfl | hb
            · exact ha
            · exact h3 b hb
          · intro b hb
            rcases List.mem_cons.mp hb with rfl | hb
            · exact hacc'
            · exact h4 b hb

theorem strpbrk_from_append (accept m : List Nat) (sep : Nat) (r : List Nat) :
    ∀ i : Nat, (∀ b ∈ m, b ≠ 0) → (∀ b ∈ m, accept.contains b = false) → sep ≠ 0 →
    accept.contains sep = true → strpbrk_from (m ++ sep :: r) accept i = some (i + m.length) := by
  induction m with
  | nil =>
    intro i _ _ hs hc
    rw [List.nil_append, strpbrk_from, if_neg hs, if_pos hc]
    rfl
  | cons a m ih =>
    intro i h0 hacc hs hc
    have ha : a ≠ 0 := h0 a (List.mem_cons_self _ _)
    have ha2 : accept.contains a = false := hacc a (List.mem_cons_self _ _)
    have := ih (i + 1) (fun b hb => h0 b (List.mem_cons_of_mem _ hb))
      (fun b hb => hacc b (List.mem_cons_of_mem _ hb)) hs hc
    have ha3 : ¬ accept.contains a = true := by rw [ha2]; exact Bool.false_ne_true
    rw [List.cons_append, strpbrk_from, if_neg ha, if_neg ha3, this, List.length_cons]
    congr 1
    omega

theorem takeWhile_nonzero_append (m : List Nat) (r : List Nat) (h0 : ∀ b ∈ m, b ≠ 0) :
    (m ++ r).takeWhile (fun b => b != 0) = m ++ r.takeWhile (fun b => b != 0) := by
  induction m with
  | nil => rfl
  | cons a m ih =>
    have ha : (a != 0) = true := by simpa using h0 a (List.mem_cons_self _ _)
    simp only [List.cons_append, List.takeWhile_cons, ha, if_true]
    rw [ih (fun b hb => h0 b (List.mem_cons_of_mem _ hb))]

theorem cstr_at (pre s rest : List Nat) (hs : ∀ b ∈ s, b ≠ 0) :
    cstr (pre ++ (s ++ 0 :: rest)) pre.length = s := by
  unfold cstr
  rw [List.drop_left, takeWhile_nonzero_append s _ hs]
  simp

theorem cstr_at_tail (pre l : List Nat) :
    cstr (pre ++ l) pre.length = l.takeWhile (fun b => b != 0) := by
  unfold cstr
  rw [List.drop_left]

theorem set_at (pre m : List Nat) (x y : Nat) (r : List Nat) :
    (pre ++ (m ++ x :: r)).set (pre.length + m.length) y = pre ++ (m ++ y :: r) := by
  rw [← List.append_assoc, ← List.append_assoc, ← List.length_append]
  rw [List.set_append_right _ _ (Nat.le_refl _)]
  simp

theorem drop_after (pre m : List Nat) (x : Nat) (r : List Nat) :
    (pre ++ (m ++ x :: r)).drop (pre.length + m.length + 1) = r := by
  have : pre ++ (m ++ x :: r) = (pre ++ (m ++ [x])) ++ r := by simp
  rw [this]
  have hl : (pre ++ (m ++ [x])).length = pre.length + m.length + 1 := by simp; omega
  rw [← hl]
  exact List.drop_left _ _

theorem set_after (pre m : List Nat) (x : Nat) (r : List Nat) (k y : Nat) :
    (pre ++ (m ++ x :: r)).set (pre.length + m.length + 1 + k) y
      = pre ++ (m ++ x :: r.set k y) := by
  have : pre ++ (m ++ x :: r) = (pre ++ (m ++ [x])) ++ r := by simp
  rw [this]
  have hl : (pre ++ (m ++ [x])).length = pre.length + m.length + 1 := by simp; omega
  rw [← hl, List.set_append_right _ _ (Nat.le_add_right _ _)]
  simp

theorem getD_after (pre m : List Nat) (x : Nat) (r : List Nat) (k : Nat) :
    (pre ++ (m ++ x :: r)).getD (pre.length + m.length + 1 + k) 0 = r.getD k 0 := by
  have : pre ++ (m ++ x :: r) = (pre ++ (m ++ [x])) ++ r := by simp
  rw [this]
  have hl : (pre ++ (m ++ [x])).length = pre.length + m.length + 1 := by simp; omega
  rw [← hl, List.getD_eq_getElem?_getD, List.getD_eq_getElem?_getD,
    List.getElem?_append_right (Nat.le_add_right _ _)]
  simp

theorem cstr_after (pre m : List Nat) (x : Nat) (r : List Nat) (k : Nat) :
    cstr (pre ++ (m ++ x :: r)) (pre.length + m.length + 1 + k) = cstr r k := by
  unfold cstr
  rw [← List.drop_drop, drop_after]

theorem sep_contains (s : Nat) (h : s = 32 ∨ s = 9) : [32, 9].contains s = true := by
  rcases h with rfl | rfl <;> decide

theorem not_sep_contains (b : Nat) (h1 : b ≠ 32) (h2 : b ≠ 9) : [32, 9].contains b = false := by
  simp [h1, h2]

/-- C7: a line `GET<s>T<s>HTTP/1.1` stored at `text = pre.length` and terminated
by the NUL that `parse_line` wrote, with each `<s>` one space or tab and `T` a
token that begins with `/` and holds no space, tab or NUL (the line is a C
string): `parse_request_line` returns NO_REQUEST, records method GET, the target
`T` at offset `text + 4`, the version `HTTP/1.1` at offset `text + 5 + |T|`, and
moves the main state from REQUEST_LINE to HEADERS. -/
theorem request_line_accepted (c : http_conn) (pre T rest : List Nat) (s1 s2 : Nat)
    (hs1 : s1 = 32 ∨ s1 = 9) (hs2 : s2 = 32 ∨ s2 = 9)
    (hT : T.head? = some 47)
    (hTs : ∀ b ∈ T, b ≠ 32 ∧ b ≠ 9 ∧ b ≠ 0)
    (hbuf : c.m_read_buf
      = pre ++ (str "GET" ++ s1 :: (T ++ s2 :: (str "HTTP/1.1" ++ 0 :: rest))))
    (hstate : c.m_check_state = CHECK_STATE.CHECK_STATE_REQUESTLINE) :
    (c.parse_request_line pre.length).1 = HTTP_CODE.NO_REQUEST ∧
    (c.parse_request_line pre.length).2.m_method = METHOD.GET ∧
    (c.parse_request_line pre.length).2.m_url = some (pre.length + 4) ∧
    cstr (c.parse_request_line pre.length).2.m_read_buf (pre.length + 4) = T ∧
    (c.parse_request_line pre.length).2.m_version = some (pre.length + 5 + T.length) ∧
    cstr (c.parse_request_line pre.length).2.m_read_buf (pre.length + 5 + T.length)
      = str "HTTP/1.1" ∧
    c.m_check_state = CHECK_STATE.CHECK_STATE_REQUESTLINE ∧
    (c.parse_request_line pre.length).2.m_check_state = CHECK_STATE.CHECK_STATE_HEADER := by
  have hG0 : ∀ b ∈ str "GET", b ≠ 0 := by decide
  have hGs : ∀ b ∈ str "GET", [32, 9].contains b = false := by decide
  have hV0 : ∀ b ∈ str "HTTP/1.1", b ≠ 0 := by decide
  have hGl : (str "GET").length = 3 := by decide
  have hT0 : ∀ b ∈ T, b ≠ 0 := fun b hb => (hTs b hb).2.2
  have hTsep : ∀ b ∈ T, [32, 9].contains b = false :=
    fun b hb => not_sep_contains b (hTs b hb).1 (hTs b hb).2.1
  have hs10 : s1 ≠ 0 := by rcases hs1 with rfl | rfl <;> decide
  have hs20 : s2 ≠ 0 := by rcases hs2 with rfl | rfl <;> decide
  obtain ⟨T1, rfl⟩ : ∃ T1, T = 47 :: T1 := by
    cases T with
    | nil => simp at hT
    | cons a T1 => exact ⟨T1, by simp at hT; rw [hT]⟩
  -- first separator
  have hp : strpbrk c.m_read_buf pre.length [32, 9] = some (pre.length + 3) := by
    rw [hbuf, strpbrk, List.drop_left, ← hGl]
    exact strpbrk_from_append _ _ _ _ _ hG0 hGs hs10 (sep_contains s1 hs1)
  have hb1 : c.m_read_buf.set (pre.length + 3) 0
      = pre ++ (str "GET" ++ 0 :: (47 :: T1 ++ s2 :: (str "HTTP/1.1" ++ 0 :: rest))) := by
    rw [hbuf, ← hGl]
    exact set_at _ _ _ _ _
  have hm : cstr (pre ++ (str "GET" ++ 0 :: (47 :: T1 ++ s2 :: (str "HTTP/1.1" ++ 0 :: rest))))
      pre.length = str "GET" := cstr_at _ _ _ hG0
  have hcmp : strcasecmp (str "GET") (str "GET") = 0 := by decide
  -- second separator
  have hq : strpbrk (pre ++ (str "GET" ++ 0 :: (47 :: T1 ++ s2 :: (str "HTTP/1.1" ++ 0 :: rest))))
      (pre.length + 3 + 1) [32, 9] = some (pre.length + 3 + 1 + (47 :: T1).length) := by
    rw [strpbrk, ← hGl, drop_after]
    exact strpbrk_from_append _ _ _ _ _ hT0 hTsep hs20 (sep_contains s2 hs2)
  have hb3 : (pre ++ (str "GET" ++ 0 :: (47 :: T1 ++ s2 :: (str "HTTP/1.1" ++ 0 :: rest)))).set
      (pre.length + 3 + 1 + (47 :: T1).length) 0
      = pre ++ (str "GET" ++ 0 :: (47 :: T1 ++ 0 :: (str "HTTP/1.1" ++ 0 :: rest))) := by
    rw [← hGl, set_after]
    have := set_at [] (47 :: T1) s2 0 (str "HTTP/1.1" ++ 0 :: rest)
    simp only [List.nil_append, List.length_nil, Nat.zero_add] at this
    rw [this]
  have hu : cstr (pre ++ (str "GET" ++ 0 :: (47 :: T1 ++ 0 :: (str "HTTP/1.1" ++ 0 :: rest))))
      (pre.length + 3 + 1) = 47 :: T1 := by
    have := cstr_after pre (str "GET") 0 (47 :: T1 ++ 0 :: (str "HTTP/1.1" ++ 0 :: rest)) 0
    rw [hGl] at this
    rw [this]
    exact cstr_at [] _ _ hT0
  have hv : cstr (pre ++ (str "GET" ++ 0 :: (47 :: T1 ++ 0 :: (str "HTTP/1.1" ++ 0 :: rest))))
      (pre.length + 3 + 1 + (47 :: T1).length + 1) = str "HTTP/1.1" := by
    have := cstr_after pre (str "GET") 0 (47 :: T1 ++ 0 :: (str "HTTP/1.1" ++ 0 :: rest))
      ((47 :: T1).length + 1)
    rw [hGl] at this
    rw [show pre.length + 3 + 1 + (47 :: T1).length + 1
      = pre.length + 3 + 1 + ((47 :: T1).length + 1) by omega, this]
    have h2 := cstr_after [] (47 :: T1) 0 (str "HTTP/1.1" ++ 0 :: rest) 0
    simp only [List.nil_append, List.length_nil, Nat.zero_add, Nat.add_zero] at h2
    rw [h2]
    exact cstr_at [] _ _ hV0
  have hvc : strcasecmp (str "HTTP/1.1") (str "HTTP/1.1") = 0 := by decide
  have hnc : strncasecmp (47 :: T1) (str "http://") 7 ≠ 0 := by
    have : str "http://" = [104, 116, 116, 112, 58, 47, 47] := by decide
    rw [this]
    simp [strncasecmp, strcasecmp, tolower]
  have hg : (pre ++ (str "GET" ++ 0 :: (47 :: T1 ++ 0 :: (str "HTTP/1.1" ++ 0 :: rest)))).getD
      (pre.length + 3 + 1) 0 = 47 := by
    have := getD_after pre (str "GET") 0 (47 :: T1 ++ 0 :: (str "HTTP/1.1" ++ 0 :: rest)) 0
    rw [hGl] at this
    rw [this]
    rfl
  have hres : c.parse_request_line pre.length =
      (HTTP_CODE.NO_REQUEST,
        { c with
          m_read_buf := pre ++ (str "GET" ++ 0 :: (47 :: T1 ++ 0 :: (str "HTTP/1.1" ++ 0 :: rest)))
          m_url := some (pre.length + 3 + 1)
          m_method := METHOD.GET
          m_version := some (pre.length + 3 + 1 + (47 :: T1).length + 1)
          m_check_state := CHECK_STATE.CHECK_STATE_HEADER }) := by
    simp only [http_conn.parse_request_line, hp, hb1, hm, hcmp, hq, hb3, hv, hvc, hu, hnc, hg,
      if_true, if_false, ne_eq, not_true_eq_false, not_false_eq_true]
  rw [hres]
  refine ⟨rfl, rfl, rfl, ?_, ?_, ?_, hstate, rfl⟩
  · exact hu
  · show some (pre.length + 3 + 1 + (47 :: T1).length + 1) = some (pre.length + 5 + (47 :: T1).length)
    congr 1
    omega
  · show cstr _ (pre.length + 5 + (47 :: T1).length) = _
    rw [show pre.length + 5 + (47 :: T1).length = pre.length + 3 + 1 + (47 :: T1).length + 1 by omega]
    exact hv

theorem token_split (m : List Nat) (sep : Nat) (X : List Nat)
    (hm : ∀ b ∈ m, [32, 9].contains b = false) (hsep : [32, 9].contains sep = true) :
    method_token (m ++ sep :: X) = m ∧ after_token (m ++ sep :: X) = X := by
  unfold method_token after_token
  induction m with
  | nil =>
    simp only [List.nil_append, List.takeWhile_cons, List.dropWhile_cons, hsep, Bool.not_true,
      Bool.false_eq_true, if_false]
    exact ⟨trivial, rfl⟩
  | cons a m ih =>
    have ha := hm a (List.mem_cons_self _ _)
    have := ih (fun b hb => hm b (List.mem_cons_of_mem _ hb))
    simp only [List.cons_append, List.takeWhile_cons, List.dropWhile_cons, ha, Bool.not_false,
      if_true]
    exact ⟨by rw [this.1], this.2⟩

theorem parse_request_line_keeps_state (c : http_conn) (text : Nat)
    (h : (c.parse_request_line text).1 = HTTP_CODE.BAD_REQUEST) :
    (c.parse_request_line text).2.m_check_state = c.m_check_state := by
  revert h
  simp only [http_conn.parse_request_line]
  repeat' split
  all_goals first
    | (intro _; rfl)
    | (intro h; simp at h)

theorem line_tokens (pre m m2 r2 : List Nat) (sep sep2 : Nat)
    (hm0 : ∀ b ∈ m, b ≠ 0) (hms : ∀ b ∈ m, [32, 9].contains b = false)
    (hsep0 : sep ≠ 0) (hsep : [32, 9].contains sep = true)
    (hm20 : ∀ b ∈ m2, b ≠ 0) (hm2s : ∀ b ∈ m2, [32, 9].contains b = false)
    (hsep20 : sep2 ≠ 0) (hsep2 : [32, 9].contains sep2 = true) :
    method_token (cstr (pre ++ (m ++ sep :: (m2 ++ sep2 :: r2))) pre.length) = m ∧
    target_token (cstr (pre ++ (m ++ sep :: (m2 ++ sep2 :: r2))) pre.length) = m2 ∧
    version_token (cstr (pre ++ (m ++ sep :: (m2 ++ sep2 :: r2))) pre.length)
      = r2.takeWhile (fun b => b != 0) := by
  have e1 : cstr (pre ++ (m ++ sep :: (m2 ++ sep2 :: r2))) pre.length
      = m ++ sep :: (m2 ++ sep2 :: r2.takeWhile (fun b => b != 0)) := by
    rw [cstr_at_tail, takeWhile_nonzero_append m _ hm0]
    have hs : (sep != 0) = true := by simpa using hsep0
    have hs2 : (sep2 != 0) = true := by simpa using hsep20
    rw [List.takeWhile_cons, hs, if_pos rfl, takeWhile_nonzero_append m2 _ hm20,
      List.takeWhile_cons, hs2, if_pos rfl]
  rw [e1]
  have t1 := token_split m sep (m2 ++ sep2 :: r2.takeWhile (fun b => b != 0)) hms hsep
  have t2 := token_split m2 sep2 (r2.takeWhile (fun b => b != 0)) hm2s hsep2
  refine ⟨t1.1, ?_, ?_⟩
  · rw [target_token, t1.2, t2.1]
  · rw [version_token, t1.2, t2.2]

/-- C6 as amended: `parse_request_line` returns BAD_REQUEST unless the method
token (the bytes before the first space or tab) equals `GET` and the version
token (the bytes after the second space or tab) equals `HTTP/1.1`, both compared
without regard to ASCII letter case; and a line answered BAD_REQUEST leaves the
main state as it was. -/
theorem request_line_rejected (c : http_conn) (text : Nat) :
    (¬((method_token (cstr c.m_read_buf text)).map tolower = str "get" ∧
        (version_token (cstr c.m_read_buf text)).map tolower = str "http/1.1") →
      (c.parse_request_line text).1 = HTTP_CODE.BAD_REQUEST) ∧
    ((c.parse_request_line text).1 = HTTP_CODE.BAD_REQUEST →
      (c.parse_request_line text).2.m_check_state = c.m_check_state) := by
  refine ⟨?_, parse_request_line_keeps_state c text⟩
  intro hnot
  by_contra hne
  apply hnot
  rcases strpbrk_from_spec [32, 9] (c.m_read_buf.drop text) text with
    ⟨h1, _⟩ | ⟨m, sep, r, hl, hp, hm0, hms, hsep0, hsep⟩
  · have hp : strpbrk c.m_read_buf text [32, 9] = none := h1
    exact absurd (by simp only [http_conn.parse_request_line, hp]) hne
  obtain ⟨pre, hpre, hbuf⟩ : ∃ pre : List Nat, pre.length = text ∧
      c.m_read_buf = pre ++ (m ++ sep :: r) := by
    refine ⟨c.m_read_buf.take text, ?_, ?_⟩
    · apply List.length_take_of_le
      by_contra hgt
      have : c.m_read_buf.drop text = [] := List.drop_of_length_le (by omega)
      rw [this] at hl
      cases m <;> simp at hl
    · rw [← hl, List.take_append_drop]
  subst hpre
  have hp1 : strpbrk c.m_read_buf pre.length [32, 9] = some (pre.length + m.length) := hp
  have hb1 : c.m_read_buf.set (pre.length + m.length) 0 = pre ++ (m ++ 0 :: r) := by
    rw [hbuf]
    exact set_at _ _ _ _ _
  have hm : cstr (pre ++ (m ++ 0 :: r)) pre.length = m := cstr_at _ _ _ hm0
  by_cases hcmp : strcasecmp m (str "GET") = 0
  swap
  · exact absurd (by simp only [http_conn.parse_request_line, hp1, hb1, hm, hcmp, if_false]) hne
  rcases strpbrk_from_spec [32, 9] r (pre.length + m.length + 1) with
    ⟨h2, _⟩ | ⟨m2, sep2, r2, hl2, hq, hm20, hm2s, hsep20, hsep2⟩
  · have hq1 : strpbrk (pre ++ (m ++ 0 :: r)) (pre.length + m.length + 1) [32, 9] = none := by
      rw [strpbrk, drop_after]
      exact h2
    exact absurd
      (by simp only [http_conn.parse_request_line, hp1, hb1, hm, hcmp, if_true, hq1]) hne
  subst hl2
  have hq1 : strpbrk (pre ++ (m ++ 0 :: (m2 ++ sep2 :: r2))) (pre.length + m.length + 1) [32, 9]
      = some (pre.length + m.length + 1 + m2.length) := by
    rw [strpbrk, drop_after]
    exact hq
  have hb3 : (pre ++ (m ++ 0 :: (m2 ++ sep2 :: r2))).set
      (pre.length + m.length + 1 + m2.length) 0 = pre ++ (m ++ 0 :: (m2 ++ 0 :: r2)) := by
    rw [set_after]
    have := set_at [] m2 sep2 0 r2
    simp only [List.nil_append, List.length_nil, Nat.zero_add] at this
    rw [this]
  have hv : cstr (pre ++ (m ++ 0 :: (m2 ++ 0 :: r2))) (pre.length + m.length + 1 + m2.length + 1)
      = r2.takeWhile (fun b => b != 0) := by
    rw [show pre.length + m.length + 1 + m2.length + 1
      = pre.length + m.length + 1 + (m2.length + 1) by omega, cstr_after]
    have h2 := cstr_after [] m2 0 r2 0
    simp only [List.nil_append, List.length_nil, Nat.zero_add, Nat.add_zero] at h2
    rw [h2]
    exact cstr_at_tail [] r2
  by_cases hvc : strcasecmp (r2.takeWhile (fun b => b != 0)) (str "HTTP/1.1") = 0
  swap
  · exact absurd
      (by simp only [http_conn.parse_request_line, hp1, hb1, hm, hcmp, if_true, hq1, hb3, hv,
        ne_eq, hvc, not_false_eq_true]) hne
  have htok := line_tokens pre m m2 r2 sep sep2 hm0 hms hsep0 hsep hm20 hm2s hsep20 hsep2
  rw [hbuf, htok.1, htok.2.2]
  constructor
  · have := (strcasecmp_eq_zero_iff m (str "GET") hm0 (by decide)).mp hcmp
    rw [this]
    decide
  · have hr0 : ∀ b ∈ r2.takeWhile (fun b => b != 0), b ≠ 0 := by
      intro b hb
      simpa using List.mem_takeWhile_imp hb
    have := (strcasecmp_eq_zero_iff _ (str "HTTP/1.1") hr0 (by decide)).mp hvc
    rw [this]
    decide

/-- C6, counterexample to the claim as stated: the line `get / http/1.1`, whose
method token is not `GET` and whose version token is not the string `HTTP/1.1`,
is not answered BAD_REQUEST: `parse_request_line` returns NO_REQUEST and moves
the main state to HEADERS. -/
theorem lower_case_request_line_accepted :
    method_token (str "get / http/1.1") = str "get" ∧ str "get" ≠ str "GET" ∧
    version_token (str "get / http/1.1") = str "http/1.1" ∧ str "http/1.1" ≠ str "HTTP/1.1" ∧
    cstr (first_line_scanned (str "get / http/1.1\r\n\r\n")).m_read_buf 0
      = str "get / http/1.1" ∧
    (first_line_scanned (str "get / http/1.1\r\n\r\n")).m_check_state
      = CHECK_STATE.CHECK_STATE_REQUESTLINE ∧
    ((first_line_scanned (str "get / http/1.1\r\n\r\n")).parse_request_line 0).1
      = HTTP_CODE.NO_REQUEST ∧
    ((first_line_scanned (str "get / http/1.1\r\n\r\n")).parse_request_line 0).2.m_check_state
      = CHECK_STATE.CHECK_STATE_HEADER := by
  decide!

/-- C7, an instance: the request line of `sample_request`, as `parse_line` has
left it at offset 0 (the length of the empty list of bytes before it) of a fresh
connection; the target is recorded at offset 4 and the version at offset 16. -/
theorem request_line_accepted_sample :
    (first_line_scanned sample_request).m_read_buf
      = [] ++ (str "GET" ++ 32 :: (str "/index.html" ++ 32 :: (str "HTTP/1.1" ++
          0 :: (first_line_scanned sample_request).m_read_buf.drop 25))) ∧
    (first_line_scanned sample_request).m_check_state
      = CHECK_STATE.CHECK_STATE_REQUESTLINE ∧
    ((first_line_scanned sample_request).parse_request_line ([] : List Nat).length).1
      = HTTP_CODE.NO_REQUEST ∧
    cstr ((first_line_scanned sample_request).parse_request_line
        ([] : List Nat).length).2.m_read_buf (([] : List Nat).length + 4) = str "/index.html" ∧
    ((first_line_scanned sample_request).parse_request_line
        ([] : List Nat).length).2.m_check_state = CHECK_STATE.CHECK_STATE_HEADER ∧
    ((first_line_scanned sample_request).parse_request_line 0).2.m_url = some 4 ∧
    ((first_line_scanned sample_request).parse_request_line 0).2.m_version = some 16 ∧
    cstr ((first_line_scanned sample_request).parse_request_line 0).2.m_read_buf 16
      = str "HTTP/1.1" :=
  have h := request_line_accepted (first_line_scanned sample_request) [] (str "/index.html")
    ((first_line_scanned sample_request).m_read_buf.drop 25) 32 32 (Or.inl rfl) (Or.inl rfl)
    (by decide!) (by decide!) (by decide!) (by decide!)
  ⟨by decide!, by decide!, h.1, h.2.2.2.1, h.2.2.2.2.2.2.2, by decide!, by decide!, by decide!⟩

/-- Outside the BODY state, a LINE_BAD from the line scanner makes `process_read`
return NO_REQUEST with the state the scanner left. -/
theorem line_bad_gives_no_request (fs : file_system) (c : http_conn)
    (hstate : c.m_check_state ≠ CHECK_STATE.CHECK_STATE_CONTENT)
    (hbad : c.parse_line.1 = LINE_STATUS.LINE_BAD) :
    c.process_read fs = some (HTTP_CODE.NO_REQUEST, c.parse_line.2) := by
  unfold http_conn.process_read
  rw [show 2 * (c.m_read_idx - c.m_checked_idx) + 3
    = (2 * (c.m_read_idx - c.m_checked_idx) + 2) + 1 by omega]
  generalize 2 * (c.m_read_idx - c.m_checked_idx) + 2 = n
  have hne : ¬ LINE_STATUS.LINE_BAD = LINE_STATUS.LINE_OK := by decide
  simp only [http_conn.process_read_loop, hstate, false_and, if_false, hbad, hne]

/-- C8, at the failing input: the request line `GET /index.html HTTP/1.1` ended
by a lone `\n`. The line scanner returns LINE_BAD, and `process_read` returns
NO_REQUEST, not BAD_REQUEST; so `process()` builds no response at all. The same
holds for a `\r` followed by a byte other than `\n`, and (first part) for every
connection outside the BODY state on which the scanner returns LINE_BAD. -/
theorem bad_line_is_reported_as_no_request :
    (∀ (fs : file_system) (c : http_conn),
      c.m_check_state ≠ CHECK_STATE.CHECK_STATE_CONTENT →
      c.parse_line.1 = LINE_STATUS.LINE_BAD →
      c.process_read fs = some (HTTP_CODE.NO_REQUEST, c.parse_line.2)) ∧
    ((fresh_conn.read [recv_result.bytes (str "GET /index.html HTTP/1.1\n")]).2.parse_line).1
      = LINE_STATUS.LINE_BAD ∧
    code_of (on_readable small_site (str "GET /index.html HTTP/1.1\n") fresh_conn)
      = some HTTP_CODE.NO_REQUEST ∧
    ((fresh_conn.read [recv_result.bytes (str "GET /index.html HTTP/1.1\n")]).2.process
        small_site).map Prod.fst = some false ∧
    ((fresh_conn.read [recv_result.bytes (str "GET /index.html HTTP/1.1\rX")]).2.parse_line).1
      = LINE_STATUS.LINE_BAD ∧
    code_of (on_readable small_site (str "GET /index.html HTTP/1.1\rX") fresh_conn)
      = some HTTP_CODE.NO_REQUEST :=
  ⟨line_bad_gives_no_request, by decide!⟩

/-- C9, at the failing input: `body_request` announces a two-byte body whose
first byte is at index 47. After the first 48 bytes `process_read` has moved to
the BODY state and returns NO_REQUEST; after the last byte has arrived,
`m_read_idx - 47 = 2` reaches `m_content_length = 2`, yet `process_read` returns
NO_REQUEST again, because `parse_line` had advanced `m_checked_idx` to 48. -/
theorem body_completion_is_missed :
    (on_readable small_site (body_request.take 48) fresh_conn).map
        (fun r => (r.1, r.2.m_check_state, r.2.m_content_length, r.2.m_read_idx,
          r.2.m_checked_idx))
      = some (HTTP_CODE.NO_REQUEST, CHECK_STATE.CHECK_STATE_CONTENT, 2, 48, 48) ∧
    ((on_readable small_site (body_request.take 48) fresh_conn).bind
        (fun r => on_readable small_site (body_request.drop 48) r.2)).map
        (fun r => (r.1, r.2.m_check_state, r.2.m_content_length, r.2.m_read_idx,
          r.2.m_checked_idx))
      = some (HTTP_CODE.NO_REQUEST, CHECK_STATE.CHECK_STATE_CONTENT, 2, 49, 49) ∧
    (49 : Int) - 47 ≥ 2 ∧
    (on_readable small_site body_request fresh_conn).map
        (fun r => (r.1, r.2.m_read_idx, r.2.m_checked_idx))
      = some (HTTP_CODE.FILE_REQUEST, 49, 47) := by
  decide!

/-! ## Helper lemmas: the parser does not depend on the fields `init()` leaves alone -/

namespace http_conn

theorem init_forget (c : http_conn) : c.init.forget = fresh_conn.forget := rfl

theorem parse_request_line_forget (c : http_conn) (text : Nat) :
    (c.forget.parse_request_line text).1 = (c.parse_request_line text).1 ∧
    (c.forget.parse_request_line text).2.forget = (c.parse_request_line text).2.forget := by
  simp only [parse_request_line, forget]
  repeat' split
  all_goals first
    | exact ⟨rfl, rfl⟩
    | simp_all

theorem parse_headers_forget (c : http_conn) (text : Nat) :
    (c.forget.parse_headers text).1 = (c.parse_headers text).1 ∧
    (c.forget.parse_headers text).2.forget = (c.parse_headers text).2.forget := by
  simp only [parse_headers, forget]
  repeat' split
  all_goals exact ⟨rfl, rfl⟩

theorem parse_content_forget (c : http_conn) (text : Nat) :
    (c.forget.parse_content text).map (fun r => (r.1, r.2.forget))
      = (c.parse_content text).map (fun r => (r.1, r.2.forget)) := by
  simp only [parse_content, content_end, forget]
  repeat' split
  all_goals rfl

theorem parse_content_same (text : Nat) {c1 c2 : http_conn} (h : c1.forget = c2.forget) :
    (c1.parse_content text).map (fun r => (r.1, r.2.forget))
      = (c2.parse_content text).map (fun r => (r.1, r.2.forget)) := by
  rw [← parse_content_forget c1, ← parse_content_forget c2, h]

theorem do_request_forget (fs : file_system) (c : http_conn) :
    (c.forget.do_request fs).1 = (c.do_request fs).1 ∧
    (c.forget.do_request fs).2.forget = (c.do_request fs).2.forget := by
  simp only [do_request, forget]
  repeat' split
  all_goals exact ⟨rfl, rfl⟩

theorem parse_line_loop_forget (fuel : Nat) : ∀ c : http_conn,
    (parse_line_loop fuel c.forget).1 = (parse_line_loop fuel c).1 ∧
    (parse_line_loop fuel c.forget).2.forget = (parse_line_loop fuel c).2.forget := by
  induction fuel with
  | zero => intro c; exact ⟨rfl, rfl⟩
  | succ n ih =>
    intro c
    have h := ih { c with m_checked_idx := c.m_checked_idx + 1 }
    simp only [parse_line_loop, forget] at h ⊢
    repeat' split
    all_goals first
      | exact ⟨rfl, rfl⟩
      | exact h

theorem parse_line_forget (c : http_conn) :
    c.forget.parse_line.1 = c.parse_line.1 ∧
    c.forget.parse_line.2.forget = c.parse_line.2.forget :=
  parse_line_loop_forget _ c

theorem read_loop_forget (script : List recv_result) : ∀ c : http_conn,
    (read_loop script c.forget).1 = (read_loop script c).1 ∧
    (read_loop script c.forget).2.forget = (read_loop script c).2.forget := by
  induction script with
  | nil => intro c; exact ⟨rfl, rfl⟩
  | cons e rest ih =>
    intro c
    cases e with
    | would_block => exact ⟨rfl, rfl⟩
    | error => exact ⟨rfl, rfl⟩
    | bytes bs =>
      have h := ih { c with
          m_read_buf := put c.m_read_buf c.m_read_idx (bs.take (READ_BUFFER_SIZE - c.m_read_idx))
          m_read_idx := c.m_read_idx + (bs.take (READ_BUFFER_SIZE - c.m_read_idx)).length }
      simp only [read_loop, forget] at h ⊢
      split
      · exact ⟨rfl, rfl⟩
      · exact h

theorem read_forget (script : List recv_result) (c : http_conn) :
    (c.forget.read script).1 = (c.read script).1 ∧
    (c.forget.read script).2.forget = (c.read script).2.forget := by
  have h := read_loop_forget script c
  simp only [read, forget] at h ⊢
  split
  · exact ⟨rfl, rfl⟩
  · exact h

theorem same_of_forget {α : Type} (f : http_conn → α × http_conn)
    (hf : ∀ c, (f c.forget).1 = (f c).1 ∧ (f c.forget).2.forget = (f c).2.forget)
    {c1 c2 : http_conn} (h : c1.forget = c2.forget) :
    (f c1).1 = (f c2).1 ∧ (f c1).2.forget = (f c2).2.forget := by
  have a := hf c1
  have b := hf c2
  rw [h] at a
  exact ⟨a.1.symm.trans b.1, a.2.symm.trans b.2⟩

theorem process_read_loop_same (fs : file_system) (fuel : Nat) :
    ∀ (ls : LINE_STATUS) (c1 c2 : http_conn), c1.forget = c2.forget →
    (process_read_loop fs fuel ls c1).map (fun r => (r.1, r.2.forget))
      = (process_read_loop fs fuel ls c2).map (fun r => (r.1, r.2.forget)) := by
  induction fuel with
  | zero => intro ls c1 c2 _; rfl
  | succ n ih =>
    intro ls c1 c2 h
    have hstate : c1.m_check_state = c2.m_check_state := by
      have := congrArg http_conn.m_check_state h
      exact this
    -- the loop condition
    have hl : (if c1.m_check_state = CHECK_STATE.CHECK_STATE_CONTENT ∧ ls = LINE_STATUS.LINE_OK
          then (ls, c1) else c1.parse_line).1
        = (if c2.m_check_state = CHECK_STATE.CHECK_STATE_CONTENT ∧ ls = LINE_STATUS.LINE_OK
          then (ls, c2) else c2.parse_line).1 ∧
        (if c1.m_check_state = CHECK_STATE.CHECK_STATE_CONTENT ∧ ls = LINE_STATUS.LINE_OK
          then (ls, c1) else c1.parse_line).2.forget
        = (if c2.m_check_state = CHECK_STATE.CHECK_STATE_CONTENT ∧ ls = LINE_STATUS.LINE_OK
          then (ls, c2) else c2.parse_line).2.forget := by
      rw [hstate]
      split
      · exact ⟨rfl, h⟩
      · exact same_of_forget parse_line parse_line_forget h
    simp only [process_read_loop]
    generalize (if c1.m_check_state = CHECK_STATE.CHECK_STATE_CONTENT ∧ ls = LINE_STATUS.LINE_OK
          then (ls, c1) else c1.parse_line) = l1 at hl ⊢
    generalize (if c2.m_check_state = CHECK_STATE.CHECK_STATE_CONTENT ∧ ls = LINE_STATUS.LINE_OK
          then (ls, c2) else c2.parse_line) = l2 at hl ⊢
    obtain ⟨hl1, hl2⟩ := hl
    rw [hl1]
    have hstart : l1.2.m_start_line = l2.2.m_start_line := by
      have := congrArg http_conn.m_start_line hl2
      exact this
    have hchecked : l1.2.m_checked_idx = l2.2.m_checked_idx := by
      have := congrArg http_conn.m_checked_idx hl2
      exact this
    have hst : l1.2.m_check_state = l2.2.m_check_state := by
      have := congrArg http_conn.m_check_state hl2
      exact this
    have hsame : ({ l1.2 with m_start_line := l1.2.m_checked_idx } : http_conn).forget
        = ({ l2.2 with m_start_line := l2.2.m_checked_idx } : http_conn).forget := by
      have := congrArg (fun c : http_conn => { c with m_start_line := c.m_checked_idx }) hl2
      exact this
    rw [hstart]
    split
    · show Option.map _ (match l1.2.m_check_state with
        | CHECK_STATE.CHECK_STATE_REQUESTLINE => _
        | CHECK_STATE.CHECK_STATE_HEADER => _
        | CHECK_STATE.CHECK_STATE_CONTENT => _) = Option.map _ (match l2.2.m_check_state with
        | CHECK_STATE.CHECK_STATE_REQUESTLINE => _
        | CHECK_STATE.CHECK_STATE_HEADER => _
        | CHECK_STATE.CHECK_STATE_CONTENT => _)
      dsimp only at hsame
      rw [hst] at hsame ⊢
      generalize l2.2.m_check_state = s at hsame ⊢
      cases s with
      | CHECK_STATE_REQUESTLINE =>
        have hr := same_of_forget (fun c => c.parse_request_line l2.2.m_start_line)
          (fun c => parse_request_line_forget c _) hsame
        dsimp only at hr ⊢
        rw [hr.1]
        split
        · simp only [Option.map_some', hr.2]
        · exact ih _ _ _ hr.2
      | CHECK_STATE_HEADER =>
        have hr := same_of_forget (fun c => c.parse_headers l2.2.m_start_line)
          (fun c => parse_headers_forget c _) hsame
        dsimp only at hr ⊢
        rw [hr.1]
        split
        · simp only [Option.map_some', hr.2]
        · split
          · have hd := same_of_forget (fun c => c.do_request fs) (do_request_forget fs) hr.2
            simp only [Option.map_some', hd.1, hd.2]
          · exact ih _ _ _ hr.2
      | CHECK_STATE_CONTENT =>
        have hr := parse_content_same l2.2.m_start_line hsame
        dsimp only at hr ⊢
        revert hr
        generalize http_conn.parse_content _ l2.2.m_start_line = p1
        generalize http_conn.parse_content _ l2.2.m_start_line = p2
        intro hr
        cases p1 with
        | none =>
          cases p2 with
          | none => rfl
          | some r2 => exact absurd hr (by simp)
        | some r1 =>
          cases p2 with
          | none => exact absurd hr (by simp)
          | some r2 =>
            have hinj : (r1.1, r1.2.forget) = (r2.1, r2.2.forget) := Option.some.inj hr
            have h1 : r1.1 = r2.1 := (Prod.mk.inj hinj).1
            have h2 : r1.2.forget = r2.2.forget := (Prod.mk.inj hinj).2
            dsimp only
            rw [h1]
            split
            · have hd := same_of_forget (fun c => c.do_request fs) (do_request_forget fs) h2
              simp only [Option.map_some', hd.1, hd.2]
            · exact ih _ _ _ h2
    · simp only [Option.map_some', hl2]

end http_conn

namespace http_conn

theorem process_read_same (fs : file_system) {c1 c2 : http_conn} (h : c1.forget = c2.forget) :
    (c1.process_read fs).map (fun r => (r.1, r.2.forget))
      = (c2.process_read fs).map (fun r => (r.1, r.2.forget)) := by
  have h1 : c1.m_read_idx = c2.m_read_idx := by
    have := congrArg http_conn.m_read_idx h
    exact this
  have h2 : c1.m_checked_idx = c2.m_checked_idx := by
    have := congrArg http_conn.m_checked_idx h
    exact this
  unfold process_read
  rw [h1, h2]
  exact process_read_loop_same fs _ _ _ _ h

theorem write_loop_completes (sends : List Nat) : ∀ c : http_conn, c.m_linger = true →
    0 < c.bytes_to_send → c.bytes_to_send ≤ (sends.map Int.ofNat).sum →
    ∃ c0 : http_conn, write_loop (sends.map send_result.sent) c = (true, c0.init) := by
  induction sends with
  | nil =>
    intro c _ hp hall
    simp at hall
    omega
  | cons n rest ih =>
    intro c hl hp hall
    simp only [List.map_cons, List.sum_cons] at hall
    simp only [List.map_cons, write_loop]
    split
    · split
      · rename_i hdone
        split
        · exact ⟨_, rfl⟩
        · rename_i hlin
          exfalso
          apply hlin
          simp only [unmap]
          split <;> exact hl
      · rename_i hmore
        apply ih
        · exact hl
        · show 0 < c.bytes_to_send - (n : Int)
          have : ¬ (c.bytes_to_send - (n : Int) ≤ 0) := hmore
          omega
        · show c.bytes_to_send - (n : Int) ≤ _
          have : Int.ofNat n = (n : Int) := rfl
          omega
    · split
      · rename_i hdone
        split
        · exact ⟨_, rfl⟩
        · rename_i hlin
          exfalso
          apply hlin
          simp only [unmap]
          split <;> exact hl
      · rename_i hmore
        apply ih
        · exact hl
        · show 0 < c.bytes_to_send - (n : Int)
          have : ¬ (c.bytes_to_send - (n : Int) ≤ 0) := hmore
          omega
        · show c.bytes_to_send - (n : Int) ≤ _
          have : Int.ofNat n = (n : Int) := rfl
          omega

theorem process_read_after_init (fs : file_system) (c : http_conn) :
    c.init.process_read fs = some (HTTP_CODE.NO_REQUEST, c.init) := by
  rfl

end http_conn

/-! ## Helper lemmas: the loop of `process_read` ends -/

namespace http_conn

theorem parse_line_loop_ok (fuel : Nat) : ∀ c : http_conn,
    (parse_line_loop fuel c).1 = LINE_STATUS.LINE_OK →
    (parse_line_loop fuel c).2.m_read_idx = c.m_read_idx ∧
    c.m_checked_idx < (parse_line_loop fuel c).2.m_checked_idx ∧
    (parse_line_loop fuel c).2.m_checked_idx ≤ c.m_read_idx ∧
    (parse_line_loop fuel c).2.m_check_state = c.m_check_state := by
  induction fuel with
  | zero =>
    intro c h
    simp [parse_line_loop] at h
  | succ n ih =>
    intro c
    have h := ih { c with m_checked_idx := c.m_checked_idx + 1 }
    simp only [parse_line_loop] at h ⊢
    repeat' split
    all_goals first
      | (intro hc; simp at hc; done)
      | (intro _; refine ⟨rfl, ?_, ?_, rfl⟩ <;> (try dsimp only) <;> omega)
      | (intro hc
         obtain ⟨h1, h2, h3, h4⟩ := h hc
         exact ⟨h1, by omega, h3, h4⟩)

theorem parse_request_line_cursor (c : http_conn) (text : Nat) :
    (c.parse_request_line text).2.m_read_idx = c.m_read_idx ∧
    (c.parse_request_line text).2.m_checked_idx = c.m_checked_idx ∧
    ((c.parse_request_line text).2.m_check_state = c.m_check_state ∨
      (c.parse_request_line text).2.m_check_state = CHECK_STATE.CHECK_STATE_HEADER) := by
  simp only [parse_request_line]
  repeat' split
  all_goals first
    | exact ⟨rfl, rfl, Or.inl rfl⟩
    | exact ⟨rfl, rfl, Or.inr rfl⟩

theorem parse_headers_cursor (c : http_conn) (text : Nat) :
    (c.parse_headers text).2.m_read_idx = c.m_read_idx ∧
    (c.parse_headers text).2.m_checked_idx = c.m_checked_idx := by
  simp only [parse_headers]
  repeat' split
  all_goals exact ⟨rfl, rfl⟩

theorem parse_content_cursor (c : http_conn) (text : Nat) (r : HTTP_CODE × http_conn)
    (h : c.parse_content text = some r) :
    r.2.m_read_idx = c.m_read_idx ∧
    r.2.m_checked_idx = c.m_checked_idx ∧
    r.2.m_check_state = c.m_check_state := by
  simp only [parse_content] at h
  split at h
  · exact absurd h (by simp)
  · split at h
    · split at h
      · have e := Option.some.inj h
        rw [← e]
        exact ⟨rfl, rfl, rfl⟩
      · exact absurd h (by simp)
    · have e := Option.some.inj h
      rw [← e]
      exact ⟨rfl, rfl, rfl⟩

/-- The loop of `process_read` is the repetition of `process_read_pass`. -/
theorem process_read_loop_pass (fs : file_system) (n : Nat) (ls : LINE_STATUS)
    (c : http_conn) :
    process_read_loop fs (n + 1) ls c
      = match c.process_read_pass fs ls with
        | pass_result.returns r => some r
        | pass_result.again ls1 c1 => process_read_loop fs n ls1 c1
        | pass_result.undefined => none := by
  simp only [process_read_loop, process_read_pass]
  generalize (if c.m_check_state = CHECK_STATE.CHECK_STATE_CONTENT ∧ ls = LINE_STATUS.LINE_OK
    then (ls, c) else c.parse_line) = l
  by_cases hok : l.1 = LINE_STATUS.LINE_OK
  · rw [if_pos hok, if_pos hok]
    generalize l.2.m_check_state = s
    cases s
    · dsimp only
      split_ifs <;> rfl
    · dsimp only
      split_ifs <;> rfl
    · dsimp only
      generalize parse_content _ _ = p
      cases p with
      | none => rfl
      | some r =>
        dsimp only
        split_ifs <;> rfl
  · rw [if_neg hok, if_neg hok]

/-- The measure by which the loop of `process_read` ends: twice the bytes not
yet scanned, plus two before a pass that does not scan and one otherwise. -/
theorem process_read_pass_budget (fs : file_system) (ls ls1 : LINE_STATUS) (c c1 : http_conn)
    (h : c.process_read_pass fs ls = pass_result.again ls1 c1) :
    2 * (c1.m_read_idx - c1.m_checked_idx)
      + (if c1.m_check_state = CHECK_STATE.CHECK_STATE_CONTENT ∧ ls1 = LINE_STATUS.LINE_OK
          then 2 else 1)
    < 2 * (c.m_read_idx - c.m_checked_idx)
      + (if c.m_check_state = CHECK_STATE.CHECK_STATE_CONTENT ∧ ls = LINE_STATUS.LINE_OK
          then 2 else 1) := by
  simp only [process_read_pass] at h
  by_cases hA : c.m_check_state = CHECK_STATE.CHECK_STATE_CONTENT ∧ ls = LINE_STATUS.LINE_OK
  · rw [if_pos hA] at h ⊢
    dsimp only at h
    rw [if_pos hA.2] at h
    rw [hA.1] at h
    dsimp only at h
    generalize hp : parse_content _ c.m_start_line = p at h
    cases p with
    | none => exact absurd h (by simp)
    | some r =>
      dsimp only at h
      obtain ⟨a, b, _⟩ := parse_content_cursor _ _ _ hp
      have a : r.2.m_read_idx = c.m_read_idx := a
      have b : r.2.m_checked_idx = c.m_checked_idx := b
      split at h
      · exact absurd h (by simp)
      · injection h with h1 h2
        subst h1
        subst h2
        rw [a, b, if_neg (by simp)]
        omega
  · rw [if_neg hA] at h ⊢
    by_cases hok : c.parse_line.1 = LINE_STATUS.LINE_OK
    swap
    · rw [if_neg hok] at h
      exact absurd h (by simp)
    rw [if_pos hok] at h
    obtain ⟨h1, h2, h3, _⟩ := parse_line_loop_ok _ c hok
    have h1 : c.parse_line.2.m_read_idx = c.m_read_idx := h1
    have h2 : c.m_checked_idx < c.parse_line.2.m_checked_idx := h2
    have h3 : c.parse_line.2.m_checked_idx ≤ c.m_read_idx := h3
    have key : c1.m_read_idx = c.m_read_idx ∧ c1.m_checked_idx = c.parse_line.2.m_checked_idx := by
      generalize c.parse_line = l at h1 h2 h3 hok h
      generalize hs : ({ l.2 with m_start_line := l.2.m_checked_idx } : http_conn).m_check_state
        = s at h
      clear hs
      cases s with
      | CHECK_STATE_REQUESTLINE =>
        dsimp only at h
        split at h
        · exact absurd h (by simp)
        · injection h with _ e
          rw [← e]
          exact ⟨(parse_request_line_cursor _ _).1.trans h1, (parse_request_line_cursor _ _).2.1⟩
      | CHECK_STATE_HEADER =>
        dsimp only at h
        split at h
        · exact absurd h (by simp)
        · split at h
          · exact absurd h (by simp)
          · injection h with _ e
            rw [← e]
            exact ⟨(parse_headers_cursor _ _).1.trans h1, (parse_headers_cursor _ _).2⟩
      | CHECK_STATE_CONTENT =>
        dsimp only at h
        generalize hp : parse_content _ l.2.m_start_line = p at h
        cases p with
        | none => exact absurd h (by simp)
        | some r =>
          dsimp only at h
          obtain ⟨a, b, _⟩ := parse_content_cursor _ _ _ hp
          have a : r.2.m_read_idx = l.2.m_read_idx := a
          have b : r.2.m_checked_idx = l.2.m_checked_idx := b
          split at h
          · exact absurd h (by simp)
          · injection h with _ e
            rw [← e]
            exact ⟨a.trans h1, b⟩
    rw [key.1, key.2]
    split <;> omega

/-- The loop of `process_read` ends: with the fuel of the measure it returns a
result, or one of its passes calls a `parse_content` that has no defined
result. It does not run out of fuel. -/
theorem process_read_loop_ends (fs : file_system) (fuel : Nat) :
    ∀ (ls : LINE_STATUS) (c : http_conn),
    2 * (c.m_read_idx - c.m_checked_idx)
      + (if c.m_check_state = CHECK_STATE.CHECK_STATE_CONTENT ∧ ls = LINE_STATUS.LINE_OK
          then 2 else 1) ≤ fuel →
    (∃ r, process_read_loop fs fuel ls c = some r) ∨
    (process_read_loop fs fuel ls c = none ∧
      ∃ k ls1 d, c.after_passes fs k ls = some (ls1, d) ∧
        d.process_read_pass fs ls1 = pass_result.undefined) := by
  induction fuel with
  | zero =>
    intro ls c h
    split at h <;> omega
  | succ n ih =>
    intro ls c h
    rw [process_read_loop_pass]
    cases hp : c.process_read_pass fs ls with
    | returns r => exact Or.inl ⟨r, rfl⟩
    | undefined => exact Or.inr ⟨rfl, 0, ls, c, rfl, hp⟩
    | again ls1 c1 =>
      have hb := process_read_pass_budget fs ls ls1 c c1 hp
      rcases ih ls1 c1 (by omega) with h1 | ⟨h1, k, ls2, d, h2, h3⟩
      · exact Or.inl h1
      · refine Or.inr ⟨h1, k + 1, ls2, d, ?_, h3⟩
        simp only [after_passes, hp]
        exact h2

/-- The method `process_read()` returns a result, or one of its passes calls a
`parse_content` that has no defined result. -/
theorem process_read_ends (fs : file_system) (c : http_conn) :
    (∃ r, c.process_read fs = some r) ∨
    (c.process_read fs = none ∧
      ∃ k ls1 d, c.after_passes fs k LINE_STATUS.LINE_OK = some (ls1, d) ∧
        d.process_read_pass fs ls1 = pass_result.undefined) := by
  apply process_read_loop_ends
  split <;> omega

/-- A pass without a defined result leaves the loop of `process_read` without
one, whatever the fuel. -/
theorem process_read_loop_undefined (fs : file_system) (k : Nat) :
    ∀ (ls ls1 : LINE_STATUS) (c d : http_conn),
    c.after_passes fs k ls = some (ls1, d) →
    d.process_read_pass fs ls1 = pass_result.undefined →
    ∀ fuel, process_read_loop fs fuel ls c = none := by
  induction k with
  | zero =>
    intro ls ls1 c d h hu fuel
    simp only [after_passes] at h
    injection h with h
    injection h with h1 h2
    subst h1
    subst h2
    cases fuel with
    | zero => rfl
    | succ n => rw [process_read_loop_pass, hu]
  | succ k ih =>
    intro ls ls1 c d h hu fuel
    simp only [after_passes] at h
    cases fuel with
    | zero => rfl
    | succ n =>
      rw [process_read_loop_pass]
      cases hp : c.process_read_pass fs ls with
      | returns r => rw [hp] at h; exact absurd h (by simp)
      | undefined => rfl
      | again ls2 c2 =>
        rw [hp] at h
        exact ih ls2 ls1 c2 d h hu n

end http_conn

/-! ## Helper lemmas: the fuel of the two loops is enough -/

namespace http_conn

/-- The `for` loop of `parse_line` needs no more than `m_read_idx -
m_checked_idx` passes: more fuel does not change its result. -/
theorem parse_line_loop_fuel (fuel : Nat) : ∀ c : http_conn,
    c.m_read_idx - c.m_checked_idx ≤ fuel →
    parse_line_loop fuel c = parse_line_loop (c.m_read_idx - c.m_checked_idx) c := by
  induction fuel with
  | zero =>
    intro c h
    have : c.m_read_idx - c.m_checked_idx = 0 := by omega
    rw [this]
  | succ n ih =>
    intro c h
    by_cases hlt : c.m_checked_idx < c.m_read_idx
    · obtain ⟨k, hk⟩ : ∃ k, c.m_read_idx - c.m_checked_idx = k + 1 :=
        ⟨c.m_read_idx - c.m_checked_idx - 1, by omega⟩
      rw [hk]
      have h1 := ih { c with m_checked_idx := c.m_checked_idx + 1 } (by dsimp only; omega)
      have h2 : ({ c with m_checked_idx := c.m_checked_idx + 1 } : http_conn).m_read_idx
          - ({ c with m_checked_idx := c.m_checked_idx + 1 } : http_conn).m_checked_idx = k := by
        dsimp only
        omega
      rw [h2] at h1
      simp only [parse_line_loop, h1]
    · have : c.m_read_idx - c.m_checked_idx = 0 := by omega
      rw [this]
      simp only [parse_line_loop, if_neg hlt]

/-- More fuel does not change a result of the loop of `process_read`. -/
theorem process_read_loop_fuel (fs : file_system) (fuel : Nat) :
    ∀ (ls : LINE_STATUS) (c : http_conn) (r : HTTP_CODE × http_conn),
    process_read_loop fs fuel ls c = some r →
    ∀ k, process_read_loop fs (fuel + k) ls c = some r := by
  induction fuel with
  | zero =>
    intro ls c r h
    simp [process_read_loop] at h
  | succ n ih =>
    intro ls c r h k
    rw [show n + 1 + k = (n + k) + 1 by omega]
    rw [process_read_loop_pass] at h ⊢
    cases hp : c.process_read_pass fs ls with
    | returns r1 =>
      rw [hp] at h
      exact h
    | undefined =>
      rw [hp] at h
      exact absurd h (by simp)
    | again ls1 c1 =>
      rw [hp] at h
      exact ih _ _ _ h k

end http_conn

/-- C10, counterexample to the claim as stated: with `sample_request`
(keep-alive) and `second_request` back to back in the read buffer, the bytes of
the second request lie at `m_checked_idx = 61` when the first response is ready;
after `write()` has sent all 124 bytes it returns `true` with the main state
REQUEST_LINE, but `m_read_idx = 0` and the next `process_read` returns
NO_REQUEST, whereas the second request received alone yields FILE_REQUEST. -/
theorem pipelined_request_is_discarded :
    pipelined_ready.m_linger = true ∧ pipelined_ready.bytes_to_send = 124 ∧
    pipelined_ready.m_checked_idx = 61 ∧ pipelined_ready.m_read_idx = 89 ∧
    (pipelined_ready.m_read_buf.drop 61).take 28 = second_request ∧
    (pipelined_ready.write [send_result.sent 124]).1 = true ∧
    (pipelined_ready.write [send_result.sent 124]).2.m_check_state
      = CHECK_STATE.CHECK_STATE_REQUESTLINE ∧
    (pipelined_ready.write [send_result.sent 124]).2.m_read_idx = 0 ∧
    code_of ((pipelined_ready.write [send_result.sent 124]).2.process_read small_site)
      = some HTTP_CODE.NO_REQUEST ∧
    code_of (on_readable small_site second_request fresh_conn)
      = some HTTP_CODE.FILE_REQUEST := by
  decide!

/-! ## The timer list -/

/-- A pass of the loop of `add_timer` that does not insert is repeated for
ever: the loop is still running whatever the fuel. -/
theorem add_timer_loop_stuck (s : sort_timer_lst) (timer : Option Nat) (a : Nat)
    (t n : util_timer) (ht : s.get timer = some t) (hn : s.get (some a) = some n)
    (hge : ¬ t.expire < n.expire) :
    ∀ fuel, sort_timer_lst.add_timer_loop fuel s timer (some a) = outcome.running := by
  intro fuel
  induction fuel with
  | zero => rfl
  | succ k ih =>
    simp only [sort_timer_lst.add_timer_loop, ht, hn, if_neg hge]
    exact ih

/-- C13, at the failing input: on the empty list `add_timer` of a timer of
expiry 5 returns with the list `[5]`; the following `add_timer` of a timer of
expiry 7 never returns (the loop is still running for every fuel), so the
sequence of calls does not complete. -/
theorem second_add_timer_never_returns :
    (sort_timer_lst.create.new_timer 5 100).2.add_timer 1 (some 2) = outcome.returned timers_5 ∧
    timers_5.expiries = [5] ∧
    ∀ fuel, timers_5_new_7.add_timer fuel (some 3) = outcome.running := by
  refine ⟨by decide, by decide, ?_⟩
  intro fuel
  exact add_timer_loop_stuck timers_5_new_7 (some 3) 2
    { expire := 7, user_data := 101, prev := none, next := none }
    { expire := 5, user_data := 100, prev := some 0, next := some 1 }
    (by decide) (by decide) (by decide) fuel

/-- C14, at the failing input: the list `[5]` at time 10. The first pass of the
loop of `tick` calls the callback of the entry and deletes it; the next pass
reads `expire` through the same pointer, which now points to a deleted entry:
the call has undefined behaviour instead of terminating after one eviction. At
time 4, when nothing has expired, `tick` returns the list unchanged. -/
theorem tick_reads_deleted_entry :
    timers_5.expiries = [5] ∧
    ({ timers_5 with called := [100] } : sort_timer_lst).del_timer (some 2)
      = outcome.returned { sort_timer_lst.create with
          heap := sort_timer_lst.create.heap ++ [none], called := [100] } ∧
    (∀ k, timers_5.tick (k + 2) 10 = outcome.undefined) ∧
    (∀ k, timers_5.tick (k + 1) 4 = outcome.returned timers_5) := by
  refine ⟨by decide, by decide, ?_, ?_⟩
  · intro k
    rfl
  · intro k
    rfl

/-- C15, at the failing input: the sorted list `[3, 5]` and a timer of expiry
4, which is below the tail's `LONG_MAX`; the first entry with a greater expiry
is the second one, but `add_timer` never returns: its loop compares with the
first entry for ever. -/
theorem add_timer_scan_does_not_advance :
    timers_3_5.expiries = [3, 5] ∧
    timers_3_5_new_4.get (some 4)
      = some { expire := 4, user_data := 103, prev := none, next := none } ∧
    (4 : Int) < LONG_MAX ∧
    ∀ fuel, timers_3_5_new_4.add_timer fuel (some 4) = outcome.running := by
  refine ⟨by decide, by decide, by decide, ?_⟩
  intro fuel
  exact add_timer_loop_stuck timers_3_5_new_4 (some 4) 3
    { expire := 4, user_data := 103, prev := none, next := none }
    { expire := 3, user_data := 102, prev := some 0, next := some 2 }
    (by decide) (by decide) (by decide) fuel

/-- C16, at the failing input: in the list `[3, 5]` the expiry of the first
entry is raised. Raised to 4, still below its successor's 5, `adjust_timer`
returns the list unchanged; raised to 9, `adjust_timer` unlinks the entry and
calls `add_timer`, which never returns: the entry is not re-inserted. -/
theorem adjust_timer_never_reinserts :
    (∀ k, (timers_3_5_raised 4).adjust_timer k (some 3) = outcome.returned (timers_3_5_raised 4)) ∧
    (timers_3_5_raised 4).expiries = [4, 5] ∧
    (timers_3_5_raised 9).expiries = [9, 5] ∧
    ((timers_3_5_raised 9).unlink (some 3)).map sort_timer_lst.expiries = some [5] ∧
    ∀ fuel, (timers_3_5_raised 9).adjust_timer fuel (some 3) = outcome.running := by
  refine ⟨fun k => rfl, by decide, by decide, by decide, ?_⟩
  intro fuel
  have h : (timers_3_5_raised 9).adjust_timer fuel (some 3)
      = sort_timer_lst.add_timer_loop fuel
          (((timers_3_5_raised 9).unlink (some 3)).getD sort_timer_lst.create) (some 3)
          (some 2) := rfl
  rw [h]
  exact add_timer_loop_stuck _ (some 3) 2
    { expire := 9, user_data := 102, prev := some 0, next := some 2 }
    { expire := 5, user_data := 100, prev := some 0, next := some 1 }
    (by decide) (by decide) (by decide) fuel

/-! ## The work queue -/

/-- The invariant of a history of `append` and `pop` calls: the handles popped
so far followed by the queue are the handles accepted so far, the queue holds
at most the capacity, and the capacity does not change. -/
theorem pool_history.run_invariant (ops : List pool_op) :
    ∀ h : pool_history,
      h.popped ++ h.pool.m_workqueue = h.accepted →
      h.pool.m_workqueue.length ≤ size_t_of h.pool.m_max_requests →
      (pool_history.run ops h).popped ++ (pool_history.run ops h).pool.m_workqueue
          = (pool_history.run ops h).accepted ∧
        (pool_history.run ops h).pool.m_workqueue.length
          ≤ size_t_of (pool_history.run ops h).pool.m_max_requests ∧
        (pool_history.run ops h).pool.m_max_requests = h.pool.m_max_requests := by
  induction ops with
  | nil => intro h h1 h2; exact ⟨h1, h2, rfl⟩
  | cons op ops ih =>
    intro h h1 h2
    cases op with
    | append request =>
      simp only [pool_history.run]
      by_cases hfull : h.pool.m_workqueue.length ≥ size_t_of h.pool.m_max_requests
      · have ha : h.pool.append request = (false, h.pool) := by
          simp only [threadpool.append, if_pos hfull]
        rw [ha]
        simp only [Bool.false_eq_true, if_false]
        exact ih _ h1 h2
      · have ha : h.pool.append request
            = (true, { h.pool with m_workqueue := h.pool.m_workqueue ++ [request] }) := by
          simp only [threadpool.append, if_neg hfull]
        rw [ha]
        simp only [if_true]
        refine ih _ ?_ ?_
        · show h.popped ++ (h.pool.m_workqueue ++ [request]) = h.accepted ++ [request]
          rw [← List.append_assoc, h1]
        · show (h.pool.m_workqueue ++ [request]).length ≤ size_t_of h.pool.m_max_requests
          rw [List.length_append, List.length_singleton]
          omega
    | pop =>
      simp only [pool_history.run]
      cases hq : h.pool.m_workqueue with
      | nil =>
        have hp : h.pool.pop = (none, h.pool) := by
          simp only [threadpool.pop, hq]
        rw [hp]
        exact ih _ h1 h2
      | cons request rest =>
        have hp : h.pool.pop = (some request, { h.pool with m_workqueue := rest }) := by
          simp only [threadpool.pop, hq]
        rw [hp]
        refine ih _ ?_ ?_
        · show (h.popped ++ [request]) ++ rest = h.accepted
          rw [← h1, hq, List.append_assoc, List.singleton_append]
        · show rest.length ≤ size_t_of h.pool.m_max_requests
          rw [hq, List.length_cons] at h2
          omega

/-- C17: for a pool the constructor built with capacity `max_requests` (an
`int`), seen by one thread at a time: `append` on a queue that holds the
capacity returns `false` and leaves the pool as it was, `append` on a shorter
queue returns `true` and puts the handle at the back, a worker's pop takes the
front; and after every sequence of such calls the queue holds at most
`max_requests` handles and the handles popped so far, followed by the queue,
are the accepted handles in the order of their acceptance. -/
theorem bounded_fifo_queue (thread_number max_requests : Int) (p : threadpool)
    (hp : threadpool.create thread_number max_requests = some p)
    (hint : max_requests < 2 ^ 31) (ops : List pool_op) :
    let h := pool_history.run ops { pool := p, accepted := [], popped := [] }
    (∀ request, (h.pool.m_workqueue.length : Int) = max_requests →
      h.pool.append request = (false, h.pool)) ∧
    (∀ request, (h.pool.m_workqueue.length : Int) < max_requests →
      h.pool.append request
        = (true, { h.pool with m_workqueue := h.pool.m_workqueue ++ [request] })) ∧
    (∀ request rest, h.pool.m_workqueue = request :: rest →
      h.pool.pop = (some request, { h.pool with m_workqueue := rest })) ∧
    (h.pool.m_workqueue.length : Int) ≤ max_requests ∧
    h.popped ++ h.pool.m_workqueue = h.accepted := by
  intro h
  have hpos : 0 < max_requests ∧
      p = { m_thread_number := thread_number, m_max_requests := max_requests,
            m_workqueue := [], m_stop := false } := by
    unfold threadpool.create at hp
    split at hp
    · exact absurd hp (by simp)
    · rename_i hn
      refine ⟨by omega, ?_⟩
      exact (Option.some.inj hp).symm
  have hinv := pool_history.run_invariant ops { pool := p, accepted := [], popped := [] }
    (by rw [hpos.2]; rfl) (by rw [hpos.2]; exact Nat.zero_le _)
  have hmax : h.pool.m_max_requests = max_requests := by
    rw [hinv.2.2, hpos.2]
  have hsz : ((size_t_of max_requests : Nat) : Int) = max_requests := by
    unfold size_t_of
    rw [Int.toNat_of_nonneg (Int.emod_nonneg _ (by norm_num))]
    exact Int.emod_eq_of_lt (by omega) (by omega)
  have hlen : h.pool.m_workqueue.length ≤ size_t_of max_requests := by
    have := hinv.2.1
    rw [hmax] at this
    exact this
  refine ⟨?_, ?_, ?_, ?_, hinv.1⟩
  · intro request hfull
    have : h.pool.m_workqueue.length ≥ size_t_of h.pool.m_max_requests := by
      rw [hmax]; omega
    simp only [threadpool.append, if_pos this]
  · intro request hroom
    have : ¬ h.pool.m_workqueue.length ≥ size_t_of h.pool.m_max_requests := by
      rw [hmax]; omega
    simp only [threadpool.append, if_neg this]
  · intro request rest hq
    simp only [threadpool.pop, hq]
  · omega

/-- C17, a sample: a pool of capacity 2; the third `append` is refused, the pop
hands out the first handle, and the handle appended after it goes behind the
second. -/
theorem bounded_fifo_queue_sample :
    threadpool.create 8 2
      = some { m_thread_number := 8, m_max_requests := 2, m_workqueue := [], m_stop := false } ∧
    (2 : Int) < 2 ^ 31 ∧
    (let h := pool_history.run
        [pool_op.append (some 1), pool_op.append (some 2), pool_op.append (some 3), pool_op.pop,
         pool_op.append (some 4)]
        { pool := { m_thread_number := 8, m_max_requests := 2, m_workqueue := [], m_stop := false },
          accepted := [], popped := [] }
     h.pool.m_workqueue = [some 2, some 4] ∧ h.popped = [some 1] ∧
     h.accepted = [some 1, some 2, some 4] ∧
     (h.pool.m_workqueue.length : Int) ≤ 2 ∧
     h.popped ++ h.pool.m_workqueue = h.accepted) :=
  ⟨by decide, by decide, by decide, by decide, by decide,
    (bounded_fifo_queue 8 2 _ (by decide) (by decide)
      [pool_op.append (some 1), pool_op.append (some 2), pool_op.append (some 3), pool_op.pop,
       pool_op.append (some 4)]).2.2.2.1,
    (bounded_fifo_queue 8 2 _ (by decide) (by decide)
      [pool_op.append (some 1), pool_op.append (some 2), pool_op.append (some 3), pool_op.pop,
       pool_op.append (some 4)]).2.2.2.2⟩

/-! ## The outcome of `write()` -/

/-- One pass of the loop of `write()` after a `writev` that accepted bytes. -/
theorem http_conn.write_loop_sent (temp : Nat) (rest : List send_result) (c : http_conn) :
    http_conn.write_loop (send_result.sent temp :: rest) c
      = if (c.account temp).bytes_to_send ≤ 0 then
          (if (c.account temp).unmap.m_linger then (true, (c.account temp).unmap.init)
           else (false, (c.account temp).unmap))
        else http_conn.write_loop rest (c.account temp) := by
  simp only [http_conn.write_loop, http_conn.account]

/-- What the accounting of one pass changes. -/
theorem http_conn.account_spec (c : http_conn) (temp : Nat) :
    (c.account temp).bytes_to_send = c.bytes_to_send - (temp : Int) ∧
    (c.account temp).bytes_have_send = c.bytes_have_send + (temp : Int) ∧
    (c.account temp).m_linger = c.m_linger ∧
    c.resumable_from (c.account temp) := by
  unfold http_conn.account http_conn.resumable_from
  dsimp only
  split <;> exact ⟨rfl, rfl, rfl, rfl⟩

/-- The method `unmap()` keeps the keep-alive flag. -/
theorem http_conn.unmap_linger (c : http_conn) : c.unmap.m_linger = c.m_linger := by
  unfold http_conn.unmap
  split <;> rfl

/-- The outcome of the loop of `write()` by the way the `writev` results end. -/
theorem http_conn.write_loop_outcome (script : List send_result) :
    ∀ c : http_conn,
      (send_ending_of script c.bytes_to_send = send_ending.would_block →
        (c.write_loop script).1 = true ∧
        c.resumable_from (c.write_loop script).2 ∧
        (c.write_loop script).2.bytes_have_send
          = c.bytes_have_send + accepted_bytes script c.bytes_to_send ∧
        (c.write_loop script).2.bytes_to_send
          = c.bytes_to_send - accepted_bytes script c.bytes_to_send) ∧
      (send_ending_of script c.bytes_to_send = send_ending.failed →
        (c.write_loop script).1 = false) ∧
      (send_ending_of script c.bytes_to_send = send_ending.completed →
        (c.m_linger = false → (c.write_loop script).1 = false) ∧
        (c.m_linger = true →
          (c.write_loop script).1 = true ∧
          ∃ c0 : http_conn, (c.write_loop script).2 = c0.init)) := by
  induction script with
  | nil =>
    intro c
    refine ⟨fun _ => ⟨rfl, rfl, ?_, ?_⟩, fun h => ?_, fun h => ?_⟩
    · show c.bytes_have_send = c.bytes_have_send + 0
      omega
    · show c.bytes_to_send = c.bytes_to_send - 0
      omega
    · exact absurd h (by simp [send_ending_of])
    · exact absurd h (by simp [send_ending_of])
  | cons r rest ih =>
    intro c
    cases r with
    | would_block =>
      refine ⟨fun _ => ⟨rfl, rfl, ?_, ?_⟩, fun h => ?_, fun h => ?_⟩
      · show c.bytes_have_send = c.bytes_have_send + 0
        omega
      · show c.bytes_to_send = c.bytes_to_send - 0
        omega
      · exact absurd h (by simp [send_ending_of])
      · exact absurd h (by simp [send_ending_of])
    | error =>
      refine ⟨fun h => ?_, fun _ => rfl, fun h => ?_⟩
      · exact absurd h (by simp [send_ending_of])
      · exact absurd h (by simp [send_ending_of])
    | sent temp =>
      obtain ⟨hto, hhave, hl, hres⟩ := c.account_spec temp
      rw [http_conn.write_loop_sent]
      simp only [send_ending_of, accepted_bytes]
      by_cases hdone : c.bytes_to_send - (temp : Int) ≤ 0
      · have hdone1 : (c.account temp).bytes_to_send ≤ 0 := by rw [hto]; exact hdone
        rw [if_pos hdone, if_pos hdone1]
        refine ⟨fun h => absurd h (by simp), fun h => absurd h (by simp), fun _ => ⟨?_, ?_⟩⟩
        · intro hlin
          have : (c.account temp).unmap.m_linger = false := by
            rw [http_conn.unmap_linger, hl, hlin]
          rw [this]
          rfl
        · intro hlin
          have : (c.account temp).unmap.m_linger = true := by
            rw [http_conn.unmap_linger, hl, hlin]
          rw [this]
          exact ⟨rfl, _, rfl⟩
      · have hdone1 : ¬ (c.account temp).bytes_to_send ≤ 0 := by rw [hto]; exact hdone
        rw [if_neg hdone, if_neg hdone1, if_neg hdone]
        obtain ⟨h1, h2, h3⟩ := ih (c.account temp)
        rw [hto] at h1 h2 h3
        refine ⟨fun h => ?_, h2, fun h => ?_⟩
        · obtain ⟨a, b, d, e⟩ := h1 h
          refine ⟨a, ?_, ?_, ?_⟩
          · unfold http_conn.resumable_from at b hres ⊢
            rw [b, hres]
          · rw [d, hhave]; omega
          · rw [e]; omega
        · rw [hl] at h3
          exact h3 h

/-- The outcome of `write()` by the way the `writev` results end. With nothing
pending on entry it returns true with the state `init()` produces. Otherwise it
returns false exactly when the results end in a failure other than would-block,
or when the pending count reaches zero and the keep-alive flag is false; on
would-block it returns true and the state differs from the state on entry only
in the send accounting and the descriptors (nothing changes at all when the
first result is would-block); when the pending count reaches zero with
keep-alive set it returns true with a state `init()` produced. -/
theorem http_conn.write_outcome_by_ending (script : List send_result) (c : http_conn) :
    (c.bytes_to_send = 0 → c.write script = (true, c.init)) ∧
    (c.bytes_to_send ≠ 0 →
      ((c.write script).1 = false ↔
        (send_ending_of script c.bytes_to_send = send_ending.failed ∨
          (send_ending_of script c.bytes_to_send = send_ending.completed ∧ c.m_linger = false))) ∧
      (send_ending_of script c.bytes_to_send = send_ending.would_block →
        (c.write script).1 = true ∧
        c.resumable_from (c.write script).2 ∧
        (c.write script).2.bytes_have_send
          = c.bytes_have_send + accepted_bytes script c.bytes_to_send ∧
        (c.write script).2.bytes_to_send
          = c.bytes_to_send - accepted_bytes script c.bytes_to_send) ∧
      (∀ rest, script = send_result.would_block :: rest → c.write script = (true, c)) ∧
      (send_ending_of script c.bytes_to_send = send_ending.completed → c.m_linger = true →
        (c.write script).1 = true ∧ ∃ c0 : http_conn, (c.write script).2 = c0.init)) := by
  refine ⟨fun h => ?_, fun h => ?_⟩
  · simp only [http_conn.write, if_pos h]
  · have hw : c.write script = c.write_loop script := by
      simp only [http_conn.write, if_neg h]
    rw [hw]
    obtain ⟨h1, h2, h3⟩ := http_conn.write_loop_outcome script c
    refine ⟨⟨fun hf => ?_, fun hc => ?_⟩, h1, fun rest hs => ?_, fun hc hl => (h3 hc).2 hl⟩
    · cases he : send_ending_of script c.bytes_to_send with
      | would_block => rw [(h1 he).1] at hf; exact absurd hf (by simp)
      | failed => exact Or.inl rfl
      | completed =>
        refine Or.inr ⟨rfl, ?_⟩
        cases hl : c.m_linger with
        | false => rfl
        | true => rw [((h3 he).2 hl).1] at hf; exact absurd hf (by simp)
    · rcases hc with hc | ⟨hc, hl⟩
      · exact h2 hc
      · exact (h3 hc).1 hl
    · rw [hs]
      rfl

/-! ## The target of the request line -/

/-- A string without a byte of `accept` before its NUL: `strpbrk` finds nothing. -/
theorem strpbrk_from_none (accept m r : List Nat) :
    ∀ i : Nat, (∀ b ∈ m, accept.contains b = false) →
      strpbrk_from (m ++ 0 :: r) accept i = none := by
  induction m with
  | nil =>
    intro i _
    rw [List.nil_append, strpbrk_from, if_pos rfl]
  | cons a m ih =>
    intro i h
    rw [List.cons_append, strpbrk_from]
    split
    · rfl
    · have ha : accept.contains a = false := h a (List.mem_cons_self _ _)
      rw [ha]
      simp only [Bool.false_eq_true, if_false]
      exact ih (i + 1) (fun b hb => h b (List.mem_cons_of_mem _ hb))

/-- The run of `parse_request_line` on a line `GET<s>T<s>HTTP/1.1` whose target
`T` holds no space, tab or NUL, up to the test of the target: both separators
are replaced by NUL, method and version are accepted, and what remains is the
treatment of the absolute form and the test of the first byte. -/
theorem parse_request_line_shape (c : http_conn) (pre T rest : List Nat) (s1 s2 : Nat)
    (hs1 : s1 = 32 ∨ s1 = 9) (hs2 : s2 = 32 ∨ s2 = 9)
    (hTs : ∀ b ∈ T, b ≠ 32 ∧ b ≠ 9 ∧ b ≠ 0)
    (hbuf : c.m_read_buf
      = pre ++ (str "GET" ++ s1 :: (T ++ s2 :: (str "HTTP/1.1" ++ 0 :: rest)))) :
    c.parse_request_line pre.length =
      (match (if strncasecmp T (str "http://") 7 = 0 then
          strchr (pre ++ (str "GET" ++ 0 :: (T ++ 0 :: (str "HTTP/1.1" ++ 0 :: rest))))
            (pre.length + 3 + 1 + 7) 47
        else some (pre.length + 3 + 1)) with
      | none =>
        (HTTP_CODE.BAD_REQUEST,
          { c with
            m_read_buf := pre ++ (str "GET" ++ 0 :: (T ++ 0 :: (str "HTTP/1.1" ++ 0 :: rest)))
            m_url := none
            m_method := METHOD.GET
            m_version := some (pre.length + 3 + 1 + T.length + 1) })
      | some u =>
        if (pre ++ (str "GET" ++ 0 :: (T ++ 0 :: (str "HTTP/1.1" ++ 0 :: rest)))).getD u 0 ≠ 47 then
          (HTTP_CODE.BAD_REQUEST,
            { c with
              m_read_buf := pre ++ (str "GET" ++ 0 :: (T ++ 0 :: (str "HTTP/1.1" ++ 0 :: rest)))
              m_url := some u
              m_method := METHOD.GET
              m_version := some (pre.length + 3 + 1 + T.length + 1) })
        else
          (HTTP_CODE.NO_REQUEST,
            { c with
              m_read_buf := pre ++ (str "GET" ++ 0 :: (T ++ 0 :: (str "HTTP/1.1" ++ 0 :: rest)))
              m_url := some u
              m_method := METHOD.GET
              m_version := some (pre.length + 3 + 1 + T.length + 1)
              m_check_state := CHECK_STATE.CHECK_STATE_HEADER })) := by
  have hG0 : ∀ b ∈ str "GET", b ≠ 0 := by decide
  have hGs : ∀ b ∈ str "GET", [32, 9].contains b = false := by decide
  have hV0 : ∀ b ∈ str "HTTP/1.1", b ≠ 0 := by decide
  have hGl : (str "GET").length = 3 := by decide
  have hT0 : ∀ b ∈ T, b ≠ 0 := fun b hb => (hTs b hb).2.2
  have hTsep : ∀ b ∈ T, [32, 9].contains b = false :=
    fun b hb => not_sep_contains b (hTs b hb).1 (hTs b hb).2.1
  have hs10 : s1 ≠ 0 := by rcases hs1 with rfl | rfl <;> decide
  have hs20 : s2 ≠ 0 := by rcases hs2 with rfl | rfl <;> decide
  have hp : strpbrk c.m_read_buf pre.length [32, 9] = some (pre.length + 3) := by
    rw [hbuf, strpbrk, List.drop_left, ← hGl]
    exact strpbrk_from_append _ _ _ _ _ hG0 hGs hs10 (sep_contains s1 hs1)
  have hb1 : c.m_read_buf.set (pre.length + 3) 0
      = pre ++ (str "GET" ++ 0 :: (T ++ s2 :: (str "HTTP/1.1" ++ 0 :: rest))) := by
    rw [hbuf, ← hGl]
    exact set_at _ _ _ _ _
  have hm : cstr (pre ++ (str "GET" ++ 0 :: (T ++ s2 :: (str "HTTP/1.1" ++ 0 :: rest))))
      pre.length = str "GET" := cstr_at _ _ _ hG0
  have hcmp : strcasecmp (str "GET") (str "GET") = 0 := by decide
  have hq : strpbrk (pre ++ (str "GET" ++ 0 :: (T ++ s2 :: (str "HTTP/1.1" ++ 0 :: rest))))
      (pre.length + 3 + 1) [32, 9] = some (pre.length + 3 + 1 + T.length) := by
    rw [strpbrk, ← hGl, drop_after]
    exact strpbrk_from_append _ _ _ _ _ hT0 hTsep hs20 (sep_contains s2 hs2)
  have hb3 : (pre ++ (str "GET" ++ 0 :: (T ++ s2 :: (str "HTTP/1.1" ++ 0 :: rest)))).set
      (pre.length + 3 + 1 + T.length) 0
      = pre ++ (str "GET" ++ 0 :: (T ++ 0 :: (str "HTTP/1.1" ++ 0 :: rest))) := by
    rw [← hGl, set_after]
    have := set_at [] T s2 0 (str "HTTP/1.1" ++ 0 :: rest)
    simp only [List.nil_append, List.length_nil, Nat.zero_add] at this
    rw [this]
  have hu : cstr (pre ++ (str "GET" ++ 0 :: (T ++ 0 :: (str "HTTP/1.1" ++ 0 :: rest))))
      (pre.length + 3 + 1) = T := by
    have := cstr_after pre (str "GET") 0 (T ++ 0 :: (str "HTTP/1.1" ++ 0 :: rest)) 0
    rw [hGl] at this
    rw [this]
    exact cstr_at [] _ _ hT0
  have hv : cstr (pre ++ (str "GET" ++ 0 :: (T ++ 0 :: (str "HTTP/1.1" ++ 0 :: rest))))
      (pre.length + 3 + 1 + T.length + 1) = str "HTTP/1.1" := by
    have := cstr_after pre (str "GET") 0 (T ++ 0 :: (str "HTTP/1.1" ++ 0 :: rest))
      (T.length + 1)
    rw [hGl] at this
    rw [show pre.length + 3 + 1 + T.length + 1
      = pre.length + 3 + 1 + (T.length + 1) by omega, this]
    have h2 := cstr_after [] T 0 (str "HTTP/1.1" ++ 0 :: rest) 0
    simp only [List.nil_append, List.length_nil, Nat.zero_add, Nat.add_zero] at h2
    rw [h2]
    exact cstr_at [] _ _ hV0
  have hvc : strcasecmp (str "HTTP/1.1") (str "HTTP/1.1") = 0 := by decide
  simp only [http_conn.parse_request_line, hp, hb1, hm, hcmp, hq, hb3, hv, hvc, hu,
    if_true, ne_eq, not_true_eq_false, if_false]
  by_cases hn : strncasecmp T (str "http://") 7 = 0
  · simp only [hn, if_true]
    cases strchr (pre ++ (str "GET" ++ 0 :: (T ++ 0 :: (str "HTTP/1.1" ++ 0 :: rest))))
      (pre.length + 3 + 1 + 7) 47 with
    | none => rfl
    | some u => dsimp only
  · simp only [hn, if_false]

/-- C19: a line `GET<s>T<s>HTTP/1.1` at `text = pre.length`, each `<s>` one
space or tab, `T` without space, tab or NUL. When `T` is the seven characters
`http://` (in any letter case), an authority `A` without `/`, and a rest
`/R`, the line is accepted and the recorded target is `/R`, the suffix from the
first `/` after the prefix. When no `/` follows the prefix, or when `T` is not
in absolute form and does not begin with `/`, the result is BAD_REQUEST. -/
theorem absolute_uri_target (c : http_conn) (pre T rest : List Nat) (s1 s2 : Nat)
    (hs1 : s1 = 32 ∨ s1 = 9) (hs2 : s2 = 32 ∨ s2 = 9)
    (hTs : ∀ b ∈ T, b ≠ 32 ∧ b ≠ 9 ∧ b ≠ 0)
    (hbuf : c.m_read_buf
      = pre ++ (str "GET" ++ s1 :: (T ++ s2 :: (str "HTTP/1.1" ++ 0 :: rest)))) :
    (∀ P A R : List Nat, T = P ++ (A ++ 47 :: R) → P.map tolower = str "http://" →
      (∀ b ∈ A, b ≠ 47) →
      (c.parse_request_line pre.length).1 = HTTP_CODE.NO_REQUEST ∧
      (c.parse_request_line pre.length).2.m_url = some (pre.length + 4 + 7 + A.length) ∧
      cstr (c.parse_request_line pre.length).2.m_read_buf (pre.length + 4 + 7 + A.length)
        = 47 :: R ∧
      (c.parse_request_line pre.length).2.m_check_state = CHECK_STATE.CHECK_STATE_HEADER) ∧
    (∀ P A : List Nat, T = P ++ A → P.map tolower = str "http://" → (∀ b ∈ A, b ≠ 47) →
      (c.parse_request_line pre.length).1 = HTTP_CODE.BAD_REQUEST) ∧
    ((T.take 7).map tolower ≠ str "http://" → T.head? ≠ some 47 →
      (c.parse_request_line pre.length).1 = HTTP_CODE.BAD_REQUEST) := by
  have hshape := parse_request_line_shape c pre T rest s1 s2 hs1 hs2 hTs hbuf
  have hGl : (str "GET").length = 3 := by decide
  have hT0 : ∀ b ∈ T, b ≠ 0 := fun b hb => (hTs b hb).2.2
  have hH0 : ∀ b ∈ str "http://", b ≠ 0 := by decide
  have hHl : (str "http://").map tolower = str "http://" := by decide
  have hHt : (str "http://").take 7 = str "http://" := by decide
  have hdrop : ∀ X : List Nat,
      (pre ++ (str "GET" ++ 0 :: X)).drop (pre.length + 3 + 1 + 7) = X.drop 7 := by
    intro X
    rw [← List.drop_drop, ← hGl, drop_after]
  -- the comparison of the first seven characters
  have hcmp : ∀ P X : List Nat, T = P ++ X → P.map tolower = str "http://" →
      P.length = 7 ∧ strncasecmp T (str "http://") 7 = 0 := by
    intro P X hT hP
    have hPl : P.length = 7 := by
      have := congrArg List.length hP
      rw [List.length_map] at this
      rw [this]
      decide
    refine ⟨hPl, ?_⟩
    have htake : T.take 7 = P := by
      rw [hT, ← hPl]
      exact List.take_left _ _
    unfold strncasecmp
    rw [htake, hHt]
    refine (strcasecmp_eq_zero_iff P (str "http://") ?_ hH0).2 (by rw [hP, hHl])
    intro b hb
    exact hT0 b (by rw [hT]; exact List.mem_append_left _ hb)
  refine ⟨?_, ?_, ?_⟩
  · intro P A R hT hP hA
    obtain ⟨hPl, hn⟩ := hcmp P _ hT hP
    have hA0 : ∀ b ∈ A, b ≠ 0 := fun b hb =>
      hT0 b (by rw [hT]; exact List.mem_append_right _ (List.mem_append_left _ hb))
    have hR0 : ∀ b ∈ (47 :: R), b ≠ 0 := fun b hb =>
      hT0 b (by rw [hT]; exact List.mem_append_right _ (List.mem_append_right _ hb))
    have hAc : ∀ b ∈ A, [47].contains b = false := by
      intro b hb
      simp [hA b hb]
    have hch : strchr (pre ++ (str "GET" ++ 0 :: (T ++ 0 :: (str "HTTP/1.1" ++ 0 :: rest))))
        (pre.length + 3 + 1 + 7) 47 = some (pre.length + 3 + 1 + 7 + A.length) := by
      unfold strchr
      rw [hdrop, hT, List.append_assoc, ← hPl, List.drop_left, List.append_assoc,
        List.cons_append]
      exact strpbrk_from_append [47] A 47 _ _ hA0 hAc (by decide) (by decide)
    have hsplit : T ++ 0 :: (str "HTTP/1.1" ++ 0 :: rest)
        = (P ++ A) ++ ((47 :: R) ++ 0 :: (str "HTTP/1.1" ++ 0 :: rest)) := by
      rw [hT]
      simp
    have hPAl : (P ++ A).length = 7 + A.length := by
      rw [List.length_append, hPl]
    have hg : (pre ++ (str "GET" ++ 0 :: (T ++ 0 :: (str "HTTP/1.1" ++ 0 :: rest)))).getD
        (pre.length + 3 + 1 + 7 + A.length) 0 = 47 := by
      have := getD_after pre (str "GET") 0 (T ++ 0 :: (str "HTTP/1.1" ++ 0 :: rest))
        (7 + A.length)
      rw [hGl] at this
      rw [show pre.length + 3 + 1 + 7 + A.length = pre.length + 3 + 1 + (7 + A.length) by omega,
        this, hsplit, ← hPAl, List.getD_eq_getElem?_getD,
        List.getElem?_append_right (Nat.le_refl _)]
      simp
    have hc : cstr (pre ++ (str "GET" ++ 0 :: (T ++ 0 :: (str "HTTP/1.1" ++ 0 :: rest))))
        (pre.length + 3 + 1 + 7 + A.length) = 47 :: R := by
      have := cstr_after pre (str "GET") 0 (T ++ 0 :: (str "HTTP/1.1" ++ 0 :: rest))
        (7 + A.length)
      rw [hGl] at this
      rw [show pre.length + 3 + 1 + 7 + A.length = pre.length + 3 + 1 + (7 + A.length) by omega,
        this, hsplit, ← hPAl]
      exact cstr_at (P ++ A) (47 :: R) _ hR0
    rw [hshape, if_pos hn, hch]
    dsimp only
    rw [if_neg (not_not.mpr hg)]
    refine ⟨rfl, ?_, ?_, rfl⟩
    · show some (pre.length + 3 + 1 + 7 + A.length) = some (pre.length + 4 + 7 + A.length)
      rfl
    · show cstr _ (pre.length + 4 + 7 + A.length) = _
      exact hc
  · intro P A hT hP hA
    obtain ⟨hPl, hn⟩ := hcmp P _ hT hP
    have hAc : ∀ b ∈ A, [47].contains b = false := by
      intro b hb
      simp [hA b hb]
    have hch : strchr (pre ++ (str "GET" ++ 0 :: (T ++ 0 :: (str "HTTP/1.1" ++ 0 :: rest))))
        (pre.length + 3 + 1 + 7) 47 = none := by
      unfold strchr
      rw [hdrop, hT, List.append_assoc, ← hPl, List.drop_left]
      exact strpbrk_from_none [47] A _ _ hAc
    rw [hshape, if_pos hn, hch]
  · intro hne hhead
    have hn : ¬ strncasecmp T (str "http://") 7 = 0 := by
      intro h0
      unfold strncasecmp at h0
      rw [hHt] at h0
      have := (strcasecmp_eq_zero_iff (T.take 7) (str "http://")
        (fun b hb => hT0 b (List.mem_of_mem_take hb)) hH0).1 h0
      rw [hHl] at this
      exact hne this
    have hg : (pre ++ (str "GET" ++ 0 :: (T ++ 0 :: (str "HTTP/1.1" ++ 0 :: rest)))).getD
        (pre.length + 3 + 1) 0 ≠ 47 := by
      have := getD_after pre (str "GET") 0 (T ++ 0 :: (str "HTTP/1.1" ++ 0 :: rest)) 0
      rw [hGl] at this
      rw [this]
      cases T with
      | nil => simp
      | cons a T1 =>
        intro h47
        apply hhead
        simp only [List.cons_append, List.getD_cons_zero] at h47
        rw [h47]
        rfl
    rw [hshape, if_neg hn]
    dsimp only
    rw [if_pos hg]

/-- C19, an instance: the request line of `absolute_request` as `parse_line` has
left it at offset 0 of a fresh connection: the line is accepted and the target
recorded is `/index.html`, at offset 26. -/
theorem absolute_uri_target_sample :
    (first_line_scanned absolute_request).m_read_buf
      = [] ++ (str "GET" ++ 32 :: (str "http://localhost:10000/index.html" ++ 32 ::
          (str "HTTP/1.1" ++ 0 :: (first_line_scanned absolute_request).m_read_buf.drop 47))) ∧
    ((first_line_scanned absolute_request).parse_request_line ([] : List Nat).length).1
      = HTTP_CODE.NO_REQUEST ∧
    ((first_line_scanned absolute_request).parse_request_line ([] : List Nat).length).2.m_url
      = some (([] : List Nat).length + 4 + 7 + (str "localhost:10000").length) ∧
    cstr ((first_line_scanned absolute_request).parse_request_line
        ([] : List Nat).length).2.m_read_buf
        (([] : List Nat).length + 4 + 7 + (str "localhost:10000").length)
      = 47 :: str "index.html" ∧
    ((first_line_scanned absolute_request).parse_request_line
        ([] : List Nat).length).2.m_check_state = CHECK_STATE.CHECK_STATE_HEADER :=
  ⟨by decide!,
    (absolute_uri_target (first_line_scanned absolute_request) []
      (str "http://localhost:10000/index.html")
      ((first_line_scanned absolute_request).m_read_buf.drop 47) 32 32 (Or.inl rfl) (Or.inl rfl)
      (by decide) (by decide!)).1 (str "http://") (str "localhost:10000") (str "index.html")
      (by decide) (by decide) (by decide)⟩

/-- C20, at the failing input: the request line `GET  /index.html HTTP/1.1`,
with two spaces after the method. `parse_request_line` cuts at the first space
only, takes the empty string between the two spaces for the target and
`/index.html HTTP/1.1` for the version, and returns BAD_REQUEST; with single
separators the same three fields give NO_REQUEST with target `/index.html`. -/
theorem double_space_request_line_rejected :
    cstr (first_line_scanned double_space_request).m_read_buf 0
      = str "GET  /index.html HTTP/1.1" ∧
    ((first_line_scanned double_space_request).parse_request_line 0).1
      = HTTP_CODE.BAD_REQUEST ∧
    ((first_line_scanned double_space_request).parse_request_line 0).2.m_url = some 4 ∧
    cstr ((first_line_scanned double_space_request).parse_request_line 0).2.m_read_buf 4 = [] ∧
    ((first_line_scanned double_space_request).parse_request_line 0).2.m_version = some 5 ∧
    cstr ((first_line_scanned double_space_request).parse_request_line 0).2.m_read_buf 5
      = str "/index.html HTTP/1.1" ∧
    code_of (on_readable small_site double_space_request fresh_conn)
      = some HTTP_CODE.BAD_REQUEST ∧
    ((first_line_scanned sample_request).parse_request_line 0).1 = HTTP_CODE.NO_REQUEST ∧
    cstr ((first_line_scanned sample_request).parse_request_line 0).2.m_read_buf 4
      = str "/index.html" ∧
    code_of (on_readable small_site second_request fresh_conn)
      = some HTTP_CODE.FILE_REQUEST := by
  decide!

/-! ## The line scanner -/

theorem getD_set_of_ne (l : List Nat) (i j a : Nat) (h : i ≠ j) :
    (l.set i a).getD j 0 = l.getD j 0 := by
  rw [List.getD_eq_getElem?_getD, List.getD_eq_getElem?_getD, List.getElem?_set_ne h]

theorem getD_set_zero_self (l : List Nat) (i : Nat) : (l.set i 0).getD i 0 = 0 := by
  rw [List.getD_eq_getElem?_getD]
  by_cases h : i < l.length
  · rw [List.getElem?_set_eq_of_lt _ h]
    rfl
  · rw [List.getElem?_eq_none (by rw [List.length_set]; omega)]
    rfl

theorem getD_set_zero_ne (l : List Nat) (i j : Nat) (h : l.getD j 0 ≠ 13) :
    (l.set i 0).getD j 0 ≠ 13 := by
  by_cases hij : i = j
  · rw [hij, getD_set_zero_self]
    decide
  · rw [getD_set_of_ne l i j 0 hij]
    exact h

theorem getD_put_below (buf : List Nat) (i j : Nat) (bs : List Nat) (h : j < i) :
    (put buf i bs).getD j 0 = buf.getD j 0 := by
  rw [List.getD_eq_getElem?_getD, List.getD_eq_getElem?_getD]
  by_cases hj : j < buf.length
  · unfold put
    rw [List.getElem?_append_left (by rw [List.length_take]; omega), List.getElem?_take_of_lt h]
  · rw [List.getElem?_eq_none (by rw [put_length]; omega), List.getElem?_eq_none (by omega)]

namespace http_conn

/-- The scanner keeps `scanned_past k`, and a LINE_OK it returns is for a
terminator at or beyond `k`: the new cursor is at least `k + 2` and no byte
below `k` is changed. -/
theorem parse_line_loop_scanned (k : Nat) (fuel : Nat) : ∀ c : http_conn,
    c.scanned_past k →
    (parse_line_loop fuel c).2.scanned_past k ∧
    ((parse_line_loop fuel c).1 = LINE_STATUS.LINE_OK →
      k + 2 ≤ (parse_line_loop fuel c).2.m_checked_idx ∧
      ∀ j < k, (parse_line_loop fuel c).2.m_read_buf.getD j 0 = c.m_read_buf.getD j 0) := by
  induction fuel with
  | zero =>
    intro c h
    exact ⟨h, fun hc => by simp [parse_line_loop] at hc⟩
  | succ n ih =>
    intro c h
    obtain ⟨h1, h2, h3, h4⟩ := h
    unfold parse_line_loop
    by_cases hlt : c.m_checked_idx < c.m_read_idx
    · rw [if_pos hlt]
      dsimp only
      by_cases h13 : c.m_read_buf.getD c.m_checked_idx 0 = 13
      · rw [if_pos h13]
        by_cases hend : c.m_checked_idx + 1 = c.m_read_idx
        · rw [if_pos hend]
          exact ⟨⟨h1, h2, h3, h4⟩, fun hc => by simp at hc⟩
        · rw [if_neg hend]
          by_cases h10 : c.m_read_buf.getD (c.m_checked_idx + 1) 0 = 10
          · rw [if_pos h10]
            refine ⟨⟨h1, ?_, ?_, ?_⟩, fun _ => ⟨?_, fun j hj => ?_⟩⟩
            · show k ≤ c.m_checked_idx + 2
              omega
            · show c.m_checked_idx + 2 ≤ c.m_read_idx
              omega
            · exact getD_set_zero_ne _ _ _ (getD_set_zero_ne _ _ _ h4)
            · show k + 2 ≤ c.m_checked_idx + 2
              omega
            · show ((c.m_read_buf.set c.m_checked_idx 0).set (c.m_checked_idx + 1) 0).getD j 0 = _
              rw [getD_set_of_ne _ _ _ _ (by omega), getD_set_of_ne _ _ _ _ (by omega)]
          · rw [if_neg h10]
            exact ⟨⟨h1, h2, h3, h4⟩, fun hc => by simp at hc⟩
      · rw [if_neg h13]
        by_cases h10 : c.m_read_buf.getD c.m_checked_idx 0 = 10
        · rw [if_pos h10]
          by_cases hcr : c.m_checked_idx > 1 ∧ c.m_read_buf.getD (c.m_checked_idx - 1) 0 = 13
          · rw [if_pos hcr]
            have hne : k ≠ c.m_checked_idx := by
              intro hk
              rw [hk] at h4
              exact h4 hcr.2
            refine ⟨⟨h1, ?_, ?_, ?_⟩, fun _ => ⟨?_, fun j hj => ?_⟩⟩
            · show k ≤ c.m_checked_idx + 1
              omega
            · show c.m_checked_idx + 1 ≤ c.m_read_idx
              omega
            · exact getD_set_zero_ne _ _ _ (getD_set_zero_ne _ _ _ h4)
            · show k + 2 ≤ c.m_checked_idx + 1
              omega
            · show ((c.m_read_buf.set (c.m_checked_idx - 1) 0).set c.m_checked_idx 0).getD j 0 = _
              rw [getD_set_of_ne _ _ _ _ (by omega), getD_set_of_ne _ _ _ _ (by omega)]
          · rw [if_neg hcr]
            exact ⟨⟨h1, h2, h3, h4⟩, fun hc => by simp at hc⟩
        · rw [if_neg h10]
          obtain ⟨a, b⟩ := ih { c with m_checked_idx := c.m_checked_idx + 1 }
            ⟨h1, by show k ≤ c.m_checked_idx + 1; omega,
              by show c.m_checked_idx + 1 ≤ c.m_read_idx; omega, h4⟩
          exact ⟨a, b⟩
    · rw [if_neg hlt]
      exact ⟨⟨h1, h2, h3, h4⟩, fun hc => by simp at hc⟩

/-- A LINE_OK call leaves a cursor `k` with `scanned_past k`: the second byte
of the terminator, just below the cursor, is now NUL. -/
theorem parse_line_loop_ok_scanned (fuel : Nat) : ∀ c : http_conn,
    c.m_checked_idx ≤ c.m_read_idx →
    (parse_line_loop fuel c).1 = LINE_STATUS.LINE_OK →
    (parse_line_loop fuel c).2.scanned_past (parse_line_loop fuel c).2.m_checked_idx := by
  induction fuel with
  | zero =>
    intro c _ hc
    simp [parse_line_loop] at hc
  | succ n ih =>
    intro c hle
    unfold parse_line_loop
    by_cases hlt : c.m_checked_idx < c.m_read_idx
    · rw [if_pos hlt]
      dsimp only
      by_cases h13 : c.m_read_buf.getD c.m_checked_idx 0 = 13
      · rw [if_pos h13]
        by_cases hend : c.m_checked_idx + 1 = c.m_read_idx
        · rw [if_pos hend]
          intro hc
          simp at hc
        · rw [if_neg hend]
          by_cases h10 : c.m_read_buf.getD (c.m_checked_idx + 1) 0 = 10
          · rw [if_pos h10]
            intro _
            refine ⟨?_, Nat.le_refl _, ?_, ?_⟩
            · show 1 ≤ c.m_checked_idx + 2
              omega
            · show c.m_checked_idx + 2 ≤ c.m_read_idx
              omega
            · show ((c.m_read_buf.set c.m_checked_idx 0).set (c.m_checked_idx + 1) 0).getD
                (c.m_checked_idx + 2 - 1) 0 ≠ 13
              rw [show c.m_checked_idx + 2 - 1 = c.m_checked_idx + 1 by omega, getD_set_zero_self]
              decide
          · rw [if_neg h10]
            intro hc
            simp at hc
      · rw [if_neg h13]
        by_cases h10 : c.m_read_buf.getD c.m_checked_idx 0 = 10
        · rw [if_pos h10]
          by_cases hcr : c.m_checked_idx > 1 ∧ c.m_read_buf.getD (c.m_checked_idx - 1) 0 = 13
          · rw [if_pos hcr]
            intro _
            refine ⟨?_, Nat.le_refl _, ?_, ?_⟩
            · show 1 ≤ c.m_checked_idx + 1
              omega
            · show c.m_checked_idx + 1 ≤ c.m_read_idx
              omega
            · show ((c.m_read_buf.set (c.m_checked_idx - 1) 0).set c.m_checked_idx 0).getD
                (c.m_checked_idx + 1 - 1) 0 ≠ 13
              rw [show c.m_checked_idx + 1 - 1 = c.m_checked_idx by omega, getD_set_zero_self]
              decide
          · rw [if_neg hcr]
            intro hc
            simp at hc
        · rw [if_neg h10]
          exact ih { c with m_checked_idx := c.m_checked_idx + 1 }
            (by show c.m_checked_idx + 1 ≤ c.m_read_idx; omega)
    · rw [if_neg hlt]
      intro hc
      simp at hc

/-- A LINE_OPEN call changes the cursor only, and leaves it at the fill index
or at a carriage return that is the last byte read. -/
theorem parse_line_loop_open (fuel : Nat) : ∀ c : http_conn,
    fuel = c.m_read_idx - c.m_checked_idx →
    (parse_line_loop fuel c).1 = LINE_STATUS.LINE_OPEN →
    (parse_line_loop fuel c).2
        = { c with m_checked_idx := (parse_line_loop fuel c).2.m_checked_idx } ∧
      (c.m_read_idx ≤ (parse_line_loop fuel c).2.m_checked_idx ∨
        ((parse_line_loop fuel c).2.m_checked_idx + 1 = c.m_read_idx ∧
          c.m_read_buf.getD (parse_line_loop fuel c).2.m_checked_idx 0 = 13)) := by
  induction fuel with
  | zero =>
    intro c hf _
    exact ⟨rfl, Or.inl (by show c.m_read_idx ≤ c.m_checked_idx; omega)⟩
  | succ n ih =>
    intro c hf
    unfold parse_line_loop
    have hlt : c.m_checked_idx < c.m_read_idx := by omega
    rw [if_pos hlt]
    dsimp only
    by_cases h13 : c.m_read_buf.getD c.m_checked_idx 0 = 13
    · rw [if_pos h13]
      by_cases hend : c.m_checked_idx + 1 = c.m_read_idx
      · rw [if_pos hend]
        intro _
        exact ⟨rfl, Or.inr ⟨hend, h13⟩⟩
      · rw [if_neg hend]
        by_cases h10 : c.m_read_buf.getD (c.m_checked_idx + 1) 0 = 10
        · rw [if_pos h10]
          intro hc
          simp at hc
        · rw [if_neg h10]
          intro hc
          simp at hc
    · rw [if_neg h13]
      by_cases h10 : c.m_read_buf.getD c.m_checked_idx 0 = 10
      · rw [if_pos h10]
        split <;> (intro hc; simp at hc)
      · rw [if_neg h10]
        intro hc
        obtain ⟨a, b⟩ := ih { c with m_checked_idx := c.m_checked_idx + 1 }
          (by show n = c.m_read_idx - (c.m_checked_idx + 1); omega) hc
        exact ⟨a, b⟩

/-- A second `parse_line()` right after a LINE_OPEN one returns LINE_OPEN and
changes nothing. -/
theorem parse_line_open_again (c : http_conn) (h : c.parse_line.1 = LINE_STATUS.LINE_OPEN) :
    c.parse_line.2.parse_line = (LINE_STATUS.LINE_OPEN, c.parse_line.2) := by
  obtain ⟨hs, hpos⟩ := parse_line_loop_open _ c rfl h
  generalize hd : c.parse_line.2 = d at hs hpos
  have hd2 : (parse_line_loop (c.m_read_idx - c.m_checked_idx) c).2 = d := hd
  rw [hd2] at hs hpos
  have hr : d.m_read_idx = c.m_read_idx := by rw [hs]
  have hb : d.m_read_buf = c.m_read_buf := by rw [hs]
  unfold parse_line
  rcases hpos with hge | ⟨hlast, hcr⟩
  · have : d.m_read_idx - d.m_checked_idx = 0 := by omega
    rw [this]
    rfl
  · have : d.m_read_idx - d.m_checked_idx = 1 := by omega
    rw [this]
    unfold parse_line_loop
    rw [if_pos (by omega)]
    dsimp only
    rw [hb, if_pos hcr, if_pos (by omega)]

theorem read_loop_scanned (k : Nat) (script : List recv_result) : ∀ c : http_conn,
    c.scanned_past k → (read_loop script c).2.scanned_past k := by
  induction script with
  | nil => intro c h; exact h
  | cons r rest ih =>
    intro c h
    cases r with
    | would_block => exact h
    | error => exact h
    | bytes bs =>
      unfold read_loop
      dsimp only
      split
      · exact h
      · apply ih
        obtain ⟨h1, h2, h3, h4⟩ := h
        refine ⟨h1, h2, ?_, ?_⟩
        · show c.m_checked_idx ≤ c.m_read_idx + _
          omega
        · show (put c.m_read_buf c.m_read_idx _).getD (k - 1) 0 ≠ 13
          rw [getD_put_below _ _ _ _ (by omega)]
          exact h4

theorem read_scanned (k : Nat) (script : List recv_result) (c : http_conn)
    (h : c.scanned_past k) : (c.read script).2.scanned_past k := by
  unfold read
  split
  · exact h
  · exact read_loop_scanned k script c h

theorem parse_request_line_scanned (k : Nat) (c : http_conn) (text : Nat)
    (h : c.scanned_past k) : (c.parse_request_line text).2.scanned_past k := by
  obtain ⟨h1, h2, h3, h4⟩ := h
  simp only [parse_request_line]
  repeat' split
  all_goals
    refine ⟨h1, h2, h3, ?_⟩
    first
      | exact h4
      | exact getD_set_zero_ne _ _ _ h4
      | exact getD_set_zero_ne _ _ _ (getD_set_zero_ne _ _ _ h4)

theorem parse_headers_scanned (k : Nat) (c : http_conn) (text : Nat)
    (h : c.scanned_past k) : (c.parse_headers text).2.scanned_past k := by
  obtain ⟨h1, h2, h3, h4⟩ := h
  simp only [parse_headers]
  repeat' split
  all_goals exact ⟨h1, h2, h3, h4⟩

theorem parse_content_scanned (k : Nat) (c : http_conn) (text : Nat)
    (r : HTTP_CODE × http_conn) (hr : c.parse_content text = some r)
    (h : c.scanned_past k) : r.2.scanned_past k := by
  obtain ⟨h1, h2, h3, h4⟩ := h
  simp only [parse_content] at hr
  split at hr
  · exact absurd hr (by simp)
  · split at hr
    · split at hr
      · rw [← Option.some.inj hr]
        exact ⟨h1, h2, h3, getD_set_zero_ne _ _ _ h4⟩
      · exact absurd hr (by simp)
    · rw [← Option.some.inj hr]
      exact ⟨h1, h2, h3, h4⟩

theorem do_request_scanned (k : Nat) (fs : file_system) (c : http_conn)
    (h : c.scanned_past k) : (c.do_request fs).2.scanned_past k := by
  obtain ⟨h1, h2, h3, h4⟩ := h
  simp only [do_request]
  repeat' split
  all_goals exact ⟨h1, h2, h3, h4⟩

/-- Every state reached without `init()` keeps `scanned_past k`. -/
theorem later_scanned (k : Nat) (c d : http_conn) (h : c.scanned_past k) (hl : c.later d) :
    d.scanned_past k := by
  induction hl with
  | refl => exact h
  | read d script _ ih => exact read_scanned k script d ih
  | parse_line d _ ih => exact (parse_line_loop_scanned k _ d ih).1
  | parse_request_line d text _ ih => exact parse_request_line_scanned k d text ih
  | parse_headers d text _ ih => exact parse_headers_scanned k d text ih
  | parse_content d text r _ hr ih => exact parse_content_scanned k d text r hr ih
  | do_request d fs _ ih => exact do_request_scanned k fs d ih
  | other d e _ hb hc hr ih =>
    obtain ⟨h1, h2, h3, h4⟩ := ih
    exact ⟨h1, by rw [hc]; exact h2, by rw [hc, hr]; exact h3, by rw [hb]; exact h4⟩

end http_conn

namespace http_conn

/-- The loop of `process_read` is a sequence of the steps of `later`. -/
theorem later_process_read_loop (fs : file_system) (c0 : http_conn) (fuel : Nat) :
    ∀ (ls : LINE_STATUS) (d : http_conn) (r : HTTP_CODE × http_conn),
    c0.later d → process_read_loop fs fuel ls d = some r → c0.later r.2 := by
  induction fuel with
  | zero =>
    intro ls d r _ h
    simp [process_read_loop] at h
  | succ n ih =>
    intro ls d r hd h
    simp only [process_read_loop] at h
    have hl : c0.later
        (if d.m_check_state = CHECK_STATE.CHECK_STATE_CONTENT ∧ ls = LINE_STATUS.LINE_OK
          then (ls, d) else d.parse_line).2 := by
      split
      · exact hd
      · exact later.parse_line d hd
    generalize (if d.m_check_state = CHECK_STATE.CHECK_STATE_CONTENT ∧ ls = LINE_STATUS.LINE_OK
      then (ls, d) else d.parse_line) = l at h hl
    by_cases hok : l.1 = LINE_STATUS.LINE_OK
    · rw [if_pos hok] at h
      generalize hs : l.2.m_check_state = s at h
      cases s with
      | CHECK_STATE_REQUESTLINE =>
        dsimp only at h
        split at h
        · rw [← Option.some.inj h]
          exact later.parse_request_line _ _ (later.other _ _ hl rfl rfl rfl)
        · refine ih _ _ _ ?_ h
          exact later.parse_request_line _ _ (later.other _ _ hl rfl rfl rfl)
      | CHECK_STATE_HEADER =>
        dsimp only at h
        split at h
        · rw [← Option.some.inj h]
          exact later.parse_headers _ _ (later.other _ _ hl rfl rfl rfl)
        · split at h
          · rw [← Option.some.inj h]
            exact later.do_request _ fs (later.parse_headers _ _ (later.other _ _ hl rfl rfl rfl))
          · refine ih _ _ _ ?_ h
            exact later.parse_headers _ _ (later.other _ _ hl rfl rfl rfl)
      | CHECK_STATE_CONTENT =>
        dsimp only at h
        generalize hp : parse_content _ l.2.m_start_line = p at h
        cases p with
        | none => exact absurd h (by simp)
        | some r1 =>
          dsimp only at h
          have hr1 : c0.later r1.2 := by
            refine later.parse_content _ _ r1 ?_ hp
            exact later.other _ _ hl rfl rfl rfl
          split at h
          · rw [← Option.some.inj h]
            exact later.do_request _ fs hr1
          · exact ih _ _ _ hr1 h
    · rw [if_neg hok] at h
      rw [← Option.some.inj h]
      exact hl

/-- The method `process_read()` is a sequence of the steps of `later`. -/
theorem later_process_read (fs : file_system) (c0 d : http_conn) (r : HTTP_CODE × http_conn)
    (hd : c0.later d) (h : d.process_read fs = some r) : c0.later r.2 :=
  later_process_read_loop fs c0 _ _ d r hd h

theorem add_response_read_side (c : http_conn) (s : List Nat) :
    (c.add_response s).2.m_read_buf = c.m_read_buf ∧
    (c.add_response s).2.m_checked_idx = c.m_checked_idx ∧
    (c.add_response s).2.m_read_idx = c.m_read_idx := by
  unfold add_response
  split <;> exact ⟨rfl, rfl, rfl⟩

theorem later_add_response (c0 x : http_conn) (s : List Nat) (hx : c0.later x) :
    c0.later (x.add_response s).2 :=
  later.other _ _ hx (add_response_read_side x s).1 (add_response_read_side x s).2.1
    (add_response_read_side x s).2.2

theorem later_add_status_line (c0 x : http_conn) (status : Int) (title : List Nat)
    (hx : c0.later x) : c0.later (x.add_status_line status title).2 :=
  later_add_response c0 x _ hx

theorem later_add_headers (c0 x : http_conn) (content_len : Int) (hx : c0.later x) :
    c0.later (x.add_headers content_len).2 := by
  have h1 : c0.later (x.add_content_length content_len).2 := later_add_response c0 x _ hx
  have h2 : c0.later (x.add_content_length content_len).2.add_content_type.2 :=
    later_add_response c0 _ _ h1
  have h3 : c0.later (x.add_content_length content_len).2.add_content_type.2.add_linger.2 :=
    later_add_response c0 _ _ h2
  exact later_add_response c0 _ _ h3

theorem later_single_descriptor (c0 x : http_conn) (hx : c0.later x) :
    c0.later x.single_descriptor.2 :=
  later.other _ _ hx rfl rfl rfl

theorem later_descriptors (c0 x : http_conn) (a b : iovec) (n : Nat) (t : Int)
    (hx : c0.later x) :
    c0.later { x with m_iv_0 := a, m_iv_1 := b, m_iv_count := n, bytes_to_send := t } :=
  later.other _ _ hx rfl rfl rfl

theorem later_error_response (c0 x : http_conn) (status : Int) (title form : List Nat)
    (hx : c0.later x) : c0.later (x.error_response status title form).single_descriptor.2 := by
  have h1 := later_add_status_line c0 x status title hx
  have h2 := later_add_headers c0 _ (wrap32 form.length) h1
  have h3 : c0.later (x.error_response status title form) := later_add_response c0 _ form h2
  exact later_single_descriptor c0 _ h3

/-- The method `process_write` leaves the read buffer, the cursor and the fill
index as they are: it is a step of `later`. -/
theorem later_process_write (c0 d : http_conn) (ret : HTTP_CODE) (hd : c0.later d) :
    c0.later (d.process_write ret).2 := by
  cases ret with
  | FILE_REQUEST =>
    have h1 := later_add_status_line c0 d 200 ok_200_title hd
    have h2 : c0.later d.file_headers := by
      unfold file_headers
      exact later_add_headers c0 _ _ h1
    rw [process_write_file]
    exact later_descriptors c0 _ _ _ _ _ h2
  | INTERNAL_ERROR => exact later_error_response c0 d _ _ _ hd
  | BAD_REQUEST => exact later_error_response c0 d _ _ _ hd
  | NO_RESOURCE => exact later_error_response c0 d _ _ _ hd
  | FORBIDDEN_REQUEST => exact later_error_response c0 d _ _ _ hd
  | NO_REQUEST => exact hd
  | GET_REQUEST => exact hd
  | CLOSED_CONNECTION => exact hd

/-- A `write()` that meets a would-block result leaves the read buffer, the
cursor and the fill index as they are: it is a step of `later`. -/
theorem later_write_would_block (c0 d : http_conn) (script : List send_result)
    (hd : c0.later d) (hne : d.bytes_to_send ≠ 0)
    (hb : send_ending_of script d.bytes_to_send = send_ending.would_block) :
    c0.later (d.write script).2 := by
  have hw : d.write script = d.write_loop script := by
    simp only [http_conn.write, if_neg hne]
  have h := ((http_conn.write_loop_outcome script d).1 hb).2.1
  rw [hw]
  unfold resumable_from at h
  exact later.other _ _ hd (by rw [h]) (by rw [h]) (by rw [h])

end http_conn

/-- C18: on a connection with `m_checked_idx ≤ m_read_idx`: if `parse_line`
returns LINE_OPEN it has changed the cursor only, and a second call right
after it returns LINE_OPEN again and changes nothing (cursor, `m_start_line`
and buffer included); if `parse_line` returns LINE_OK and leaves the cursor
`k`, then in every state reached later without `init()` a call that returns
LINE_OK leaves a cursor of at least `k + 2`, that is, its two-byte terminator
lies at an index not below `k`, and it changes no byte below `k`. -/
theorem line_scanner_idempotent (c : http_conn) (h : c.m_checked_idx ≤ c.m_read_idx) :
    (c.parse_line.1 = LINE_STATUS.LINE_OPEN →
      c.parse_line.2 = { c with m_checked_idx := c.parse_line.2.m_checked_idx } ∧
      c.parse_line.2.parse_line = (LINE_STATUS.LINE_OPEN, c.parse_line.2)) ∧
    (c.parse_line.1 = LINE_STATUS.LINE_OK →
      ∀ d : http_conn, c.parse_line.2.later d → d.parse_line.1 = LINE_STATUS.LINE_OK →
        c.parse_line.2.m_checked_idx ≤ d.parse_line.2.m_checked_idx - 2 ∧
        2 ≤ d.parse_line.2.m_checked_idx ∧
        ∀ j < c.parse_line.2.m_checked_idx,
          d.parse_line.2.m_read_buf.getD j 0 = d.m_read_buf.getD j 0) := by
  refine ⟨fun ho => ⟨(http_conn.parse_line_loop_open _ c rfl ho).1,
    http_conn.parse_line_open_again c ho⟩, fun hok d hd hok2 => ?_⟩
  have hk := http_conn.parse_line_loop_ok_scanned _ c h hok
  have hd2 := http_conn.later_scanned _ _ d hk hd
  obtain ⟨a, b⟩ := (http_conn.parse_line_loop_scanned _ _ d hd2).2 hok2
  have a2 : (http_conn.parse_line_loop (c.m_read_idx - c.m_checked_idx) c).2.m_checked_idx + 2
      ≤ d.parse_line.2.m_checked_idx := a
  have e : c.parse_line.2.m_checked_idx
      = (http_conn.parse_line_loop (c.m_read_idx - c.m_checked_idx) c).2.m_checked_idx := rfl
  refine ⟨by omega, by omega, fun j hj => b j hj⟩

/-- C18, two instances. After the 18 bytes of `partial_line` the scanner returns
LINE_OPEN with the cursor at 18, and so does a second call, which changes
nothing. After `sample_request`, whose first line ends at cursor 26, the call
that follows the handling of the request line returns LINE_OK for the
terminator at index 33, which is not below 26. -/
theorem line_scanner_idempotent_sample :
    ((fresh_conn.read [recv_result.bytes partial_line]).2.m_checked_idx
      ≤ (fresh_conn.read [recv_result.bytes partial_line]).2.m_read_idx) ∧
    (fresh_conn.read [recv_result.bytes partial_line]).2.parse_line.1 = LINE_STATUS.LINE_OPEN ∧
    (fresh_conn.read [recv_result.bytes partial_line]).2.parse_line.2.m_checked_idx = 18 ∧
    (fresh_conn.read [recv_result.bytes partial_line]).2.parse_line.2.parse_line
      = (LINE_STATUS.LINE_OPEN, (fresh_conn.read [recv_result.bytes partial_line]).2.parse_line.2) ∧
    (fresh_conn.read [recv_result.bytes sample_request]).2.parse_line.1 = LINE_STATUS.LINE_OK ∧
    (fresh_conn.read [recv_result.bytes sample_request]).2.parse_line.2.m_checked_idx = 26 ∧
    (((fresh_conn.read [recv_result.bytes sample_request]).2.parse_line.2.parse_request_line
      0).2.parse_line.1 = LINE_STATUS.LINE_OK) ∧
    (fresh_conn.read [recv_result.bytes sample_request]).2.parse_line.2.m_checked_idx
      ≤ ((fresh_conn.read [recv_result.bytes sample_request]).2.parse_line.2.parse_request_line
          0).2.parse_line.2.m_checked_idx - 2 :=
  ⟨by decide!, by decide!, by decide!,
    ((line_scanner_idempotent (fresh_conn.read [recv_result.bytes partial_line]).2
      (by decide!)).1 (by decide!)).2,
    by decide!, by decide!, by decide!,
    ((line_scanner_idempotent (fresh_conn.read [recv_result.bytes sample_request]).2
      (by decide!)).2 (by decide!) _
      (http_conn.later.parse_request_line _ 0 http_conn.later.refl) (by decide!)).1⟩

/-! ## Helper lemmas: one complete request on a reset connection -/

theorem getD_at (pre : List Nat) (x : Nat) (r : List Nat) :
    (pre ++ x :: r).getD pre.length 0 = x := by
  rw [List.getD_eq_getElem?_getD, List.getElem?_append_right (Nat.le_refl _)]
  simp

theorem set_at_cons (pre : List Nat) (x y : Nat) (r : List Nat) :
    (pre ++ x :: r).set pre.length y = pre ++ y :: r := by
  simp

theorem put_zeros_front (R : List Nat) (n : Nat) (h : R.length ≤ n) :
    put (zeros n) 0 R = R ++ zeros (n - R.length) := by
  unfold put zeros
  simp only [List.take_zero, List.nil_append, List.length_replicate, Nat.sub_zero, Nat.zero_add,
    List.drop_replicate]
  rw [List.take_of_length_le h]

namespace http_conn

/-- The method `read()` on a reset connection to which the socket delivers the
bytes `R`, which fit the buffer. -/
theorem read_after_init (c : http_conn) (R : List Nat) (h0 : 0 < R.length)
    (hfit : R.length ≤ READ_BUFFER_SIZE) :
    c.init.read [recv_result.bytes R, recv_result.would_block]
      = (true,
          { c.init with
            m_read_buf := R ++ zeros (READ_BUFFER_SIZE - R.length)
            m_read_idx := R.length }) := by
  have hi : c.init.m_read_idx = 0 := rfl
  have hb : c.init.m_read_buf = zeros READ_BUFFER_SIZE := rfl
  have hW : READ_BUFFER_SIZE = 2048 := rfl
  have htake : R.take (READ_BUFFER_SIZE - 0) = R := List.take_of_length_le (by omega)
  unfold read
  rw [if_neg (by rw [hi, hW]; omega)]
  unfold read_loop
  dsimp only
  rw [hi, htake, if_neg (by omega), hb, put_zeros_front R _ hfit, Nat.zero_add]
  rfl

end http_conn

/-- A readable event on a reset connection whose socket delivers the bytes `R`,
which fit the buffer: `read()` returns true and `process_read()` runs on the
buffer that holds `R`. -/
theorem on_readable_after_init (fs : file_system) (c : http_conn) (R : List Nat)
    (h0 : 0 < R.length) (hfit : R.length ≤ READ_BUFFER_SIZE) :
    on_readable fs R c.init
      = ({ c.init with
            m_read_buf := R ++ zeros (READ_BUFFER_SIZE - R.length)
            m_read_idx := R.length } : http_conn).process_read fs := by
  have hs : recv_script R (READ_BUFFER_SIZE - c.init.m_read_idx)
      = [recv_result.bytes R, recv_result.would_block] := by
    unfold recv_script
    rw [if_pos (by show R.length ≤ READ_BUFFER_SIZE - 0; omega)]
  unfold on_readable
  rw [hs, http_conn.read_after_init c R h0 hfit]
  rfl

namespace http_conn

/-- The scanner on a complete line: the cursor is at the first byte of a line
`L` without CR or LF that is followed by CR LF, all inside the bytes read. The
call returns LINE_OK, has replaced CR and LF by NUL and leaves the cursor just
behind them. -/
theorem parse_line_loop_complete (L : List Nat) :
    ∀ (pre rest : List Nat) (c : http_conn) (fuel : Nat),
    c.m_read_buf = pre ++ (L ++ 13 :: 10 :: rest) → c.m_checked_idx = pre.length →
    pre.length + L.length + 2 ≤ c.m_read_idx → (∀ b ∈ L, b ≠ 13 ∧ b ≠ 10) →
    L.length + 1 ≤ fuel →
    parse_line_loop fuel c
      = (LINE_STATUS.LINE_OK,
          { c with
            m_read_buf := pre ++ (L ++ 0 :: 0 :: rest)
            m_checked_idx := pre.length + L.length + 2 }) := by
  induction L with
  | nil =>
    intro pre rest c fuel hb hc hr _ hf
    obtain ⟨n, rfl⟩ : ∃ n, fuel = n + 1 := ⟨fuel - 1, by omega⟩
    simp only [List.nil_append, List.length_nil, Nat.add_zero] at hb hr ⊢
    unfold parse_line_loop
    have h13 : c.m_read_buf.getD c.m_checked_idx 0 = 13 := by
      rw [hb, hc]
      exact getD_at _ _ _
    have h10 : c.m_read_buf.getD (c.m_checked_idx + 1) 0 = 10 := by
      rw [hb, hc]
      have := getD_at (pre ++ [13]) 10 rest
      simpa using this
    have hset : (c.m_read_buf.set c.m_checked_idx 0).set (c.m_checked_idx + 1) 0
        = pre ++ 0 :: 0 :: rest := by
      rw [hb, hc, set_at_cons]
      simp
    rw [if_pos (by omega)]
    dsimp only
    rw [if_pos h13, if_neg (by omega), if_pos h10, hset, hc]
  | cons a L ih =>
    intro pre rest c fuel hb hc hr hL hf
    obtain ⟨n, rfl⟩ : ∃ n, fuel = n + 1 := ⟨fuel - 1, by omega⟩
    simp only [List.length_cons] at hr hf
    have ha := hL a (List.mem_cons_self _ _)
    have hg : c.m_read_buf.getD c.m_checked_idx 0 = a := by
      rw [hb, hc]
      exact getD_at _ _ _
    unfold parse_line_loop
    rw [if_pos (by omega)]
    dsimp only
    rw [hg, if_neg ha.1, if_neg ha.2]
    have := ih (pre ++ [a]) rest { c with m_checked_idx := c.m_checked_idx + 1 } n
      (by show c.m_read_buf = _; rw [hb]; simp)
      (by show c.m_checked_idx + 1 = _; rw [hc]; simp)
      (by show (pre ++ [a]).length + L.length + 2 ≤ c.m_read_idx; simp; omega)
      (fun b hb => hL b (List.mem_cons_of_mem _ hb)) (by omega)
    have e1 : pre ++ [a] ++ (L ++ 0 :: 0 :: rest) = pre ++ (a :: L ++ 0 :: 0 :: rest) := by simp
    have e2 : (pre ++ [a]).length + L.length + 2 = pre.length + (a :: L).length + 2 := by
      simp only [List.length_append, List.length_singleton, List.length_cons, List.length_nil]
      omega
    rw [this, e1, e2]

/-- The method `parse_line()` on a complete line. -/
theorem parse_line_complete (c : http_conn) (pre L rest : List Nat)
    (hb : c.m_read_buf = pre ++ (L ++ 13 :: 10 :: rest)) (hc : c.m_checked_idx = pre.length)
    (hr : pre.length + L.length + 2 ≤ c.m_read_idx) (hL : ∀ b ∈ L, b ≠ 13 ∧ b ≠ 10) :
    c.parse_line
      = (LINE_STATUS.LINE_OK,
          { c with
            m_read_buf := pre ++ (L ++ 0 :: 0 :: rest)
            m_checked_idx := pre.length + L.length + 2 }) :=
  parse_line_loop_complete L pre rest c _ hb hc hr hL (by omega)

/-- The result code of `do_request` by the entry that the lookup of the path
finds. -/
theorem do_request_code (fs : file_system) (c : http_conn) (u : Nat)
    (hlen : c.m_request_path.length = FILENAME_LEN)
    (hz : c.m_request_path.getD (FILENAME_LEN - 1) 0 = 0)
    (hu : c.m_url = some u) :
    (c.do_request fs).1 =
      match fs (lookup_path (cstr c.m_read_buf u)) with
      | none => HTTP_CODE.NO_RESOURCE
      | some e =>
        if e.st_mode &&& S_IROTH = 0 then HTTP_CODE.FORBIDDEN_REQUEST
        else if S_ISDIR e.st_mode then HTTP_CODE.BAD_REQUEST
        else HTTP_CODE.FILE_REQUEST := by
  have hp := request_path_string c.m_request_path (cstr c.m_read_buf u) hlen hz
    (cstr_nonzero _ _)
  unfold lookup_path
  rw [← hp]
  simp only [http_conn.do_request, hu]
  cases fs (cstr (put (put c.m_request_path 0 (doc_root ++ [0])) doc_root.length
      (strncpy_bytes (cstr c.m_read_buf u) (FILENAME_LEN - doc_root.length - 1))) 0) with
  | none => rfl
  | some e =>
    dsimp only
    split_ifs <;> rfl

end http_conn

namespace http_conn

/-- One pass of the loop of `process_read` in the REQUEST_LINE state, on a
complete line that `parse_request_line` accepts. -/
theorem process_read_loop_request_line (fs : file_system) (n : Nat) (ls : LINE_STATUS)
    (c l r : http_conn) (hs : c.m_check_state = CHECK_STATE.CHECK_STATE_REQUESTLINE)
    (hl : c.parse_line = (LINE_STATUS.LINE_OK, l))
    (hls : l.m_check_state = CHECK_STATE.CHECK_STATE_REQUESTLINE)
    (hr : ({ l with m_start_line := l.m_checked_idx } : http_conn).parse_request_line
      l.m_start_line = (HTTP_CODE.NO_REQUEST, r)) :
    process_read_loop fs (n + 1) ls c = process_read_loop fs n LINE_STATUS.LINE_OK r := by
  have hne : ¬ (c.m_check_state = CHECK_STATE.CHECK_STATE_CONTENT ∧ ls = LINE_STATUS.LINE_OK) := by
    rw [hs]
    simp
  simp only [process_read_loop, if_neg hne, hl, if_true]
  rw [hr]
  simp only [hls]
  rfl

/-- One pass of the loop of `process_read` in the HEADERS state, on the line
with which `parse_headers` completes the request. -/
theorem process_read_loop_headers_end (fs : file_system) (n : Nat) (ls : LINE_STATUS)
    (c l r : http_conn) (hs : c.m_check_state = CHECK_STATE.CHECK_STATE_HEADER)
    (hl : c.parse_line = (LINE_STATUS.LINE_OK, l))
    (hls : l.m_check_state = CHECK_STATE.CHECK_STATE_HEADER)
    (hr : ({ l with m_start_line := l.m_checked_idx } : http_conn).parse_headers
      l.m_start_line = (HTTP_CODE.GET_REQUEST, r)) :
    process_read_loop fs (n + 1) ls c = some (r.do_request fs) := by
  have hne : ¬ (c.m_check_state = CHECK_STATE.CHECK_STATE_CONTENT ∧ ls = LINE_STATUS.LINE_OK) := by
    rw [hs]
    simp
  simp only [process_read_loop, if_neg hne, hl, if_true]
  rw [hr]
  simp only [hls]
  rfl

end http_conn

/-! ## Docroot confinement -/

/-- C12, a counterexample: the target `/../secret.txt` holds a `..` segment and
`doc_root ++ target` normalizes to a path outside the document root, where the
file system has a world-readable regular file. The request yields
FILE_REQUEST, not BAD_REQUEST, and the file is mapped for the response. -/
theorem traversal_request_is_served :
    normalized doc_root = [str "home", str "pawcook", str "webserver", str "resources"] ∧
    normalized (doc_root ++ escape_target)
      = [str "home", str "pawcook", str "webserver", str "secret.txt"] ∧
    escapes_root escape_target = true ∧
    escapes_root (str "/index.html") = false ∧
    code_of (on_readable escape_site escape_request fresh_conn)
      = some HTTP_CODE.FILE_REQUEST ∧
    (on_readable escape_site escape_request fresh_conn).map (fun r => r.2.m_file_address)
      = some (some (str "secret")) := by
  decide!

/-- C12 as amended: the target of a GET is never normalized or examined for
`..` segments. For every target `T` that begins with `/` and holds no space,
tab, NUL, CR or LF, the request `GET T HTTP/1.1` followed by the blank line,
received in one piece on a reset connection, gets the result that the lookup
of `doc_root` followed by (at most 166 bytes of) `T` determines: NO_RESOURCE
when nothing is found, FORBIDDEN_REQUEST when the entry is not world-readable,
BAD_REQUEST when it is a directory, FILE_REQUEST otherwise, whether or not the
path leaves the document root. -/
theorem get_result_by_lookup (fs : file_system) (c : http_conn) (T : List Nat)
    (hT : T.head? = some 47)
    (hTs : ∀ b ∈ T, b ≠ 32 ∧ b ≠ 9 ∧ b ≠ 0 ∧ b ≠ 13 ∧ b ≠ 10)
    (hlen : T.length + 17 ≤ READ_BUFFER_SIZE) :
    code_of (on_readable fs (str "GET " ++ T ++ str " HTTP/1.1\r\n\r\n") c.init)
      = some
          (match fs (lookup_path T) with
          | none => HTTP_CODE.NO_RESOURCE
          | some e =>
            if e.st_mode &&& S_IROTH = 0 then HTTP_CODE.FORBIDDEN_REQUEST
            else if S_ISDIR e.st_mode then HTTP_CODE.BAD_REQUEST
            else HTTP_CODE.FILE_REQUEST) := by
  have hW : READ_BUFFER_SIZE = 2048 := rfl
  have hGl : (str "GET").length = 3 := by decide
  have hVl : (str "HTTP/1.1").length = 8 := by decide
  have hT0 : ∀ b ∈ T, b ≠ 0 := fun b hb => (hTs b hb).2.2.1
  have hTs3 : ∀ b ∈ T, b ≠ 32 ∧ b ≠ 9 ∧ b ≠ 0 :=
    fun b hb => ⟨(hTs b hb).1, (hTs b hb).2.1, (hTs b hb).2.2.1⟩
  have hn : ¬ strncasecmp T (str "http://") 7 = 0 := by
    cases T with
    | nil => simp at hT
    | cons a T1 =>
      have ha : a = 47 := by simpa using hT
      have : str "http://" = [104, 116, 116, 112, 58, 47, 47] := by decide
      rw [ha, this]
      simp [strncasecmp, strcasecmp, tolower]
  have hg47 : ∀ rest : List Nat,
      (([] : List Nat) ++ (str "GET" ++ 0 :: (T ++ 0 :: rest))).getD
        (([] : List Nat).length + 3 + 1) 0 = 47 := by
    intro rest
    have := getD_after [] (str "GET") 0 (T ++ 0 :: rest) 0
    rw [hGl] at this
    rw [this]
    cases T with
    | nil => simp at hT
    | cons a T1 =>
      have ha : a = 47 := by simpa using hT
      rw [ha]
      rfl
  -- the request: one line, its terminator, the terminator of the blank line
  have hR : str "GET " ++ T ++ str " HTTP/1.1\r\n\r\n"
      = (str "GET" ++ 32 :: (T ++ 32 :: str "HTTP/1.1")) ++ 13 :: 10 :: [13, 10] := by
    have h1 : str "GET " = str "GET" ++ [32] := by decide
    have h2 : str " HTTP/1.1\r\n\r\n" = 32 :: (str "HTTP/1.1" ++ [13, 10, 13, 10]) := by decide
    rw [h1, h2]
    simp
  generalize str "GET " ++ T ++ str " HTTP/1.1\r\n\r\n" = R at hR
  have hL1l : (str "GET" ++ 32 :: (T ++ 32 :: str "HTTP/1.1")).length = T.length + 13 := by
    simp only [List.length_append, List.length_cons, hGl, hVl]
    omega
  have hRl : R.length = T.length + 17 := by
    rw [hR, List.length_append, hL1l]
    rfl
  have hL1 : ∀ b ∈ str "GET" ++ 32 :: (T ++ 32 :: str "HTTP/1.1"), b ≠ 13 ∧ b ≠ 10 := by
    intro b hb
    rcases List.mem_append.1 hb with h | h
    · exact (by decide : ∀ b ∈ str "GET", b ≠ 13 ∧ b ≠ 10) b h
    · rcases List.mem_cons.1 h with h | h
      · rw [h]
        decide
      · rcases List.mem_append.1 h with h | h
        · exact ⟨(hTs b h).2.2.2.1, (hTs b h).2.2.2.2⟩
        · rcases List.mem_cons.1 h with h | h
          · rw [h]
            decide
          · exact (by decide : ∀ b ∈ str "HTTP/1.1", b ≠ 13 ∧ b ≠ 10) b h
  unfold code_of
  rw [on_readable_after_init fs c R (by omega) (by omega)]
  generalize hZ : zeros (READ_BUFFER_SIZE - R.length) = Z
  generalize hc1 : ({ c.init with m_read_buf := R ++ Z, m_read_idx := R.length } : http_conn) = c1
  have f_buf : c1.m_read_buf
      = [] ++ ((str "GET" ++ 32 :: (T ++ 32 :: str "HTTP/1.1")) ++ 13 :: 10 :: (13 :: 10 :: Z)) := by
    rw [← hc1]
    show R ++ Z = _
    rw [hR]
    simp
  have f_idx : c1.m_read_idx = R.length := by rw [← hc1]
  have f_chk : c1.m_checked_idx = ([] : List Nat).length := by rw [← hc1]; rfl
  have f_sl : c1.m_start_line = ([] : List Nat).length := by rw [← hc1]; rfl
  have f_st : c1.m_check_state = CHECK_STATE.CHECK_STATE_REQUESTLINE := by rw [← hc1]; rfl
  have f_cl : c1.m_content_length = 0 := by rw [← hc1]; rfl
  have f_rp : c1.m_request_path = zeros FILENAME_LEN := by rw [← hc1]; rfl
  clear hc1
  unfold http_conn.process_read
  rw [f_idx, f_chk, show 2 * (R.length - ([] : List Nat).length) + 3
    = (2 * R.length + 1) + 1 + 1 from by simp only [List.length_nil]; omega]
  generalize 2 * R.length + 1 = n
  -- first pass: the request line
  have hp1 := http_conn.parse_line_complete c1 [] _ _ f_buf f_chk
    (by rw [f_idx, hRl, hL1l]; simp) hL1
  generalize hl1 : ({ c1 with
      m_read_buf := [] ++ ((str "GET" ++ 32 :: (T ++ 32 :: str "HTTP/1.1")) ++
        0 :: 0 :: (13 :: 10 :: Z))
      m_checked_idx := ([] : List Nat).length
        + (str "GET" ++ 32 :: (T ++ 32 :: str "HTTP/1.1")).length + 2 } : http_conn) = l1 at hp1
  have g_buf : l1.m_read_buf
      = [] ++ (str "GET" ++ 32 :: (T ++ 32 :: (str "HTTP/1.1" ++ 0 :: (0 :: 13 :: 10 :: Z)))) := by
    rw [← hl1]
    simp
  have g_idx : l1.m_read_idx = R.length := by rw [← hl1]; exact f_idx
  have g_chk : l1.m_checked_idx = T.length + 15 := by
    rw [← hl1]
    show ([] : List Nat).length + _ + 2 = _
    rw [hL1l]
    simp
  have g_sl : l1.m_start_line = ([] : List Nat).length := by rw [← hl1]; exact f_sl
  have g_st : l1.m_check_state = CHECK_STATE.CHECK_STATE_REQUESTLINE := by rw [← hl1]; exact f_st
  have g_cl : l1.m_content_length = 0 := by rw [← hl1]; exact f_cl
  have g_rp : l1.m_request_path = zeros FILENAME_LEN := by rw [← hl1]; exact f_rp
  clear hl1
  -- the request line is accepted
  have hprl := parse_request_line_shape
    ({ l1 with m_start_line := l1.m_checked_idx } : http_conn) [] T (0 :: 13 :: 10 :: Z) 32 32
    (Or.inl rfl) (Or.inl rfl) hTs3 g_buf
  rw [if_neg hn] at hprl
  dsimp only at hprl
  rw [if_neg (not_not.mpr (hg47 _))] at hprl
  rw [← g_sl] at hprl
  obtain ⟨r1, hr1, k_buf, k_idx, k_chk, k_sl, k_st, k_cl, k_rp, k_url⟩ :
      ∃ r1 : http_conn,
        ({ l1 with m_start_line := l1.m_checked_idx } : http_conn).parse_request_line
          l1.m_start_line = (HTTP_CODE.NO_REQUEST, r1) ∧
        r1.m_read_buf = [] ++ (str "GET" ++ 0 :: (T ++ 0 :: (str "HTTP/1.1" ++
          0 :: (0 :: 13 :: 10 :: Z)))) ∧
        r1.m_read_idx = R.length ∧ r1.m_checked_idx = T.length + 15 ∧
        r1.m_start_line = T.length + 15 ∧
        r1.m_check_state = CHECK_STATE.CHECK_STATE_HEADER ∧ r1.m_content_length = 0 ∧
        r1.m_request_path = zeros FILENAME_LEN ∧ r1.m_url = some 4 :=
    ⟨_, hprl, rfl, g_idx, g_chk, g_chk, rfl, g_cl, g_rp,
      by show some (l1.m_start_line + 3 + 1) = some 4; rw [g_sl]; rfl⟩
  rw [http_conn.process_read_loop_request_line fs (n + 1) _ c1 l1 r1 f_st hp1 g_st hr1]
  clear hprl hr1 hp1
  -- second pass: the blank line
  have hpre2 : (str "GET" ++ 0 :: (T ++ 0 :: (str "HTTP/1.1" ++ [0, 0]))).length
      = T.length + 15 := by
    simp only [List.length_append, List.length_cons, List.length_nil, hGl, hVl]
    omega
  have k_buf2 : r1.m_read_buf
      = (str "GET" ++ 0 :: (T ++ 0 :: (str "HTTP/1.1" ++ [0, 0]))) ++ ([] ++ 13 :: 10 :: Z) := by
    rw [k_buf]
    simp
  have hp2 := http_conn.parse_line_complete r1 _ [] Z k_buf2 (by rw [k_chk, hpre2])
    (by rw [k_idx, hRl, hpre2]; simp) (by simp)
  generalize hl2 : ({ r1 with
      m_read_buf := (str "GET" ++ 0 :: (T ++ 0 :: (str "HTTP/1.1" ++ [0, 0]))) ++
        ([] ++ 0 :: 0 :: Z)
      m_checked_idx := (str "GET" ++ 0 :: (T ++ 0 :: (str "HTTP/1.1" ++ [0, 0]))).length
        + ([] : List Nat).length + 2 } : http_conn) = l2 at hp2
  have m_buf : l2.m_read_buf
      = (str "GET" ++ 0 :: (T ++ 0 :: (str "HTTP/1.1" ++ [0, 0]))) ++ 0 :: 0 :: Z := by
    rw [← hl2]
    rfl
  have m_sl : l2.m_start_line
      = (str "GET" ++ 0 :: (T ++ 0 :: (str "HTTP/1.1" ++ [0, 0]))).length := by
    rw [← hl2, hpre2]
    exact k_sl
  have m_st : l2.m_check_state = CHECK_STATE.CHECK_STATE_HEADER := by rw [← hl2]; exact k_st
  have m_cl : l2.m_content_length = 0 := by rw [← hl2]; exact k_cl
  have m_rp : l2.m_request_path = zeros FILENAME_LEN := by rw [← hl2]; exact k_rp
  have m_url : l2.m_url = some 4 := by rw [← hl2]; exact k_url
  clear hl2
  have hph : ({ l2 with m_start_line := l2.m_checked_idx } : http_conn).parse_headers
      l2.m_start_line
      = (HTTP_CODE.GET_REQUEST, { l2 with m_start_line := l2.m_checked_idx }) := by
    have h0 : l2.m_read_buf.getD l2.m_start_line 0 = 0 := by
      rw [m_buf, m_sl]
      exact getD_at _ _ _
    unfold http_conn.parse_headers
    dsimp only
    rw [if_pos h0, if_neg (not_not.mpr m_cl)]
  rw [http_conn.process_read_loop_headers_end fs n _ r1 l2 _ k_st hp2 m_st hph]
  -- the lookup
  have hcs : cstr l2.m_read_buf 4 = T := by
    rw [m_buf]
    have h1 : (str "GET" ++ 0 :: (T ++ 0 :: (str "HTTP/1.1" ++ [0, 0]))) ++ 0 :: 0 :: Z
        = [] ++ (str "GET" ++ 0 :: (T ++ 0 :: (str "HTTP/1.1" ++ [0, 0] ++ 0 :: 0 :: Z))) := by
      simp
    have h2 := cstr_after [] (str "GET") 0 (T ++ 0 :: (str "HTTP/1.1" ++ [0, 0] ++ 0 :: 0 :: Z)) 0
    rw [hGl] at h2
    rw [h1]
    show cstr _ (([] : List Nat).length + 3 + 1 + 0) = T
    rw [h2]
    exact cstr_of_terminated T _ hT0
  have hcode := http_conn.do_request_code fs
    ({ l2 with m_start_line := l2.m_checked_idx } : http_conn) 4
    (by show l2.m_request_path.length = _; rw [m_rp]; rfl)
    (by show l2.m_request_path.getD _ 0 = 0; rw [m_rp]; rfl) m_url
  show some (({ l2 with m_start_line := l2.m_checked_idx } : http_conn).do_request fs).1 = _
  rw [hcode]
  show some (match fs (lookup_path (cstr l2.m_read_buf 4)) with
    | none => HTTP_CODE.NO_RESOURCE
    | some e =>
      if e.st_mode &&& S_IROTH = 0 then HTTP_CODE.FORBIDDEN_REQUEST
      else if S_ISDIR e.st_mode then HTTP_CODE.BAD_REQUEST
      else HTTP_CODE.FILE_REQUEST) = _
  rw [hcs]

/-- C12 as amended, an instance: the request for `/../secret.txt` on
`escape_site`; the lookup finds the file outside the root and the result is
FILE_REQUEST. -/
theorem get_result_by_lookup_sample :
    escape_target.head? = some 47 ∧
    escape_site (lookup_path escape_target)
      = some { st_mode := regular_0644, data := str "secret" } ∧
    code_of (on_readable escape_site (str "GET " ++ escape_target ++ str " HTTP/1.1\r\n\r\n")
        http_conn.unset.init)
      = some HTTP_CODE.FILE_REQUEST :=
  ⟨by decide, by decide,
    get_result_by_lookup escape_site http_conn.unset escape_target (by decide) (by decide)
      (by decide)⟩

/-! ## The scanner on a complete line, by indices -/

theorem takeWhile_eq_take (n : Nat) : ∀ l : List Nat,
    (∀ j < n, l.getD j 0 ≠ 0) → l.getD n 0 = 0 →
    l.takeWhile (fun b => b != 0) = l.take n := by
  induction n with
  | zero =>
    intro l _ h0
    cases l with
    | nil => rfl
    | cons a t =>
      have ha : a = 0 := h0
      rw [ha]
      rfl
  | succ n ih =>
    intro l hl h0
    cases l with
    | nil => rfl
    | cons a t =>
      have ha : a ≠ 0 := hl 0 (Nat.succ_pos _)
      have hb : (a != 0) = true := by simpa using ha
      rw [List.takeWhile_cons, hb, List.take_succ_cons]
      simp only [if_true]
      rw [ih t (fun j hj => hl (j + 1) (Nat.succ_lt_succ hj)) h0]

namespace http_conn

theorem parse_line_loop_at (d : Nat) : ∀ (c : http_conn) (i fuel : Nat),
    i = c.m_checked_idx + d → i + 1 < c.m_read_idx →
    c.m_read_buf.getD i 0 = 13 → c.m_read_buf.getD (i + 1) 0 = 10 →
    (∀ j, c.m_checked_idx ≤ j → j < i →
      c.m_read_buf.getD j 0 ≠ 13 ∧ c.m_read_buf.getD j 0 ≠ 10) →
    d + 1 ≤ fuel →
    parse_line_loop fuel c
      = (LINE_STATUS.LINE_OK,
          { c with
            m_read_buf := (c.m_read_buf.set i 0).set (i + 1) 0
            m_checked_idx := i + 2 }) := by
  induction d with
  | zero =>
    intro c i fuel hi hr hcr hlf _ hf
    obtain ⟨n, rfl⟩ : ∃ n, fuel = n + 1 := ⟨fuel - 1, by omega⟩
    have hi0 : i = c.m_checked_idx := by omega
    subst hi0
    unfold parse_line_loop
    rw [if_pos (by omega)]
    dsimp only
    rw [if_pos hcr, if_neg (by omega), if_pos hlf]
  | succ d ih =>
    intro c i fuel hi hr hcr hlf hplain hf
    obtain ⟨n, rfl⟩ : ∃ n, fuel = n + 1 := ⟨fuel - 1, by omega⟩
    have hp := hplain c.m_checked_idx (Nat.le_refl _) (by omega)
    unfold parse_line_loop
    rw [if_pos (by omega)]
    dsimp only
    rw [if_neg hp.1, if_neg hp.2]
    have := ih { c with m_checked_idx := c.m_checked_idx + 1 } i n
      (by show i = c.m_checked_idx + 1 + d; omega) hr hcr hlf
      (fun j hj1 hj2 => hplain j (by have : c.m_checked_idx + 1 ≤ j := hj1; omega) hj2)
      (by omega)
    rw [this]

end http_conn

/-- C24: the bytes `read_buf[m_checked_idx..m_read_idx)` hold a `\r` at index
`i` with no `\r` or `\n` before it in that range, and `read_buf[i+1]` is `\n`
with `i + 1 < m_read_idx`. Then `parse_line` returns LINE_OK, the bytes at `i`
and `i + 1` are NUL afterwards, no other byte of the buffer and no other
field is changed, and `m_checked_idx = i + 2`; so the bytes from
`m_start_line` up to `i` are the original ones and are followed by NUL, and
when they hold no NUL themselves they are the C string at `m_start_line`. -/
theorem parse_line_on_complete_line (c : http_conn) (i : Nat)
    (hlo : c.m_checked_idx ≤ i) (hhi : i + 1 < c.m_read_idx)
    (hcr : c.m_read_buf.getD i 0 = 13) (hlf : c.m_read_buf.getD (i + 1) 0 = 10)
    (hplain : ∀ j, c.m_checked_idx ≤ j → j < i →
      c.m_read_buf.getD j 0 ≠ 13 ∧ c.m_read_buf.getD j 0 ≠ 10) :
    c.parse_line.1 = LINE_STATUS.LINE_OK ∧
    c.parse_line.2
      = { c with
          m_read_buf := (c.m_read_buf.set i 0).set (i + 1) 0
          m_checked_idx := i + 2 } ∧
    c.parse_line.2.m_checked_idx = i + 2 ∧
    c.parse_line.2.m_read_buf.getD i 0 = 0 ∧
    c.parse_line.2.m_read_buf.getD (i + 1) 0 = 0 ∧
    (∀ j, j ≠ i → j ≠ i + 1 →
      c.parse_line.2.m_read_buf.getD j 0 = c.m_read_buf.getD j 0) ∧
    c.parse_line.2.m_read_buf.length = c.m_read_buf.length ∧
    (c.m_start_line ≤ i →
      (c.parse_line.2.m_read_buf.drop c.m_start_line).take (i - c.m_start_line)
        = (c.m_read_buf.drop c.m_start_line).take (i - c.m_start_line) ∧
      ((∀ j, c.m_start_line ≤ j → j < i → c.m_read_buf.getD j 0 ≠ 0) →
        cstr c.parse_line.2.m_read_buf c.parse_line.2.m_start_line
          = (c.m_read_buf.drop c.m_start_line).take (i - c.m_start_line))) := by
  have hpl : c.parse_line
      = (LINE_STATUS.LINE_OK,
          { c with
            m_read_buf := (c.m_read_buf.set i 0).set (i + 1) 0
            m_checked_idx := i + 2 }) :=
    http_conn.parse_line_loop_at (i - c.m_checked_idx) c i _ (by omega) hhi hcr hlf hplain
      (by omega)
  have hi : i < c.m_read_buf.length := by
    by_contra hge
    rw [List.getD_eq_getElem?_getD, List.getElem?_eq_none (by omega)] at hcr
    exact absurd hcr (by decide)
  have hother : ∀ j, j ≠ i → j ≠ i + 1 →
      ((c.m_read_buf.set i 0).set (i + 1) 0).getD j 0 = c.m_read_buf.getD j 0 := by
    intro j h1 h2
    rw [getD_set_of_ne _ _ _ _ (Ne.symm h2), getD_set_of_ne _ _ _ _ (Ne.symm h1)]
  have hzero : ((c.m_read_buf.set i 0).set (i + 1) 0).getD i 0 = 0 := by
    rw [getD_set_of_ne _ _ _ _ (by omega), getD_set_zero_self]
  have htake : ∀ s, s ≤ i →
      (((c.m_read_buf.set i 0).set (i + 1) 0).drop s).take (i - s)
        = (c.m_read_buf.drop s).take (i - s) := by
    intro s _
    apply List.ext_getElem?
    intro j
    by_cases hj : j < i - s
    · rw [List.getElem?_take_of_lt hj, List.getElem?_take_of_lt hj, List.getElem?_drop,
        List.getElem?_drop, List.getElem?_set_ne (by omega), List.getElem?_set_ne (by omega)]
    · rw [List.getElem?_take_eq_none (by omega), List.getElem?_take_eq_none (by omega)]
  rw [hpl]
  refine ⟨rfl, rfl, rfl, hzero, getD_set_zero_self _ _, hother, ?_, fun hs => ⟨htake _ hs, ?_⟩⟩
  · show ((c.m_read_buf.set i 0).set (i + 1) 0).length = _
    rw [List.length_set, List.length_set]
  · intro hnz
    show cstr ((c.m_read_buf.set i 0).set (i + 1) 0) c.m_start_line = _
    unfold cstr
    rw [takeWhile_eq_take (i - c.m_start_line) _ ?_ ?_, htake _ hs]
    · intro j hj
      rw [List.getD_eq_getElem?_getD, List.getElem?_drop, ← List.getD_eq_getElem?_getD,
        hother _ (by omega) (by omega)]
      exact hnz _ (by omega) (by omega)
    · rw [List.getD_eq_getElem?_getD, List.getElem?_drop, ← List.getD_eq_getElem?_getD,
        show c.m_start_line + (i - c.m_start_line) = i by omega]
      exact hzero

/-- C24, an instance: after the first 30 bytes of `sample_request` the `\r` of
the first line is at index 24; `parse_line` returns LINE_OK, leaves the cursor
at 26 and the request line as the C string at offset 0. -/
theorem parse_line_on_complete_line_sample :
    line_and_a_bit.m_checked_idx ≤ 24 ∧ 24 + 1 < line_and_a_bit.m_read_idx ∧
    line_and_a_bit.parse_line.1 = LINE_STATUS.LINE_OK ∧
    line_and_a_bit.parse_line.2.m_checked_idx = 24 + 2 ∧
    cstr line_and_a_bit.parse_line.2.m_read_buf 0 = str "GET /index.html HTTP/1.1" :=
  have h := parse_line_on_complete_line line_and_a_bit 24 (by decide!) (by decide!) (by decide!)
    (by decide!)
    (fun j _ hj => by
      have hall : ∀ k < 24,
          line_and_a_bit.m_read_buf.getD k 0 ≠ 13 ∧ line_and_a_bit.m_read_buf.getD k 0 ≠ 10 := by
        decide!
      exact hall j hj)
  ⟨by decide!, by decide!, h.1, h.2.2.1, by decide!⟩

/-! ## The cursor invariant -/

namespace http_conn

theorem read_loop_cursor (script : List recv_result) : ∀ c : http_conn, c.cursor_inv →
    (read_loop script c).2.cursor_inv ∧
    (read_loop script c).2.m_checked_idx = c.m_checked_idx ∧
    c.m_read_idx ≤ (read_loop script c).2.m_read_idx ∧
    ∀ j < c.m_read_idx, (read_loop script c).2.m_read_buf.getD j 0 = c.m_read_buf.getD j 0 := by
  induction script with
  | nil => intro c h; exact ⟨h, rfl, Nat.le_refl _, fun _ _ => rfl⟩
  | cons r rest ih =>
    intro c h
    cases r with
    | would_block => exact ⟨h, rfl, Nat.le_refl _, fun _ _ => rfl⟩
    | error => exact ⟨h, rfl, Nat.le_refl _, fun _ _ => rfl⟩
    | bytes bs =>
      unfold read_loop
      dsimp only
      split
      · exact ⟨h, rfl, Nat.le_refl _, fun _ _ => rfl⟩
      · have hgot : (bs.take (READ_BUFFER_SIZE - c.m_read_idx)).length
            ≤ READ_BUFFER_SIZE - c.m_read_idx := by
          rw [List.length_take]
          exact Nat.min_le_left _ _
        obtain ⟨a, b, d, e⟩ := ih
          { c with
            m_read_buf := put c.m_read_buf c.m_read_idx (bs.take (READ_BUFFER_SIZE - c.m_read_idx))
            m_read_idx := c.m_read_idx + (bs.take (READ_BUFFER_SIZE - c.m_read_idx)).length }
          ⟨Nat.le_trans h.1 (Nat.le_add_right _ _), by
            show c.m_read_idx + _ ≤ READ_BUFFER_SIZE
            have := h.2
            omega⟩
        refine ⟨a, b, Nat.le_trans (Nat.le_add_right _ _) d, fun j hj => ?_⟩
        rw [e j (Nat.lt_of_lt_of_le hj (Nat.le_add_right _ _))]
        exact getD_put_below _ _ _ _ hj

theorem read_cursor (script : List recv_result) (c : http_conn) (h : c.cursor_inv) :
    (c.read script).2.cursor_inv ∧
    (c.read script).2.m_checked_idx = c.m_checked_idx ∧
    c.m_read_idx ≤ (c.read script).2.m_read_idx ∧
    ∀ j < c.m_read_idx, (c.read script).2.m_read_buf.getD j 0 = c.m_read_buf.getD j 0 := by
  unfold read
  split
  · exact ⟨h, rfl, Nat.le_refl _, fun _ _ => rfl⟩
  · exact read_loop_cursor script c h

theorem parse_line_loop_cursor (fuel : Nat) : ∀ c : http_conn,
    c.m_checked_idx ≤ c.m_read_idx →
    (parse_line_loop fuel c).2.m_checked_idx ≤ (parse_line_loop fuel c).2.m_read_idx ∧
    (parse_line_loop fuel c).2.m_read_idx = c.m_read_idx ∧
    c.m_checked_idx ≤ (parse_line_loop fuel c).2.m_checked_idx := by
  induction fuel with
  | zero => intro c h; exact ⟨h, rfl, Nat.le_refl _⟩
  | succ n ih =>
    intro c hc
    have h := ih { c with m_checked_idx := c.m_checked_idx + 1 }
    simp only [parse_line_loop] at h ⊢
    repeat' split
    all_goals first
      | exact ⟨hc, rfl, Nat.le_refl _⟩
      | (refine ⟨?_, rfl, ?_⟩ <;> (try dsimp only) <;> omega)
      | (obtain ⟨h1, h2, h3⟩ := h (by omega)
         exact ⟨h1, h2, by omega⟩)

theorem do_request_cursor (fs : file_system) (c : http_conn) :
    (c.do_request fs).2.m_read_idx = c.m_read_idx ∧
    (c.do_request fs).2.m_checked_idx = c.m_checked_idx := by
  simp only [do_request]
  repeat' split
  all_goals exact ⟨rfl, rfl⟩

/-- Every state reached without `init()` keeps the cursor invariant, and the
cursor has not moved back. -/
theorem later_cursor (c d : http_conn) (h : c.cursor_inv) (hl : c.later d) :
    d.cursor_inv ∧ c.m_checked_idx ≤ d.m_checked_idx := by
  induction hl with
  | refl => exact ⟨h, Nat.le_refl _⟩
  | read d script _ ih =>
    obtain ⟨a, b, _, _⟩ := read_cursor script d ih.1
    exact ⟨a, by rw [b]; exact ih.2⟩
  | parse_line d _ ih =>
    obtain ⟨a, b, e⟩ := parse_line_loop_cursor (d.m_read_idx - d.m_checked_idx) d ih.1.1
    have b1 : d.parse_line.2.m_read_idx = d.m_read_idx := b
    exact ⟨⟨a, by rw [b1]; exact ih.1.2⟩, Nat.le_trans ih.2 e⟩
  | parse_request_line d text _ ih =>
    obtain ⟨a, b, _⟩ := parse_request_line_cursor d text
    exact ⟨⟨by rw [a, b]; exact ih.1.1, by rw [a]; exact ih.1.2⟩, by rw [b]; exact ih.2⟩
  | parse_headers d text _ ih =>
    obtain ⟨a, b⟩ := parse_headers_cursor d text
    exact ⟨⟨by rw [a, b]; exact ih.1.1, by rw [a]; exact ih.1.2⟩, by rw [b]; exact ih.2⟩
  | parse_content d text r _ hr ih =>
    obtain ⟨a, b, _⟩ := parse_content_cursor d text r hr
    exact ⟨⟨by rw [a, b]; exact ih.1.1, by rw [a]; exact ih.1.2⟩, by rw [b]; exact ih.2⟩
  | do_request d fs _ ih =>
    obtain ⟨a, b⟩ := do_request_cursor fs d
    exact ⟨⟨by rw [a, b]; exact ih.1.1, by rw [a]; exact ih.1.2⟩, by rw [b]; exact ih.2⟩
  | other d e _ hb hc hr ih =>
    exact ⟨⟨by rw [hc, hr]; exact ih.1.1, by rw [hr]; exact ih.1.2⟩, by rw [hc]; exact ih.2⟩

end http_conn

/-! ## Partial sends of an error response -/

/-- A pass of the loop of `write()` in which `writev` accepts nothing, on a
state that the accounting of such a pass leaves as it is and that has bytes
pending: the loop goes round with the same state, any number of times. -/
theorem http_conn.write_loop_zero_sends (c : http_conn) (h : c.account 0 = c)
    (hp : 0 < c.bytes_to_send) (rest : List send_result) :
    ∀ k : Nat, c.write_loop (List.replicate k (send_result.sent 0) ++ rest)
      = c.write_loop rest := by
  intro k
  induction k with
  | zero => rfl
  | succ k ih =>
    rw [List.replicate_succ, List.cons_append, http_conn.write_loop_sent, h,
      if_neg (by omega)]
    exact ih

/-- C26, at the failing input: the 159-byte response to BAD_REQUEST, one
descriptor. `writev` accepts 100 bytes; the descriptor then covers the 59
bytes left, correctly. `writev` accepts 10 more; now `bytes_have_send = 110` is
compared with the length 59 of the shrunk descriptor, the branch for a
finished header is taken and the descriptor gets length 0 while 49 bytes are
still to be sent. Every further `writev` is offered nothing and accepts
nothing, and each such pass leaves the state as it is: the loop does not
terminate and bytes 110..158 are never transmitted. -/
theorem partial_send_stalls_error_response :
    bad_request_ready.m_iv_count = 1 ∧ bad_request_ready.m_write_idx = 159 ∧
    bad_request_ready.bytes_to_send = 159 ∧
    bad_request_ready.pending = some (bad_request_ready.m_write_buf.take 159) ∧
    (bad_request_ready.account 100).pending
      = some ((bad_request_ready.m_write_buf.take 159).drop 100) ∧
    (bad_request_ready.account 100).m_iv_0.iov_len = 59 ∧
    bad_request_stalled.bytes_have_send = 110 ∧ bad_request_stalled.bytes_to_send = 49 ∧
    bad_request_stalled.m_iv_count = 1 ∧ bad_request_stalled.m_iv_0.iov_len = 0 ∧
    bad_request_stalled.pending = some [] ∧
    bad_request_stalled.pending ≠ some ((bad_request_ready.m_write_buf.take 159).drop 110) ∧
    bad_request_stalled.account 0 = bad_request_stalled ∧
    (∀ (k : Nat) (rest : List send_result),
      bad_request_ready.write
          (send_result.sent 100 :: send_result.sent 10 ::
            (List.replicate k (send_result.sent 0) ++ rest))
        = bad_request_stalled.write_loop rest) := by
  have hfix : bad_request_stalled.account 0 = bad_request_stalled := by decide!
  have hpos : 0 < bad_request_stalled.bytes_to_send := by decide!
  refine ⟨by decide!, by decide!, by decide!, by decide!, by decide!, by decide!, by decide!,
    by decide!, by decide!, by decide!, by decide!, by decide!, hfix, fun k rest => ?_⟩
  have h1 : bad_request_ready.write
      (send_result.sent 100 :: send_result.sent 10 ::
        (List.replicate k (send_result.sent 0) ++ rest))
      = bad_request_stalled.write_loop (List.replicate k (send_result.sent 0) ++ rest) := by
    have hne : ¬ bad_request_ready.bytes_to_send = 0 := by decide!
    have ha : ¬ (bad_request_ready.account 100).bytes_to_send ≤ 0 := by decide!
    have hb : ¬ ((bad_request_ready.account 100).account 10).bytes_to_send ≤ 0 := by decide!
    unfold http_conn.write
    rw [if_neg hne, http_conn.write_loop_sent, if_neg ha, http_conn.write_loop_sent, if_neg hb]
    rfl
  rw [h1]
  exact http_conn.write_loop_zero_sends _ hfix hpos rest k

/-! ## The store of `parse_content` -/

/-- C27, at the failing input: the request `negative_length_request` carries
`Content-Length: -100` and is 50 bytes long. After three passes (request line,
Content-Length line, blank line) `process_read` is in the BODY state with
`m_start_line = m_checked_idx = m_read_idx = 50` and `m_content_length = -100`.
The fourth pass calls `parse_content(text)` with `text` at offset 50; the test
`m_read_idx >= m_content_length + m_checked_idx` holds, so the NUL is stored at
index `50 + (-100) = -50`, which is below 0: outside the read buffer. The
store has no defined behaviour, and so `parse_content`, the pass and the whole
`process_read` of this request have no defined result. -/
theorem body_terminator_index_negative :
    ((fresh_conn.read [recv_result.bytes negative_length_request,
        recv_result.would_block]).2.after_passes small_site 3 LINE_STATUS.LINE_OK).map
        (fun r => (r.1, r.2.position))
      = some (LINE_STATUS.LINE_OK, (CHECK_STATE.CHECK_STATE_CONTENT, 50, 50, 50, -100)) ∧
    negative_length_at_body.position = (CHECK_STATE.CHECK_STATE_CONTENT, 50, 50, 50, -100) ∧
    negative_length_at_body.cursor_inv ∧
    (negative_length_at_body.m_read_idx : Int)
      ≥ negative_length_at_body.m_content_length + (negative_length_at_body.m_checked_idx : Int) ∧
    ({ negative_length_at_body with
        m_start_line := negative_length_at_body.m_checked_idx } : http_conn).content_end
        negative_length_at_body.m_start_line = -50 ∧
    ¬ (0 ≤ ({ negative_length_at_body with
        m_start_line := negative_length_at_body.m_checked_idx } : http_conn).content_end
        negative_length_at_body.m_start_line) ∧
    ({ negative_length_at_body with
        m_start_line := negative_length_at_body.m_checked_idx } : http_conn).parse_content
        negative_length_at_body.m_start_line = none ∧
    negative_length_at_body.process_read_pass small_site LINE_STATUS.LINE_OK
      = pass_result.undefined ∧
    (fresh_conn.read [recv_result.bytes negative_length_request,
        recv_result.would_block]).1 = true ∧
    (fresh_conn.read [recv_result.bytes negative_length_request,
        recv_result.would_block]).2.process_read small_site = none ∧
    on_readable small_site negative_length_request fresh_conn = none := by
  refine ⟨by decide!, by decide!, ⟨by decide!, by decide!⟩, by decide!, by decide!, by decide!,
    by decide!, by decide!, by decide!, by decide!, by decide!⟩

/-! ## The header block on the wire -/

theorem header_block_bytes (n : Nat) (linger : Bool) :
    header_block (n : Int) linger
      = str "Content-Length: " ++ fmt_d (n : Int) ++ str "\r\n"
          ++ str "Content-Type:text/html\r\n"
          ++ str "Connection: " ++ (if linger = true then str "keep-alive" else str "close")
          ++ str "\r\n" ++ str "\r\n" := by
  cases linger <;> simp [header_block, str]

theorem written_of_wrote (c c1 : http_conn) (t status body : List Nat) (n : Nat)
    (h : http_conn.wrote c c1 t)
    (ht : t = status ++ header_block (n : Int) c.m_linger ++ body) :
    c1.m_write_buf.take c1.m_write_idx
      = status
        ++ (str "Content-Length: " ++ fmt_d (n : Int) ++ str "\r\n"
            ++ str "Content-Type:text/html\r\n"
            ++ str "Connection: "
            ++ (if c.m_linger = true then str "keep-alive" else str "close")
            ++ str "\r\n" ++ str "\r\n")
        ++ body := by
  obtain ⟨_, hidx, htext, _⟩ := h
  rw [hidx, htext, ht, header_block_bytes]

theorem written_error_reply (c c1 : http_conn) (t status body : List Nat) (n : Nat)
    (h : http_conn.wrote c c1 t)
    (ht : t = status ++ header_block (n : Int) c.m_linger ++ body) :
    written_header_block c1.single_descriptor status n c.m_linger body :=
  ⟨rfl, written_of_wrote c c1 t status body n h ht⟩

/-- C22, a counterexample: in the response to BAD_REQUEST on a fresh
connection the 65 bytes between the 26-byte status line and the 68-byte body
are `Content-Length: 68\r\nContent-Type:text/html\r\nConnection: close\r\n\r\n`;
the block of the claim, with a space after `Content-Type:`, is one byte longer
and differs from them. -/
theorem content_type_has_no_space :
    bad_request_ready.m_write_idx = 159 ∧
    bad_request_ready.m_write_buf.take 26 = str "HTTP/1.1 400 Bad Request\r\n" ∧
    (bad_request_ready.m_write_buf.take 159).drop (26 + 65) = error_400_form ∧
    ((bad_request_ready.m_write_buf.take 159).drop 26).take 65
      = str "Content-Length: 68\r\nContent-Type:text/html\r\nConnection: close\r\n\r\n" ∧
    claimed_header_block 68 false
      = str "Content-Length: 68\r\nContent-Type: text/html\r\nConnection: close\r\n\r\n" ∧
    ((bad_request_ready.m_write_buf.take 159).drop 26).take 65 ≠ claimed_header_block 68 false ∧
    ((bad_request_ready.m_write_buf.take 159).drop 26).take (claimed_header_block 68 false).length
      ≠ claimed_header_block 68 false := by
  decide!

/-- C22 as amended: on a connection whose write buffer is empty, for each of
the five results that `process_write` accepts, the bytes written between the
status line and the body are exactly
`Content-Length: <n>\r\nContent-Type:text/html\r\nConnection: <v>\r\n\r\n`, with
no space after `Content-Type:`; `n` is the decimal length of the body (of the
literal error text, or the size of the file, below 2^31, whose bytes are not
in the write buffer) and `<v>` is `keep-alive` when the keep-alive flag is set
and `close` otherwise. -/
theorem header_block_wire_format (c : http_conn) (h0 : c.m_write_idx = 0)
    (hlen : c.m_write_buf.length = WRITE_BUFFER_SIZE) :
    written_header_block (c.process_write HTTP_CODE.INTERNAL_ERROR)
      (str "HTTP/1.1 500 Internal Error\r\n") error_500_form.length c.m_linger error_500_form ∧
    written_header_block (c.process_write HTTP_CODE.BAD_REQUEST)
      (str "HTTP/1.1 400 Bad Request\r\n") error_400_form.length c.m_linger error_400_form ∧
    written_header_block (c.process_write HTTP_CODE.NO_RESOURCE)
      (str "HTTP/1.1 404 Not Found\r\n") error_404_form.length c.m_linger error_404_form ∧
    written_header_block (c.process_write HTTP_CODE.FORBIDDEN_REQUEST)
      (str "HTTP/1.1 403 Forbidden\r\n") error_403_form.length c.m_linger error_403_form ∧
    (c.m_file_stat.st_size < 2 ^ 31 →
      written_header_block (c.process_write HTTP_CODE.FILE_REQUEST)
        (str "HTTP/1.1 200 OK\r\n") c.m_file_stat.st_size c.m_linger []) := by
  refine ⟨?_, ?_, ?_, ?_, fun hS => ?_⟩
  · exact written_error_reply c _ _ _ _ _
      (http_conn.error_response_wrote c 500 error_500_title error_500_form h0 hlen (by decide))
      (by
        have e1 : status_line 500 error_500_title = str "HTTP/1.1 500 Internal Error\r\n" := by decide
        have e2 : wrap32 (error_500_form.length : Int) = (error_500_form.length : Int) := by decide
        rw [e1, e2])
  · exact written_error_reply c _ _ _ _ _
      (http_conn.error_response_wrote c 400 error_400_title error_400_form h0 hlen (by decide))
      (by
        have e1 : status_line 400 error_400_title = str "HTTP/1.1 400 Bad Request\r\n" := by decide
        have e2 : wrap32 (error_400_form.length : Int) = (error_400_form.length : Int) := by decide
        rw [e1, e2])
  · exact written_error_reply c _ _ _ _ _
      (http_conn.error_response_wrote c 404 error_404_title error_404_form h0 hlen (by decide))
      (by
        have e1 : status_line 404 error_404_title = str "HTTP/1.1 404 Not Found\r\n" := by decide
        have e2 : wrap32 (error_404_form.length : Int) = (error_404_form.length : Int) := by decide
        rw [e1, e2])
  · exact written_error_reply c _ _ _ _ _
      (http_conn.error_response_wrote c 403 error_403_title error_403_form h0 hlen (by decide))
      (by
        have e1 : status_line 403 error_403_title = str "HTTP/1.1 403 Forbidden\r\n" := by decide
        have e2 : wrap32 (error_403_form.length : Int) = (error_403_form.length : Int) := by decide
        rw [e1, e2])
  · have h := file_reply_wrote c c.m_file_stat.st_size h0 hlen rfl hS
    have e1 : status_line 200 ok_200_title = str "HTTP/1.1 200 OK\r\n" := by decide
    have hw := written_of_wrote c c.file_headers _ (str "HTTP/1.1 200 OK\r\n") [] _ h
      (by rw [e1, List.append_nil])
    unfold written_header_block
    rw [process_write_file]
    exact ⟨rfl, hw⟩

/-- C22 as amended, an instance: the response to `sample_request`, which asks
for keep-alive, on `small_site`: status line, then
`Content-Length: 37\r\nContent-Type:text/html\r\nConnection: keep-alive\r\n\r\n`. -/
theorem header_block_wire_format_sample :
    sample_parsed.m_write_idx = 0 ∧
    sample_parsed.m_write_buf.length = WRITE_BUFFER_SIZE ∧
    sample_parsed.m_linger = true ∧ sample_parsed.m_file_stat.st_size = 37 ∧
    written_header_block (sample_parsed.process_write HTTP_CODE.FILE_REQUEST)
      (str "HTTP/1.1 200 OK\r\n") sample_parsed.m_file_stat.st_size sample_parsed.m_linger [] ∧
    (sample_parsed.process_write HTTP_CODE.FILE_REQUEST).2.m_write_buf.take 87
      = str "HTTP/1.1 200 OK\r\n"
        ++ str "Content-Length: 37\r\nContent-Type:text/html\r\nConnection: keep-alive\r\n\r\n" :=
  ⟨by decide!, by decide!, by decide!, by decide!,
    (header_block_wire_format sample_parsed (by decide!) (by decide!)).2.2.2.2 (by decide!),
    by decide!⟩

/-! ## The server: every schedule keeps the invariant -/

theorem count_set_of_get {α : Type} [DecidableEq α] (x a b : α) :
    ∀ (l : List α) (i : Nat), l[i]? = some a →
      (l.set i b).count x + (if a = x then 1 else 0)
        = l.count x + (if b = x then 1 else 0) := by
  intro l
  induction l with
  | nil => intro i h; simp at h
  | cons h t ih =>
    intro i hi
    cases i with
    | zero =>
      have : h = a := by simpa using hi
      subst this
      simp only [List.set_cons_zero, List.count_cons, beq_iff_eq]
      omega
    | succ i =>
      have hi2 : t[i]? = some a := by simpa using hi
      have := ih i hi2
      simp only [List.set_cons_succ, List.count_cons, beq_iff_eq]
      omega

theorem two_of_count {α : Type} [DecidableEq α] (a : α) :
    ∀ (l : List α) (i j : Nat), l[i]? = some a → l[j]? = some a → i ≠ j → 2 ≤ l.count a := by
  intro l
  induction l with
  | nil => intro i j h; simp at h
  | cons h t ih =>
    intro i j hi hj hne
    have hmem : ∀ k : Nat, t[k]? = some a → 1 ≤ t.count a := by
      intro k hk
      have : a ∈ t := List.mem_iff_getElem?.2 ⟨k, hk⟩
      exact List.count_pos_iff.2 this
    cases i with
    | zero =>
      have hh : h = a := by simpa using hi
      cases j with
      | zero => exact absurd rfl hne
      | succ j =>
        have hj2 : t[j]? = some a := by simpa using hj
        have := hmem j hj2
        simp only [List.count_cons, hh, beq_self_eq_true, if_true]
        omega
    | succ i =>
      have hi2 : t[i]? = some a := by simpa using hi
      cases j with
      | zero =>
        have hh : h = a := by simpa using hj
        have := hmem i hi2
        simp only [List.count_cons, hh, beq_self_eq_true, if_true]
        omega
      | succ j =>
        have hj2 : t[j]? = some a := by simpa using hj
        have := ih i j hi2 hj2 (by omega)
        simp only [List.count_cons]
        omega

theorem count_set_gain {α : Type} [DecidableEq α] (x a b : α) (l : List α) (i : Nat)
    (h : l[i]? = some a) (ha : a ≠ x) (hb : b = x) : (l.set i b).count x = l.count x + 1 := by
  have := count_set_of_get x a b l i h
  rw [if_neg ha, if_pos hb] at this
  omega

theorem count_set_keep {α : Type} [DecidableEq α] (x a b : α) (l : List α) (i : Nat)
    (h : l[i]? = some a) (ha : a ≠ x) (hb : b ≠ x) : (l.set i b).count x = l.count x := by
  have := count_set_of_get x a b l i h
  rw [if_neg ha, if_neg hb] at this
  omega

theorem count_set_loss {α : Type} [DecidableEq α] (x a b : α) (l : List α) (i : Nat)
    (h : l[i]? = some a) (ha : a = x) (hb : b ≠ x) : (l.set i b).count x + 1 = l.count x := by
  have := count_set_of_get x a b l i h
  rw [if_pos ha, if_neg hb] at this
  omega

namespace server

theorem set_fd_same (fds : Nat → fd_state) (r : Nat) (v : fd_state) : set_fd fds r v r = v := by
  unfold set_fd
  rw [if_pos rfl]

theorem set_fd_other (fds : Nat → fd_state) (r x : Nat) (v : fd_state) (h : x ≠ r) :
    set_fd fds r v x = fds x := by
  unfold set_fd
  rw [if_neg h]

theorem start_inv (p : threadpool) (hq : p.m_workqueue = []) : (start p).inv := by
  refine ⟨?_, ?_, fun r => ?_⟩
  · show ([] : List (Nat × Nat)).map _ ++ p.m_workqueue = ([] : List Nat).map some
    rw [hq]
    rfl
  · show 0 + (List.replicate p.m_thread_number.toNat worker_pc.waiting).count worker_pc.woken + 0
      = p.m_workqueue.length
    rw [hq, List.count_replicate]
    simp
  · show p.m_workqueue.count (some r)
      + (List.replicate p.m_thread_number.toNat worker_pc.waiting).count (worker_pc.processing r)
      ≤ _
    rw [hq, List.count_replicate]
    simp

/-- A change of the registration of `r` that keeps the bound of `r`. -/
theorem inv_set_fd (s : server) (r : Nat) (v : fd_state) (h : s.inv)
    (hv : s.fds r ≠ fd_state.disarmed ∨ v = fd_state.disarmed) :
    ({ s with fds := set_fd s.fds r v } : server).inv := by
  obtain ⟨h1, h2, h3⟩ := h
  refine ⟨h1, h2, fun x => ?_⟩
  show s.pool.m_workqueue.count (some x) + s.workers.count (worker_pc.processing x)
    ≤ (if set_fd s.fds r v x = fd_state.disarmed then 1 else 0)
  by_cases hx : x = r
  · subst hx
    rw [set_fd_same]
    have := h3 x
    rcases hv with hv | hv
    · rw [if_neg hv] at this
      omega
    · rw [if_pos hv]
      split at this <;> omega
  · rw [set_fd_other _ _ _ _ hx]
    exact h3 x

theorem step_inv (s : server) (a : action) (h : s.inv) : (s.step a).inv := by
  cases a with
  | accept r =>
    simp only [step]
    split
    · rename_i hc
      exact inv_set_fd s r _ h (Or.inl (by rw [hc]; decide))
    · exact h
  | hangup r =>
    simp only [step]
    split
    · rename_i hc
      exact inv_set_fd s r _ h (Or.inl (by rw [hc]; decide))
    · exact h
  | readable r read_ok =>
    simp only [step]
    split
    swap
    · exact h
    rename_i harmed
    split
    swap
    · exact inv_set_fd s r _ h (Or.inl (by rw [harmed]; decide))
    by_cases hfull : s.pool.m_workqueue.length ≥ size_t_of s.pool.m_max_requests
    · have ha : s.pool.append (some r) = (false, s.pool) := by
        simp only [threadpool.append, if_pos hfull]
      rw [ha]
      simp only [Bool.false_eq_true, if_false]
      exact inv_set_fd s r _ h (Or.inr rfl)
    · have ha : s.pool.append (some r)
          = (true, { s.pool with m_workqueue := s.pool.m_workqueue ++ [some r] }) := by
        simp only [threadpool.append, if_neg hfull]
      rw [ha]
      simp only [if_true]
      obtain ⟨h1, h2, h3⟩ := h
      refine ⟨?_, ?_, fun x => ?_⟩
      · show s.started.map (fun e => some e.2) ++ (s.pool.m_workqueue ++ [some r])
          = (s.accepted ++ [r]).map some
        rw [← List.append_assoc, h1, List.map_append]
        rfl
      · show s.sem + s.workers.count worker_pc.woken + (s.posts + 1)
          = (s.pool.m_workqueue ++ [some r]).length
        rw [List.length_append, List.length_singleton]
        omega
      · show (s.pool.m_workqueue ++ [some r]).count (some x)
            + s.workers.count (worker_pc.processing x)
          ≤ (if set_fd s.fds r fd_state.disarmed x = fd_state.disarmed then 1 else 0)
        rw [List.count_append, List.count_singleton]
        have hx := h3 x
        by_cases hxr : x = r
        · subst hxr
          rw [set_fd_same, if_pos rfl]
          rw [harmed, if_neg (by decide)] at hx
          simp only [beq_self_eq_true, if_true]
          omega
        · rw [set_fd_other _ _ _ _ hxr]
          have hne : ((some r : Option Nat) == some x) = false := by
            simp
            exact fun e => hxr e.symm
          rw [hne]
          simp only [Bool.false_eq_true, if_false]
          omega
  | post =>
    simp only [step]
    split
    · rename_i hc
      obtain ⟨h1, h2, h3⟩ := h
      refine ⟨h1, ?_, h3⟩
      show s.sem + 1 + s.workers.count worker_pc.woken + (s.posts - 1)
        = s.pool.m_workqueue.length
      omega
    · exact h
  | wait w =>
    simp only [step]
    split
    · rename_i hc
      obtain ⟨h1, h2, h3⟩ := h
      have c1 := count_set_gain worker_pc.woken worker_pc.waiting worker_pc.woken
        s.workers w hc.1 (by decide) rfl
      refine ⟨h1, ?_, fun x => ?_⟩
      · show s.sem - 1 + (s.workers.set w worker_pc.woken).count worker_pc.woken + s.posts
          = s.pool.m_workqueue.length
        have := hc.2
        omega
      · have c2 := count_set_keep (worker_pc.processing x) worker_pc.waiting worker_pc.woken
          s.workers w hc.1 (by simp) (by simp)
        show s.pool.m_workqueue.count (some x)
            + (s.workers.set w worker_pc.woken).count (worker_pc.processing x)
          ≤ (if s.fds x = fd_state.disarmed then 1 else 0)
        rw [c2]
        exact h3 x
    · exact h
  | take w =>
    simp only [step]
    split
    swap
    · exact h
    rename_i hc
    obtain ⟨h1, h2, h3⟩ := h
    have hwoken : 1 ≤ s.workers.count worker_pc.woken :=
      List.count_pos_iff.2 (List.mem_iff_getElem?.2 ⟨w, hc⟩)
    cases hq : s.pool.m_workqueue with
    | nil =>
      rw [hq] at h2
      simp only [List.length_nil] at h2
      omega
    | cons q rest =>
      have hqmem : q ∈ s.accepted.map some := by
        rw [← h1, hq]
        exact List.mem_append_right _ (List.mem_cons_self _ _)
      obtain ⟨r, _, hr⟩ := List.mem_map.1 hqmem
      subst hr
      have hp : s.pool.pop = (some (some r), { s.pool with m_workqueue := rest }) := by
        simp only [threadpool.pop, hq]
      rw [hp]
      dsimp only
      have c1 := count_set_loss worker_pc.woken worker_pc.woken (worker_pc.processing r)
        s.workers w hc rfl (by simp)
      refine ⟨?_, ?_, fun x => ?_⟩
      · show (s.started ++ [(w, r)]).map (fun e => some e.2) ++ rest = s.accepted.map some
        rw [← h1, hq, List.map_append, List.append_assoc]
        rfl
      · show s.sem + (s.workers.set w (worker_pc.processing r)).count worker_pc.woken + s.posts
          = rest.length
        rw [hq, List.length_cons] at h2
        omega
      · show rest.count (some x)
            + (s.workers.set w (worker_pc.processing r)).count (worker_pc.processing x)
          ≤ (if s.fds x = fd_state.disarmed then 1 else 0)
        have hx := h3 x
        rw [hq, List.count_cons] at hx
        by_cases hxr : x = r
        · subst hxr
          have c2 := count_set_gain (worker_pc.processing x) worker_pc.woken
            (worker_pc.processing x) s.workers w hc (by simp) rfl
          simp only [beq_self_eq_true, if_true] at hx
          omega
        · have hne : ((some r : Option Nat) == some x) = false := by
            simp
            exact fun e => hxr e.symm
          have c2 := count_set_keep (worker_pc.processing x) worker_pc.woken
            (worker_pc.processing r) s.workers w hc (by simp)
            (by simp; exact fun e => hxr e.symm)
          rw [hne] at hx
          simp only [Bool.false_eq_true, if_false] at hx
          omega
  | finish w closes =>
    simp only [step]
    split
    swap
    · exact h
    rename_i r hc
    obtain ⟨h1, h2, h3⟩ := h
    have c1 := count_set_keep worker_pc.woken (worker_pc.processing r) worker_pc.waiting
      s.workers w hc (by simp) (by decide)
    refine ⟨h1, ?_, fun x => ?_⟩
    · show s.sem + (s.workers.set w worker_pc.waiting).count worker_pc.woken + s.posts
        = s.pool.m_workqueue.length
      omega
    · show s.pool.m_workqueue.count (some x)
          + (s.workers.set w worker_pc.waiting).count (worker_pc.processing x)
        ≤ (if set_fd s.fds r (if closes = true then fd_state.closed else fd_state.armed) x
            = fd_state.disarmed then 1 else 0)
      have hx := h3 x
      by_cases hxr : x = r
      · subst hxr
        have c2 := count_set_loss (worker_pc.processing x) (worker_pc.processing x)
          worker_pc.waiting s.workers w hc rfl (by simp)
        have hb : s.pool.m_workqueue.count (some x) + s.workers.count (worker_pc.processing x)
            ≤ 1 := by
          split at hx <;> omega
        omega
      · have c2 := count_set_keep (worker_pc.processing x) (worker_pc.processing r)
          worker_pc.waiting s.workers w hc (by simp; exact fun e => hxr e.symm) (by simp)
        rw [set_fd_other _ _ _ _ hxr, c2]
        exact hx

theorem run_inv (sched : List action) : ∀ s : server, s.inv → (run sched s).inv := by
  induction sched with
  | nil => intro s h; exact h
  | cons a rest ih => intro s h; exact ih _ (step_inv s a h)

end server

namespace server

theorem step_workers_length (s : server) (a : action) :
    (s.step a).workers.length = s.workers.length := by
  cases a <;> simp only [step] <;> repeat' split
  all_goals first
    | rfl
    | exact List.length_set _ _ _

theorem run_workers_length (sched : List action) : ∀ s : server,
    (run sched s).workers.length = s.workers.length := by
  induction sched with
  | nil => intro s; rfl
  | cons a rest ih => intro s; exact (ih _).trans (step_workers_length s a)

end server

/-- C23: a pool that the constructor built, any number of workers, and any
schedule of the steps of the main loop and of the workers (every
interleaving). At every moment the handles for which a worker has begun
`process()`, in the order of these calls, followed by the handles still
queued, are exactly the handles of the `append` calls that returned true, in
their order: each enqueued reference is taken by one worker, once, and none
is taken that was not enqueued. No two workers are inside `process()` for the
same connection, and a connection inside `process()` is not in the queue. A
non-empty queue always has a token (a `post` still owed, a semaphore count or
a woken worker), and a woken worker that runs takes the front request and
passes it to `process()`. -/
theorem exactly_once_processing (thread_number max_requests : Int) (p : threadpool)
    (hp : threadpool.create thread_number max_requests = some p) (sched : List action) :
    (server.run sched (server.start p)).started.map (fun e => some e.2)
        ++ (server.run sched (server.start p)).pool.m_workqueue
      = (server.run sched (server.start p)).accepted.map some ∧
    (∀ (w1 w2 r : Nat),
      (server.run sched (server.start p)).workers[w1]? = some (worker_pc.processing r) →
      (server.run sched (server.start p)).workers[w2]? = some (worker_pc.processing r) →
      w1 = w2) ∧
    (∀ (w r : Nat),
      (server.run sched (server.start p)).workers[w]? = some (worker_pc.processing r) →
      some r ∉ (server.run sched (server.start p)).pool.m_workqueue) ∧
    ((server.run sched (server.start p)).pool.m_workqueue ≠ [] →
      0 < (server.run sched (server.start p)).posts ∨
      0 < (server.run sched (server.start p)).sem ∨
      worker_pc.woken ∈ (server.run sched (server.start p)).workers) ∧
    (∀ (w r : Nat) (rest : List (Option Nat)),
      (server.run sched (server.start p)).workers[w]? = some worker_pc.woken →
      (server.run sched (server.start p)).pool.m_workqueue = some r :: rest →
      ((server.run sched (server.start p)).step (action.take w)).started
          = (server.run sched (server.start p)).started ++ [(w, r)] ∧
        ((server.run sched (server.start p)).step (action.take w)).pool.m_workqueue = rest ∧
        ((server.run sched (server.start p)).step (action.take w)).workers[w]?
          = some (worker_pc.processing r)) ∧
    (server.run sched (server.start p)).workers.length = thread_number.toNat := by
  have hpq : p.m_workqueue = [] ∧ p.m_thread_number = thread_number := by
    unfold threadpool.create at hp
    split at hp
    · exact absurd hp (by simp)
    · rw [← Option.some.inj hp]
      exact ⟨rfl, rfl⟩
  have hinv := server.run_inv sched (server.start p) (server.start_inv p hpq.1)
  have hlen := server.run_workers_length sched (server.start p)
  generalize server.run sched (server.start p) = s at hinv hlen ⊢
  obtain ⟨h1, h2, h3⟩ := hinv
  refine ⟨h1, fun w1 w2 r hw1 hw2 => ?_, fun w r hw hmem => ?_, fun hne => ?_,
    fun w r rest hw hq => ?_, ?_⟩
  · by_contra hne
    have h2c := two_of_count (worker_pc.processing r) s.workers w1 w2 hw1 hw2 hne
    have := h3 r
    split at this <;> omega
  · have hc1 : 1 ≤ s.workers.count (worker_pc.processing r) :=
      List.count_pos_iff.2 (List.mem_iff_getElem?.2 ⟨w, hw⟩)
    have hc2 : 1 ≤ s.pool.m_workqueue.count (some r) := List.count_pos_iff.2 hmem
    have := h3 r
    split at this <;> omega
  · have hpos : 0 < s.pool.m_workqueue.length := List.length_pos.2 hne
    by_cases hposts : 0 < s.posts
    · exact Or.inl hposts
    · by_cases hsem : 0 < s.sem
      · exact Or.inr (Or.inl hsem)
      · exact Or.inr (Or.inr (List.count_pos_iff.1 (by omega)))
  · have hpop : s.pool.pop = (some (some r), { s.pool with m_workqueue := rest }) := by
      simp only [threadpool.pop, hq]
    simp only [server.step, hw, if_true, hpop]
    refine ⟨trivial, trivial, ?_⟩
    have hlt : w < s.workers.length := by
      by_contra hge
      rw [List.getElem?_eq_none (by omega)] at hw
      exact absurd hw (by simp)
    rw [List.getElem?_set_eq_of_lt _ hlt]
  · rw [hlen]
    show (List.replicate p.m_thread_number.toNat worker_pc.waiting).length = _
    rw [List.length_replicate, hpq.2]

/-- C23, an instance: a pool of two workers under `sample_schedule`. The calls
of `process()` begun are for connection 5 in worker 0, for 6 in worker 1 and
again for 5 in worker 0; the second event of connection 6, reported while
worker 1 is busy with it, is not seen, because its descriptor is disarmed. -/
theorem exactly_once_processing_sample :
    threadpool.create 2 3
      = some { m_thread_number := 2, m_max_requests := 3, m_workqueue := [], m_stop := false } ∧
    (server.run sample_schedule (server.start
      { m_thread_number := 2, m_max_requests := 3, m_workqueue := [], m_stop := false })).started
      = [(0, 5), (1, 6), (0, 5)] ∧
    (server.run sample_schedule (server.start
      { m_thread_number := 2, m_max_requests := 3, m_workqueue := [], m_stop := false })).accepted
      = [5, 6, 5] ∧
    (server.run sample_schedule (server.start
      { m_thread_number := 2, m_max_requests := 3, m_workqueue := [], m_stop := false })).workers
      = [worker_pc.processing 5, worker_pc.processing 6] ∧
    (server.run sample_schedule (server.start
      { m_thread_number := 2, m_max_requests := 3, m_workqueue := [], m_stop := false
        })).started.map (fun e => some e.2)
        ++ (server.run sample_schedule (server.start
          { m_thread_number := 2, m_max_requests := 3, m_workqueue := [], m_stop := false
            })).pool.m_workqueue
      = (server.run sample_schedule (server.start
          { m_thread_number := 2, m_max_requests := 3, m_workqueue := [], m_stop := false
            })).accepted.map some :=
  ⟨by decide, by decide!, by decide!, by decide!,
    (exactly_once_processing 2 3 _ (by decide) sample_schedule).1⟩

/-! ## Header lines that do not start a body -/

namespace http_conn

/-- On a non-empty line that is not a Content-Length line `parse_headers`
returns NO_REQUEST and changes at most the keep-alive flag and `m_host`. -/
theorem parse_headers_plain (c : http_conn) (text : Nat)
    (h0 : c.m_read_buf.getD text 0 ≠ 0)
    (hcl : strncasecmp (cstr c.m_read_buf text) (str "Content-Length:") 15 ≠ 0) :
    (c.parse_headers text).1 = HTTP_CODE.NO_REQUEST ∧
    (c.parse_headers text).2
      = { c with
          m_linger := (c.parse_headers text).2.m_linger
          m_host := (c.parse_headers text).2.m_host } := by
  unfold parse_headers
  rw [if_neg h0]
  by_cases h1 : strncasecmp (cstr c.m_read_buf text) (str "Connection:") 11 = 0
  · rw [if_pos h1]
    dsimp only
    by_cases hk : strcasecmp
        (cstr c.m_read_buf (text + 11 + strspn c.m_read_buf (text + 11) [32, 9]))
        (str "keep-alive") = 0
    · rw [if_pos hk]
      exact ⟨rfl, rfl⟩
    · rw [if_neg hk]
      exact ⟨rfl, rfl⟩
  · rw [if_neg h1, if_neg hcl]
    by_cases h3 : strncasecmp (cstr c.m_read_buf text) (str "Host:") 5 = 0
    · rw [if_pos h3]
      exact ⟨rfl, rfl⟩
    · rw [if_neg h3]
      exact ⟨rfl, rfl⟩

/-- One pass of the loop of `process_read` in the HEADERS state, on a line for
which `parse_headers` returns NO_REQUEST. -/
theorem process_read_loop_header_line (fs : file_system) (n : Nat) (ls : LINE_STATUS)
    (c l : http_conn) (hs : c.m_check_state = CHECK_STATE.CHECK_STATE_HEADER)
    (hl : c.parse_line = (LINE_STATUS.LINE_OK, l))
    (hls : l.m_check_state = CHECK_STATE.CHECK_STATE_HEADER)
    (hr : (({ l with m_start_line := l.m_checked_idx } : http_conn).parse_headers
      l.m_start_line).1 = HTTP_CODE.NO_REQUEST) :
    process_read_loop fs (n + 1) ls c
      = process_read_loop fs n LINE_STATUS.LINE_OK
          (({ l with m_start_line := l.m_checked_idx } : http_conn).parse_headers
            l.m_start_line).2 := by
  have hne : ¬ (c.m_check_state = CHECK_STATE.CHECK_STATE_CONTENT ∧ ls = LINE_STATUS.LINE_OK) := by
    rw [hs]
    simp
  simp only [process_read_loop, if_neg hne, hl, if_true]
  rw [hr]
  simp only [hls]
  rfl

end http_conn

namespace http_conn

/-- The loop of `process_read` in the HEADERS state, with the cursor at the
first of a sequence of lines that do not start a body, followed by the blank
line: every line is passed over, the blank line completes the request, and
`do_request` runs on a state with the target and the bytes before the lines
as they were. -/
theorem process_read_loop_headers (fs : file_system) (lines : List (List Nat)) :
    ∀ (pre rest : List Nat) (c : http_conn) (n : Nat) (ls : LINE_STATUS),
    c.m_check_state = CHECK_STATE.CHECK_STATE_HEADER → c.m_content_length = 0 →
    c.m_read_buf = pre ++ (header_lines lines ++ 13 :: 10 :: rest) →
    c.m_checked_idx = pre.length → c.m_start_line = pre.length →
    pre.length + (header_lines lines).length + 2 ≤ c.m_read_idx →
    (∀ line ∈ lines, plain_header_line line) → lines.length + 1 ≤ n →
    ∃ (d : http_conn) (tail : List Nat),
      process_read_loop fs n ls c = some (d.do_request fs) ∧
      d.m_read_buf = pre ++ tail ∧ d.m_url = c.m_url ∧
      d.m_request_path = c.m_request_path := by
  induction lines with
  | nil =>
    intro pre rest c n ls hs hcl hb hc hsl hr _ hn
    obtain ⟨m, rfl⟩ : ∃ m, n = m + 1 := ⟨n - 1, by omega⟩
    have hb1 : c.m_read_buf = pre ++ ([] ++ 13 :: 10 :: rest) := hb
    have hp := parse_line_complete c pre [] rest hb1 hc
      (by simp only [header_lines, List.length_nil] at hr ⊢; omega) (by simp)
    generalize hl : ({ c with
        m_read_buf := pre ++ ([] ++ 0 :: 0 :: rest)
        m_checked_idx := pre.length + ([] : List Nat).length + 2 } : http_conn) = l at hp
    have g_buf : l.m_read_buf = pre ++ 0 :: 0 :: rest := by rw [← hl]; rfl
    have g_sl : l.m_start_line = pre.length := by rw [← hl]; exact hsl
    have g_st : l.m_check_state = CHECK_STATE.CHECK_STATE_HEADER := by rw [← hl]; exact hs
    have g_cl : l.m_content_length = 0 := by rw [← hl]; exact hcl
    have g_url : l.m_url = c.m_url := by rw [← hl]
    have g_rp : l.m_request_path = c.m_request_path := by rw [← hl]
    clear hl
    have hph : ({ l with m_start_line := l.m_checked_idx } : http_conn).parse_headers
        l.m_start_line
        = (HTTP_CODE.GET_REQUEST, { l with m_start_line := l.m_checked_idx }) := by
      have h0 : l.m_read_buf.getD l.m_start_line 0 = 0 := by
        rw [g_buf, g_sl]
        exact getD_at _ _ _
      unfold parse_headers
      dsimp only
      rw [if_pos h0, if_neg (not_not.mpr g_cl)]
    rw [process_read_loop_headers_end fs m ls c l _ hs hp g_st hph]
    exact ⟨_, _, rfl, g_buf, g_url, g_rp⟩
  | cons line t ih =>
    intro pre rest c n ls hs hcl hb hc hsl hr hlines hn
    obtain ⟨m, rfl⟩ : ∃ m, n = m + 1 := ⟨n - 1, by omega⟩
    obtain ⟨hne, hbytes, hncl⟩ := hlines line (List.mem_cons_self _ _)
    have hb1 : c.m_read_buf
        = pre ++ (line ++ 13 :: 10 :: (header_lines t ++ 13 :: 10 :: rest)) := by
      rw [hb]
      simp [header_lines]
    have hlen : (header_lines (line :: t)).length = line.length + 2 + (header_lines t).length := by
      simp [header_lines]
      omega
    have hp := parse_line_complete c pre line _ hb1 hc (by omega)
      (fun b hb => ⟨(hbytes b hb).1, (hbytes b hb).2.1⟩)
    generalize hl : ({ c with
        m_read_buf := pre ++ (line ++ 0 :: 0 :: (header_lines t ++ 13 :: 10 :: rest))
        m_checked_idx := pre.length + line.length + 2 } : http_conn) = l at hp
    have g_buf : l.m_read_buf
        = pre ++ (line ++ 0 :: (0 :: (header_lines t ++ 13 :: 10 :: rest))) := by rw [← hl]
    have g_idx : l.m_read_idx = c.m_read_idx := by rw [← hl]
    have g_chk : l.m_checked_idx = pre.length + line.length + 2 := by rw [← hl]
    have g_sl : l.m_start_line = pre.length := by rw [← hl]; exact hsl
    have g_st : l.m_check_state = CHECK_STATE.CHECK_STATE_HEADER := by rw [← hl]; exact hs
    have g_cl : l.m_content_length = 0 := by rw [← hl]; exact hcl
    have g_url : l.m_url = c.m_url := by rw [← hl]
    have g_rp : l.m_request_path = c.m_request_path := by rw [← hl]
    clear hl
    have hcs : cstr l.m_read_buf l.m_start_line = line := by
      rw [g_buf, g_sl]
      exact cstr_at pre line _ (fun b hb => (hbytes b hb).2.2)
    have h0 : l.m_read_buf.getD l.m_start_line 0 ≠ 0 := by
      rw [g_buf, g_sl]
      cases line with
      | nil => exact absurd rfl hne
      | cons a line1 =>
        rw [List.cons_append, getD_at]
        exact (hbytes a (List.mem_cons_self _ _)).2.2
    have hph := parse_headers_plain ({ l with m_start_line := l.m_checked_idx } : http_conn)
      l.m_start_line h0 (by show strncasecmp (cstr l.m_read_buf l.m_start_line) _ 15 ≠ 0
                            rw [hcs]; exact hncl)
    rw [process_read_loop_header_line fs m ls c l hs hp g_st hph.1]
    generalize (({ l with m_start_line := l.m_checked_idx } : http_conn).parse_headers
      l.m_start_line).2 = r at hph
    have hr2 := hph.2
    obtain ⟨d, tail, hd, hdb, hdu, hdp⟩ := ih (pre ++ (line ++ [0, 0])) rest r m
      LINE_STATUS.LINE_OK
      (by rw [hr2]; exact g_st) (by rw [hr2]; exact g_cl)
      (by rw [hr2]; show l.m_read_buf = _; rw [g_buf]; simp)
      (by rw [hr2]; show l.m_checked_idx = _; rw [g_chk]; simp; omega)
      (by rw [hr2]; show l.m_checked_idx = _; rw [g_chk]; simp; omega)
      (by rw [hr2]; show _ ≤ l.m_read_idx; rw [g_idx]; simp; omega)
      (fun x hx => hlines x (List.mem_cons_of_mem _ hx)) (by simp at hn; omega)
    refine ⟨d, (line ++ [0, 0]) ++ tail, hd, ?_, ?_, ?_⟩
    · rw [hdb]
      simp
    · rw [hdu, hr2]
      exact g_url
    · rw [hdp, hr2]
      exact g_rp

end http_conn

theorem header_lines_length (lines : List (List Nat)) :
    lines.length ≤ (header_lines lines).length := by
  induction lines with
  | nil => exact Nat.le_refl _
  | cons line t ih =>
    simp only [header_lines, List.length_cons, List.length_append]
    omega

/-- A GET request without a body, whatever its header lines: for every target
`T` that begins with `/` and holds no space, tab, NUL, CR or LF and every
sequence of header lines that are not empty, hold no CR, LF or NUL and are
not Content-Length lines, the request, received in one piece on a reset
connection whose buffer it fits, gets the result that the lookup of the path
for `T` determines. The header lines have no part in it. -/
theorem get_request_by_lookup (fs : file_system) (c : http_conn) (T : List Nat)
    (lines : List (List Nat))
    (hT : T.head? = some 47)
    (hTs : ∀ b ∈ T, b ≠ 32 ∧ b ≠ 9 ∧ b ≠ 0 ∧ b ≠ 13 ∧ b ≠ 10)
    (hlines : ∀ line ∈ lines, plain_header_line line)
    (hlen : (get_request T lines).length ≤ READ_BUFFER_SIZE) :
    code_of (on_readable fs (get_request T lines) c.init)
      = some
          (match fs (lookup_path T) with
          | none => HTTP_CODE.NO_RESOURCE
          | some e =>
            if e.st_mode &&& S_IROTH = 0 then HTTP_CODE.FORBIDDEN_REQUEST
            else if S_ISDIR e.st_mode then HTTP_CODE.BAD_REQUEST
            else HTTP_CODE.FILE_REQUEST) := by
  have hW : READ_BUFFER_SIZE = 2048 := rfl
  have hGl : (str "GET").length = 3 := by decide
  have hVl : (str "HTTP/1.1").length = 8 := by decide
  have hT0 : ∀ b ∈ T, b ≠ 0 := fun b hb => (hTs b hb).2.2.1
  have hTs3 : ∀ b ∈ T, b ≠ 32 ∧ b ≠ 9 ∧ b ≠ 0 :=
    fun b hb => ⟨(hTs b hb).1, (hTs b hb).2.1, (hTs b hb).2.2.1⟩
  have hn : ¬ strncasecmp T (str "http://") 7 = 0 := by
    cases T with
    | nil => simp at hT
    | cons a T1 =>
      have ha : a = 47 := by simpa using hT
      have : str "http://" = [104, 116, 116, 112, 58, 47, 47] := by decide
      rw [ha, this]
      simp [strncasecmp, strcasecmp, tolower]
  have hg47 : ∀ rest : List Nat,
      (([] : List Nat) ++ (str "GET" ++ 0 :: (T ++ 0 :: rest))).getD
        (([] : List Nat).length + 3 + 1) 0 = 47 := by
    intro rest
    have := getD_after [] (str "GET") 0 (T ++ 0 :: rest) 0
    rw [hGl] at this
    rw [this]
    cases T with
    | nil => simp at hT
    | cons a T1 =>
      have ha : a = 47 := by simpa using hT
      rw [ha]
      rfl
  -- the request: the request line, its terminator, the header lines, the blank line
  have hR : get_request T lines
      = (str "GET" ++ 32 :: (T ++ 32 :: str "HTTP/1.1"))
        ++ 13 :: 10 :: (header_lines lines ++ [13, 10]) := by
    have h1 : str "GET " = str "GET" ++ [32] := by decide
    have h2 : str " HTTP/1.1\r\n" = 32 :: (str "HTTP/1.1" ++ [13, 10]) := by decide
    have h3 : str "\r\n" = [13, 10] := by decide
    unfold get_request
    rw [h1, h2, h3]
    simp
  generalize get_request T lines = R at hR hlen
  generalize hH : header_lines lines = H at hR
  have hHl : lines.length ≤ H.length := by rw [← hH]; exact header_lines_length lines
  have hL1l : (str "GET" ++ 32 :: (T ++ 32 :: str "HTTP/1.1")).length = T.length + 13 := by
    simp only [List.length_append, List.length_cons, hGl, hVl]
    omega
  have hRl : R.length = T.length + 15 + H.length + 2 := by
    rw [hR, List.length_append, hL1l]
    simp only [List.length_cons, List.length_append, List.length_nil]
    omega
  have hL1 : ∀ b ∈ str "GET" ++ 32 :: (T ++ 32 :: str "HTTP/1.1"), b ≠ 13 ∧ b ≠ 10 := by
    intro b hb
    rcases List.mem_append.1 hb with h | h
    · exact (by decide : ∀ b ∈ str "GET", b ≠ 13 ∧ b ≠ 10) b h
    · rcases List.mem_cons.1 h with h | h
      · rw [h]
        decide
      · rcases List.mem_append.1 h with h | h
        · exact ⟨(hTs b h).2.2.2.1, (hTs b h).2.2.2.2⟩
        · rcases List.mem_cons.1 h with h | h
          · rw [h]
            decide
          · exact (by decide : ∀ b ∈ str "HTTP/1.1", b ≠ 13 ∧ b ≠ 10) b h
  unfold code_of
  rw [on_readable_after_init fs c R (by omega) (by omega)]
  generalize hZ : zeros (READ_BUFFER_SIZE - R.length) = Z
  generalize hc1 : ({ c.init with m_read_buf := R ++ Z, m_read_idx := R.length } : http_conn) = c1
  have f_buf : c1.m_read_buf
      = [] ++ ((str "GET" ++ 32 :: (T ++ 32 :: str "HTTP/1.1"))
          ++ 13 :: 10 :: (H ++ 13 :: 10 :: Z)) := by
    rw [← hc1]
    show R ++ Z = _
    rw [hR]
    simp
  have f_idx : c1.m_read_idx = R.length := by rw [← hc1]
  have f_chk : c1.m_checked_idx = ([] : List Nat).length := by rw [← hc1]; rfl
  have f_sl : c1.m_start_line = ([] : List Nat).length := by rw [← hc1]; rfl
  have f_st : c1.m_check_state = CHECK_STATE.CHECK_STATE_REQUESTLINE := by rw [← hc1]; rfl
  have f_cl : c1.m_content_length = 0 := by rw [← hc1]; rfl
  have f_rp : c1.m_request_path = zeros FILENAME_LEN := by rw [← hc1]; rfl
  clear hc1
  unfold http_conn.process_read
  rw [f_idx, f_chk, show 2 * (R.length - ([] : List Nat).length) + 3
    = (2 * R.length + 1) + 1 + 1 from by simp only [List.length_nil]; omega]
  have hfuel : lines.length + 1 ≤ 2 * R.length + 1 + 1 := by omega
  generalize 2 * R.length + 1 = n at hfuel
  -- first pass: the request line
  have hp1 := http_conn.parse_line_complete c1 [] _ _ f_buf f_chk
    (by rw [f_idx, hRl, hL1l]; simp; omega) hL1
  generalize hl1 : ({ c1 with
      m_read_buf := [] ++ ((str "GET" ++ 32 :: (T ++ 32 :: str "HTTP/1.1")) ++
        0 :: 0 :: (H ++ 13 :: 10 :: Z))
      m_checked_idx := ([] : List Nat).length
        + (str "GET" ++ 32 :: (T ++ 32 :: str "HTTP/1.1")).length + 2 } : http_conn) = l1 at hp1
  have g_buf : l1.m_read_buf
      = [] ++ (str "GET" ++ 32 :: (T ++ 32 :: (str "HTTP/1.1" ++
          0 :: (0 :: (H ++ 13 :: 10 :: Z))))) := by
    rw [← hl1]
    simp
  have g_idx : l1.m_read_idx = R.length := by rw [← hl1]; exact f_idx
  have g_chk : l1.m_checked_idx = T.length + 15 := by
    rw [← hl1]
    show ([] : List Nat).length + _ + 2 = _
    rw [hL1l]
    simp
  have g_sl : l1.m_start_line = ([] : List Nat).length := by rw [← hl1]; exact f_sl
  have g_st : l1.m_check_state = CHECK_STATE.CHECK_STATE_REQUESTLINE := by rw [← hl1]; exact f_st
  have g_cl : l1.m_content_length = 0 := by rw [← hl1]; exact f_cl
  have g_rp : l1.m_request_path = zeros FILENAME_LEN := by rw [← hl1]; exact f_rp
  clear hl1
  -- the request line is accepted
  have hprl := parse_request_line_shape
    ({ l1 with m_start_line := l1.m_checked_idx } : http_conn) [] T
    (0 :: (H ++ 13 :: 10 :: Z)) 32 32 (Or.inl rfl) (Or.inl rfl) hTs3 g_buf
  rw [if_neg hn] at hprl
  dsimp only at hprl
  rw [if_neg (not_not.mpr (hg47 _))] at hprl
  rw [← g_sl] at hprl
  obtain ⟨r1, hr1, k_buf, k_idx, k_chk, k_sl, k_st, k_cl, k_rp, k_url⟩ :
      ∃ r1 : http_conn,
        ({ l1 with m_start_line := l1.m_checked_idx } : http_conn).parse_request_line
          l1.m_start_line = (HTTP_CODE.NO_REQUEST, r1) ∧
        r1.m_read_buf = [] ++ (str "GET" ++ 0 :: (T ++ 0 :: (str "HTTP/1.1" ++
          0 :: (0 :: (H ++ 13 :: 10 :: Z))))) ∧
        r1.m_read_idx = R.length ∧ r1.m_checked_idx = T.length + 15 ∧
        r1.m_start_line = T.length + 15 ∧
        r1.m_check_state = CHECK_STATE.CHECK_STATE_HEADER ∧ r1.m_content_length = 0 ∧
        r1.m_request_path = zeros FILENAME_LEN ∧ r1.m_url = some 4 :=
    ⟨_, hprl, rfl, g_idx, g_chk, g_chk, rfl, g_cl, g_rp,
      by show some (l1.m_start_line + 3 + 1) = some 4; rw [g_sl]; rfl⟩
  rw [http_conn.process_read_loop_request_line fs (n + 1) _ c1 l1 r1 f_st hp1 g_st hr1]
  clear hprl hr1 hp1
  -- the header lines and the blank line
  have hpre2 : (str "GET" ++ 0 :: (T ++ 0 :: (str "HTTP/1.1" ++ [0, 0]))).length
      = T.length + 15 := by
    simp only [List.length_append, List.length_cons, List.length_nil, hGl, hVl]
    omega
  have k_buf2 : r1.m_read_buf
      = (str "GET" ++ 0 :: (T ++ 0 :: (str "HTTP/1.1" ++ [0, 0])))
        ++ (header_lines lines ++ 13 :: 10 :: Z) := by
    rw [k_buf, hH]
    simp
  obtain ⟨d, tail, hd, hdb, hdu, hdp⟩ := http_conn.process_read_loop_headers fs lines
    (str "GET" ++ 0 :: (T ++ 0 :: (str "HTTP/1.1" ++ [0, 0]))) Z r1 (n + 1) LINE_STATUS.LINE_OK
    k_st k_cl k_buf2 (by rw [k_chk, hpre2]) (by rw [k_sl, hpre2])
    (by rw [k_idx, hRl, hpre2, hH]) hlines hfuel
  rw [hd]
  -- the lookup
  have hcs : cstr d.m_read_buf 4 = T := by
    rw [hdb]
    have h1 : (str "GET" ++ 0 :: (T ++ 0 :: (str "HTTP/1.1" ++ [0, 0]))) ++ tail
        = [] ++ (str "GET" ++ 0 :: (T ++ 0 :: (str "HTTP/1.1" ++ [0, 0] ++ tail))) := by
      simp
    have h2 := cstr_after [] (str "GET") 0 (T ++ 0 :: (str "HTTP/1.1" ++ [0, 0] ++ tail)) 0
    rw [hGl] at h2
    rw [h1]
    show cstr _ (([] : List Nat).length + 3 + 1 + 0) = T
    rw [h2]
    exact cstr_of_terminated T _ hT0
  have hcode := http_conn.do_request_code fs d 4
    (by rw [hdp, k_rp]; rfl) (by rw [hdp, k_rp]; rfl) (by rw [hdu, k_url])
  show some (d.do_request fs).1 = _
  rw [hcode, hcs]

/-- C21, with the failing input. For every connection, on a non-empty line
that begins with none of `Connection:`, `Content-Length:` and `Host:`
(compared without regard to case) `parse_headers` returns NO_REQUEST and
changes nothing. For a GET request without a Content-Length line that fits
the buffer, adding an unrecognized line among its header lines does not
change the result code. Yet for a request with a Content-Length line it can:
`negative_39_request` makes `parse_content` store its NUL 39 bytes before the
end of the request, inside the target, which becomes `/index`, and the result
is NO_RESOURCE; with the line `X-Trace: 1` added the same store falls 12
bytes further on, behind the target, and the result is FILE_REQUEST. -/
theorem unrecognized_header_moves_stray_store :
    (∀ (c : http_conn) (text : Nat),
      c.m_read_buf.getD text 0 ≠ 0 →
      strncasecmp (cstr c.m_read_buf text) (str "Connection:") 11 ≠ 0 →
      strncasecmp (cstr c.m_read_buf text) (str "Content-Length:") 15 ≠ 0 →
      strncasecmp (cstr c.m_read_buf text) (str "Host:") 5 ≠ 0 →
      c.parse_headers text = (HTTP_CODE.NO_REQUEST, c)) ∧
    (∀ (fs : file_system) (c : http_conn) (T : List Nat) (before after : List (List Nat))
        (line : List Nat),
      T.head? = some 47 → (∀ b ∈ T, b ≠ 32 ∧ b ≠ 9 ∧ b ≠ 0 ∧ b ≠ 13 ∧ b ≠ 10) →
      (∀ l ∈ before ++ after, plain_header_line l) → unrecognized_header_line line →
      (get_request T (before ++ line :: after)).length ≤ READ_BUFFER_SIZE →
      code_of (on_readable fs (get_request T (before ++ line :: after)) c.init)
        = code_of (on_readable fs (get_request T (before ++ after)) c.init)) ∧
    unrecognized_header_line (str "X-Trace: 1") ∧
    code_of (on_readable small_site
        (get_request (str "/index.html") [str "Host: x", str "X-Trace: 1"]) fresh_conn)
      = some HTTP_CODE.FILE_REQUEST ∧
    negative_39_request_extended
      = negative_39_request.take 26 ++ str "X-Trace: 1\r\n" ++ negative_39_request.drop 26 ∧
    code_of (on_readable small_site negative_39_request fresh_conn)
      = some HTTP_CODE.NO_RESOURCE ∧
    (on_readable small_site negative_39_request fresh_conn).map
        (fun r => r.2.m_url.map (cstr r.2.m_read_buf)) = some (some (str "/index")) ∧
    code_of (on_readable small_site negative_39_request_extended fresh_conn)
      = some HTTP_CODE.FILE_REQUEST ∧
    (on_readable small_site negative_39_request_extended fresh_conn).map
        (fun r => r.2.m_url.map (cstr r.2.m_read_buf)) = some (some (str "/index.html")) := by
  refine ⟨?_, ?_, ⟨⟨by decide, by decide, by decide⟩, by decide, by decide⟩, by decide!,
    by decide, by decide!, by decide!, by decide!, by decide!⟩
  · intro c text h0 h1 h2 h3
    unfold http_conn.parse_headers
    rw [if_neg h0, if_neg h1, if_neg h2, if_neg h3]
  · intro fs c T before after line hT hTs hplain hline hfit
    have hall : ∀ l ∈ before ++ line :: after, plain_header_line l := by
      intro l hl
      rcases List.mem_append.1 hl with h | h
      · exact hplain l (List.mem_append_left _ h)
      · rcases List.mem_cons.1 h with h | h
        · rw [h]
          exact hline.1
        · exact hplain l (List.mem_append_right _ h)
    have hshort : (get_request T (before ++ after)).length
        ≤ (get_request T (before ++ line :: after)).length := by
      have hl : ∀ (a b : List (List Nat)),
          (header_lines (a ++ b)).length = (header_lines a).length + (header_lines b).length := by
        intro a b
        induction a with
        | nil => simp [header_lines]
        | cons x a ih =>
          rw [List.cons_append]
          simp only [header_lines, List.length_append, List.length_cons]
          rw [ih]
          omega
      unfold get_request
      simp only [List.length_append, hl, header_lines, List.length_cons]
      omega
    rw [get_request_by_lookup fs c T _ hT hTs hall hfit,
      get_request_by_lookup fs c T _ hT hTs hplain (Nat.le_trans hshort hfit)]

/-! ## The cursor invariant and the store of `parse_content` -/

/-- C25, with the failing input. The predicate `m_checked_idx ≤ m_read_idx ≤
READ_BUFFER_SIZE` holds after `init()`; on a connection where it holds, it
holds again after `read()` for every sequence of receive results, and `read()`
leaves the cursor and every byte of the buffer below the old `m_read_idx` as
they were; it holds again after `parse_line`, which does not decrease
`m_checked_idx`. For `process_read` the claim fails: on a connection where the
predicate holds the method either returns with the predicate and a cursor that
has not moved back, or has no defined result, because one of its passes calls
a `parse_content` whose `int` sum overflows or whose store falls outside the
read buffer. Both cases occur. The request `huge_length_request` carries
`Content-Length: 2147483647`; received on a fresh connection it leaves the
predicate in force, the fourth pass of `process_read` enters `parse_content`
with `m_checked_idx = 56`, the sum `2147483647 + 56` is outside the `int`
range, and `process_read` has no defined result. -/
theorem cursor_invariant_up_to_body_store :
    (∀ c0 : http_conn, c0.init.cursor_inv) ∧
    (∀ c : http_conn, c.cursor_inv → ∀ script : List recv_result,
      (c.read script).2.cursor_inv ∧
      (c.read script).2.m_checked_idx = c.m_checked_idx ∧
      c.m_read_idx ≤ (c.read script).2.m_read_idx ∧
      ∀ j < c.m_read_idx, (c.read script).2.m_read_buf.getD j 0 = c.m_read_buf.getD j 0) ∧
    (∀ c : http_conn, c.cursor_inv →
      c.parse_line.2.cursor_inv ∧ c.m_checked_idx ≤ c.parse_line.2.m_checked_idx) ∧
    (∀ (fs : file_system) (c : http_conn), c.cursor_inv →
      (∃ r : HTTP_CODE × http_conn, c.process_read fs = some r ∧
        r.2.cursor_inv ∧ c.m_checked_idx ≤ r.2.m_checked_idx) ∨
      (c.process_read fs = none ∧
        ∃ k ls d, c.after_passes fs k LINE_STATUS.LINE_OK = some (ls, d) ∧
          d.process_read_pass fs ls = pass_result.undefined)) ∧
    (line_and_a_bit.cursor_inv ∧
      ∃ r : HTTP_CODE × http_conn, line_and_a_bit.process_read small_site = some r) ∧
    (fresh_conn.read [recv_result.bytes huge_length_request, recv_result.would_block]).1
      = true ∧
    (fresh_conn.read [recv_result.bytes huge_length_request,
      recv_result.would_block]).2.cursor_inv ∧
    ((fresh_conn.read [recv_result.bytes huge_length_request,
        recv_result.would_block]).2.after_passes small_site 3 LINE_STATUS.LINE_OK).map
        (fun r => (r.1, r.2.position))
      = some (LINE_STATUS.LINE_OK,
          (CHECK_STATE.CHECK_STATE_CONTENT, 56, 56, 56, 2147483647)) ∧
    huge_length_at_body.cursor_inv ∧
    wrap32 (huge_length_at_body.m_content_length + (huge_length_at_body.m_checked_idx : Int))
      ≠ huge_length_at_body.m_content_length + (huge_length_at_body.m_checked_idx : Int) ∧
    huge_length_at_body.process_read_pass small_site LINE_STATUS.LINE_OK
      = pass_result.undefined ∧
    (fresh_conn.read [recv_result.bytes huge_length_request,
      recv_result.would_block]).2.process_read small_site = none ∧
    on_readable small_site huge_length_request fresh_conn = none := by
  refine ⟨fun c0 => ⟨Nat.le_refl _, Nat.zero_le _⟩,
    fun c h script => http_conn.read_cursor script c h,
    fun c h => http_conn.later_cursor c _ h (http_conn.later.parse_line c http_conn.later.refl),
    fun fs c h => ?_, ⟨⟨by decide!, by decide!⟩, ?_⟩, by decide!, ⟨by decide!, by decide!⟩,
    by decide!, ⟨by decide!, by decide!⟩, by decide!, by decide!, by decide!, by decide!⟩
  · rcases http_conn.process_read_ends fs c with ⟨r, hr⟩ | hu
    · exact Or.inl ⟨r, hr, http_conn.later_cursor c r.2 h
        (http_conn.later_process_read fs c c r http_conn.later.refl hr)⟩
    · exact Or.inr hu
  · rcases http_conn.process_read_ends small_site line_and_a_bit with hr | hu
    · exact hr
    · exact absurd hu.1 (by decide!)

/-! ## Resumption of `write()` after would-block -/

/-- C11, at the failing input: `writev` accepts 50 bytes of the 124-byte
response of `reply_ready`, then 1 byte, and then would block. `write()` returns
true; the send accounting (51 sent, 73 pending) and everything outside the
descriptors are kept. The descriptors are not: the first has length 0 and the
second points 36 bytes before the mapped file with length 73, so they do not
denote the 73 unsent bytes (header bytes 51..86 and the file), and no bytes at
all inside the buffers. When the socket then accepts 73 bytes, the resumed
`write()` takes the response as sent and resets the connection. After a single
partial send the descriptors are right. For every connection and every
sequence of `writev` results the rest of the claim holds: the return value, and
on would-block the accounting and the fields outside the descriptors. -/
theorem would_block_keeps_misplaced_descriptors :
    reply_ready.bytes_to_send = 124 ∧ reply_ready.m_write_idx = 87 ∧
    reply_ready.pending = some reply_ready.response ∧
    send_ending_of [send_result.sent 50, send_result.sent 1, send_result.would_block]
      reply_ready.bytes_to_send = send_ending.would_block ∧
    (reply_ready.write [send_result.sent 50, send_result.sent 1, send_result.would_block]).1
      = true ∧
    reply_ready.resumable_from reply_interrupted ∧
    reply_interrupted.bytes_have_send = 51 ∧ reply_interrupted.bytes_to_send = 73 ∧
    reply_interrupted.m_iv_count = 2 ∧
    reply_interrupted.m_iv_0.iov_len = 0 ∧
    reply_interrupted.m_iv_1 = { iov_region := region.file, iov_off := -36, iov_len := 73 } ∧
    reply_interrupted.pending = none ∧
    reply_interrupted.pending ≠ some (reply_ready.response.drop 51) ∧
    reply_interrupted.m_linger = true ∧
    send_ending_of [send_result.sent 73] reply_interrupted.bytes_to_send
      = send_ending.completed ∧
    ((reply_interrupted.write [send_result.sent 73]).1 = true ∧
      ∃ c0 : http_conn, (reply_interrupted.write [send_result.sent 73]).2 = c0.init) ∧
    (reply_ready.write [send_result.sent 50, send_result.would_block]).2.pending
      = some (reply_ready.response.drop 50) ∧
    (∀ (script : List send_result) (c : http_conn),
      (c.bytes_to_send = 0 → c.write script = (true, c.init)) ∧
      (c.bytes_to_send ≠ 0 →
        ((c.write script).1 = false ↔
          (send_ending_of script c.bytes_to_send = send_ending.failed ∨
            (send_ending_of script c.bytes_to_send = send_ending.completed ∧
              c.m_linger = false))) ∧
        (send_ending_of script c.bytes_to_send = send_ending.would_block →
          (c.write script).1 = true ∧
          c.resumable_from (c.write script).2 ∧
          (c.write script).2.bytes_have_send
            = c.bytes_have_send + accepted_bytes script c.bytes_to_send ∧
          (c.write script).2.bytes_to_send
            = c.bytes_to_send - accepted_bytes script c.bytes_to_send) ∧
        (∀ rest, script = send_result.would_block :: rest → c.write script = (true, c)) ∧
        (send_ending_of script c.bytes_to_send = send_ending.completed → c.m_linger = true →
          (c.write script).1 = true ∧ ∃ c0 : http_conn, (c.write script).2 = c0.init))) := by
  have hne : reply_ready.bytes_to_send ≠ 0 := by decide!
  have hwb : send_ending_of
      [send_result.sent 50, send_result.sent 1, send_result.would_block]
      reply_ready.bytes_to_send = send_ending.would_block := by decide!
  have hres : reply_ready.resumable_from reply_interrupted :=
    (((http_conn.write_outcome_by_ending _ reply_ready).2 hne).2.1 hwb).2.1
  have hne1 : reply_interrupted.bytes_to_send ≠ 0 := by decide!
  have hdone : send_ending_of [send_result.sent 73] reply_interrupted.bytes_to_send
      = send_ending.completed := by decide!
  have hlinger : reply_interrupted.m_linger = true := by decide!
  have hreset := ((http_conn.write_outcome_by_ending [send_result.sent 73]
    reply_interrupted).2 hne1).2.2.2 hdone hlinger
  exact ⟨by decide!, by decide!, by decide!, hwb, by decide!, hres, by decide!, by decide!,
    by decide!, by decide!, by decide!, by decide!, by decide!, hlinger, hdone, hreset,
    by decide!, fun script c => http_conn.write_outcome_by_ending script c⟩

/-! ## Keep-alive: the connection after the reset -/

/-- A readable event has the same outcome on two connections that agree in
the fields `init()` resets: none on both (when `read()` fails, or when
`process_read` has no defined result), or the same result code and the same
fields. -/
theorem on_readable_same (fs : file_system) (chunk : List Nat) {c1 c2 : http_conn}
    (h : c1.forget = c2.forget) :
    (on_readable fs chunk c1).map (fun r => (r.1, parsed_fields r.2))
      = (on_readable fs chunk c2).map (fun r => (r.1, parsed_fields r.2)) := by
  have hidx : c1.m_read_idx = c2.m_read_idx := by
    have := congrArg http_conn.m_read_idx h
    exact this
  have hread := http_conn.same_of_forget
    (fun c => c.read (recv_script chunk (READ_BUFFER_SIZE - c2.m_read_idx)))
    (fun c => http_conn.read_forget _ c) h
  have hsame := http_conn.process_read_same fs hread.2
  have hmap : ∀ r : Option (HTTP_CODE × http_conn),
      r.map (fun r => (r.1, parsed_fields r.2))
        = (r.map (fun r => (r.1, r.2.forget))).map (fun p => (p.1, parsed_fields p.2)) := by
    intro r
    cases r <;> rfl
  unfold on_readable
  rw [hidx]
  have h1 : (c1.read (recv_script chunk (READ_BUFFER_SIZE - c2.m_read_idx))).1
      = (c2.read (recv_script chunk (READ_BUFFER_SIZE - c2.m_read_idx))).1 := hread.1
  rw [h1]
  split
  · rw [hmap, hmap (http_conn.process_read fs _), hsame]
  · rfl

/-- C10 as amended: when the keep-alive flag is set and the socket accepts all
pending bytes, `write()` returns `true` and leaves the connection as `init()`
does: main state REQUEST_LINE, the three cursors zero and the read buffer
zeroed, so bytes of a following request that were already in the buffer are
gone and the next `process_read` returns NO_REQUEST. For bytes that are
received after that reset the next readable event has the outcome it has on a
fresh connection: the same result code and the same fields, or no result on
either (when `read()` fails, or when `process_read` has no defined result). In
particular every GET request without a body (a target that begins with `/`,
header lines that are not Content-Length lines) that fits the buffer and is
received in one piece after the reset gets the result code that the lookup of
its path determines. -/
theorem keep_alive_resets_connection (fs : file_system) (c : http_conn) (sends : List Nat)
    (hl : c.m_linger = true) (hp : 0 < c.bytes_to_send)
    (hall : c.bytes_to_send ≤ (sends.map Int.ofNat).sum) :
    (c.write (sends.map send_result.sent)).1 = true ∧
    (c.write (sends.map send_result.sent)).2.m_check_state
      = CHECK_STATE.CHECK_STATE_REQUESTLINE ∧
    (c.write (sends.map send_result.sent)).2.m_read_idx = 0 ∧
    (c.write (sends.map send_result.sent)).2.m_checked_idx = 0 ∧
    (c.write (sends.map send_result.sent)).2.m_start_line = 0 ∧
    (c.write (sends.map send_result.sent)).2.m_read_buf = zeros READ_BUFFER_SIZE ∧
    (c.write (sends.map send_result.sent)).2.process_read fs
      = some (HTTP_CODE.NO_REQUEST, (c.write (sends.map send_result.sent)).2) ∧
    (∀ chunk : List Nat,
      (on_readable fs chunk (c.write (sends.map send_result.sent)).2).map
          (fun r => (r.1, parsed_fields r.2))
        = (on_readable fs chunk fresh_conn).map (fun r => (r.1, parsed_fields r.2))) ∧
    (∀ (T : List Nat) (lines : List (List Nat)),
      T.head? = some 47 →
      (∀ b ∈ T, b ≠ 32 ∧ b ≠ 9 ∧ b ≠ 0 ∧ b ≠ 13 ∧ b ≠ 10) →
      (∀ line ∈ lines, plain_header_line line) →
      (get_request T lines).length ≤ READ_BUFFER_SIZE →
      code_of (on_readable fs (get_request T lines) (c.write (sends.map send_result.sent)).2)
        = some
            (match fs (lookup_path T) with
            | none => HTTP_CODE.NO_RESOURCE
            | some e =>
              if e.st_mode &&& S_IROTH = 0 then HTTP_CODE.FORBIDDEN_REQUEST
              else if S_ISDIR e.st_mode then HTTP_CODE.BAD_REQUEST
              else HTTP_CODE.FILE_REQUEST)) := by
  obtain ⟨c0, h0⟩ := http_conn.write_loop_completes sends c hl hp hall
  have hw : c.write (sends.map send_result.sent) = (true, c0.init) := by
    unfold http_conn.write
    rw [if_neg (by omega), h0]
  rw [hw]
  exact ⟨rfl, rfl, rfl, rfl, rfl, rfl, http_conn.process_read_after_init fs c0,
    fun chunk => on_readable_same fs chunk (http_conn.init_forget c0),
    fun T lines hT hTs hlines hlen => get_request_by_lookup fs c0 T lines hT hTs hlines hlen⟩

/-- C10, an instance: the pipelined connection, whose 124 pending bytes the
socket accepts in one call; `second_request` received after the reset is
answered FILE_REQUEST, as on a fresh connection. -/
theorem keep_alive_resets_connection_sample :
    pipelined_ready.m_linger = true ∧ (0 : Int) < pipelined_ready.bytes_to_send ∧
    pipelined_ready.bytes_to_send ≤ (([124] : List Nat).map Int.ofNat).sum ∧
    (pipelined_ready.write (([124] : List Nat).map send_result.sent)).2.process_read small_site
      = some (HTTP_CODE.NO_REQUEST,
          (pipelined_ready.write (([124] : List Nat).map send_result.sent)).2) ∧
    (on_readable small_site second_request
        (pipelined_ready.write (([124] : List Nat).map send_result.sent)).2).map
        (fun r => (r.1, parsed_fields r.2))
      = (on_readable small_site second_request fresh_conn).map
          (fun r => (r.1, parsed_fields r.2)) ∧
    code_of (on_readable small_site second_request
        (pipelined_ready.write (([124] : List Nat).map send_result.sent)).2)
      = some HTTP_CODE.FILE_REQUEST ∧
    code_of (on_readable small_site second_request fresh_conn)
      = some HTTP_CODE.FILE_REQUEST :=
  have h := keep_alive_resets_connection small_site pipelined_ready [124] (by decide!)
    (by decide!) (by decide!)
  ⟨by decide!, by decide!, by decide!, h.2.2.2.2.2.2.1, h.2.2.2.2.2.2.2.1 second_request,
    by decide!, by decide!⟩
